import Mathlib

/-!
# ptnetmap host side: a shallow embedding of `sys/dev/netmap/ptnetmap.c`

The file embeds the passthrough worker loops (`ptnetmap_tx_handler`,
`ptnetmap_rx_handler`) and the session lifecycle (`ptnetmap_create`,
`ptnetmap_delete`, `ptnetmap_ctl`) and proves properties of them.

Conventions.

* `uint32_t` values are natural numbers below `U32 = 2^32`; every C operation
  that can wrap is written with an explicit `% U32`.
* A C `int` that holds the result of unsigned arithmetic (`batch`) is kept as
  its 32-bit two's-complement bit pattern: it is negative exactly when the
  pattern is at least `2^31`.
* Everything a worker cannot control (the guest writing the CSB, the backend
  sync, the session flags flipped by another thread) is a field of `World`,
  indexed by the number of actions the worker has performed so far, so that
  every interleaving of guest, backend and control plane is some `World`.
* A worker records its actions in a log, newest first; the `trace` of a run is
  that log in program order.

The build configuration embedded is the one of the source file:
`PTN_TX_BATCH_LIM` and `PTN_AVOID_NM_PROLOGUE` defined, `BUSY_WAIT` and `RATE`
undefined.
-/

namespace Ptnetmap

/-! ## Machine integers and constants -/

/-- Number of values of a `uint32_t`. -/
def U32 : Nat := 4294967296

/-- Smallest bit pattern that is negative when read as a 32-bit `int`. -/
def INT_SIGN : Nat := 2147483648

def ENXIO : Nat := 6
def ENOMEM : Nat := 12
def EFAULT : Nat := 14
def EBUSY : Nat := 16
def EINVAL : Nat := 22

/-- The value of `PTN_RX_NOWORK_CYCLE` (line 13). -/
def PTN_RX_NOWORK_CYCLE : Nat := 10

/-- The value of `PTN_TX_BATCH_LIM` (line 14): `nkr_num_slots >> 1`. -/
def PTN_TX_BATCH_LIM (nkr_num_slots : Nat) : Nat := nkr_num_slots >>> 1

/-! ## Data model -/

/-- Function pointers that can be stored in an `nm_notify` or `save_notify`
slot: the passthrough callback of this file, or any other function. -/
inductive notify_fn where
  | nm_pt_host_notify
  | other (id : Nat)
  deriving DecidableEq, Repr

/-- The fields of `struct netmap_kring` that this file reads or writes. -/
structure netmap_kring where
  nkr_num_slots : Nat
  nr_hwcur : Nat
  nr_hwtail : Nat
  rhead : Nat
  rcur : Nat
  rtail : Nat
  nm_notify : Option notify_fn
  save_notify : Option notify_fn
  deriving DecidableEq, Repr

/-- The fields of the parent `struct netmap_adapter` that this file reads or
writes. `na_private` is a pointer: `none` is `NULL`. -/
structure netmap_adapter where
  nm_notify : Option notify_fn
  na_private : Option Nat
  num_tx_rings : Nat
  num_rx_rings : Nat
  tx_rings : List netmap_kring
  rx_rings : List netmap_kring
  deriving DecidableEq, Repr

/-- A `struct ptn_cfg`: the two ring descriptors and the CSB pointer. -/
structure ptn_cfg where
  tx_ioeventfd : Nat
  tx_irqfd : Nat
  rx_ioeventfd : Nat
  rx_irqfd : Nat
  csb : Nat
  deriving DecidableEq, Repr

/-- A `struct ptnetmap_state` (lines 115-127). Workers are named by handles;
`none` is `NULL`. -/
structure ptnetmap_state where
  ptk_tx : Option Nat
  ptk_rx : Option Nat
  config : ptn_cfg
  csb : Nat
  configured : Bool
  stopped : Bool
  pth_na : Option Nat
  deriving DecidableEq, Repr

/-- A `struct netmap_pt_host_adapter`. `self` is the address of the adapter,
the value stored in the parent's `na_private`; `passthrough_on` is the result
of `nm_passthrough_host_on` on it. -/
structure netmap_pt_host_adapter where
  self : Nat
  passthrough_on : Bool
  parent : netmap_adapter
  parent_nm_notify : Option notify_fn
  ptn_state : Option ptnetmap_state
  deriving DecidableEq, Repr

/-- One `CSB_WRITE` of the initial snapshot: direction (`true` is TX), field
number (0 head, 1 cur, 2 hwcur, 3 hwtail) and value. -/
structure csb_write where
  tx : Bool
  field : Nat
  val : Nat
  deriving DecidableEq, Repr

/-- Kernel state the lifecycle functions act on: the passthrough adapter, the
workers that exist, the workers that are started, and the snapshot writes
that reached the CSB. -/
structure Host where
  pth_na : netmap_pt_host_adapter
  kthreads : List Nat
  running : List Nat
  csb_log : List csb_write
  deriving DecidableEq, Repr

/-- What the lifecycle functions get from outside: the allocator, `copyin`,
the worker primitives and the faults of the CSB page. `csb_write_fault n`
tells whether the `n`-th `CSB_WRITE` of the snapshot (0..3 TX, 4..7 RX)
faults. -/
structure CtlEnv where
  malloc_ok : Bool
  sizeof_ptn_cfg : Nat
  copyin : Option ptn_cfg
  ptn_kthread_create_tx : Option Nat
  ptn_kthread_create_rx : Option Nat
  csb_write_fault : Nat → Bool
  ptn_kthread_start_tx : Nat
  ptn_kthread_start_rx : Nat

/-- The `nr_cmd` values `ptnetmap_ctl` switches on. -/
inductive nr_cmd where
  | NETMAP_PT_HOST_CREATE
  | NETMAP_PT_HOST_DELETE
  | other (code : Nat)
  deriving DecidableEq, Repr

/-! ## Worker loops: events, world, state -/

/-- Actions of a worker, in the vocabulary of the source. -/
inductive Event where
  | nm_kr_tryget (ret : Nat)
  | set_hostkick (val : Nat)
  | read_kring_csb (head cur flags : Nat)
  | nm_sync (rhead rcur flags : Nat) (ret : Int)
  | write_kring_csb (hwcur hwtail : Nat)
  | rtail_update (rtail : Nat)
  | get_guestkick (v : Nat)
  | set_guestkick (val : Nat)
  | send_irq
  | usleep_range
  | nm_kr_put
  deriving DecidableEq, Repr

/-- The events that read or write the CSB. -/
def Event.csb_access : Event → Bool
  | .set_hostkick _ => true
  | .read_kring_csb _ _ _ => true
  | .write_kring_csb _ _ => true
  | .get_guestkick _ => true
  | .set_guestkick _ => true
  | _ => false

/-- The events that are a call of the backend sync. -/
def Event.is_sync : Event → Bool
  | .nm_sync _ _ _ _ => true
  | _ => false

/-- Everything outside the worker. The index of the time-dependent fields is
the number of actions the worker has logged so far.

* `pts`, `pth_na`: whether `data` and `pts->pth_na` are non-NULL;
* `stopped t`, `configured t`: the session flags as read at time `t`;
* `nm_kr_tryget`: the return value of the try-acquire (0 is success);
* `read_kring_csb t`: the head, cur and sync_flags that
  `ptnetmap_host_read_kring_csb` leaves in `g_head`, `g_cur`, `g_flags`;
* `get_guestkick t`: the value read from `guest_need_{tx,rx}kick`;
* `nm_sync t kring flags`: return value, `nr_hwcur` and `nr_hwtail` after the
  backend sync;
* `nm_kr_txspace`, `NAF_FORCE_RECLAIM`: the helper and the flag bit of
  `netmap_kern.h`. -/
structure World where
  pts : Bool
  pth_na : Bool
  stopped : Nat → Bool
  configured : Nat → Bool
  nm_kr_tryget : Nat
  read_kring_csb : Nat → Nat × Nat × Nat
  get_guestkick : Nat → Nat
  nm_sync : Nat → netmap_kring → Nat → Int × Nat × Nat
  nm_kr_txspace : netmap_kring → Nat
  NAF_FORCE_RECLAIM : Nat

/-- The locals of a handler, the kring it works on, and its log (newest
action first). -/
structure Worker where
  kring : netmap_kring
  g_head : Nat
  g_cur : Nat
  g_flags : Nat
  work : Bool
  cicle_nowork : Nat
  log : List Event
  deriving DecidableEq, Repr

/-- Where control goes at the end of one pass through the `for (;;)` body:
back to the top, or to the label `leave_kr_put` (by `break` or `goto`). -/
inductive Next where
  | again
  | leave_kr_put
  deriving DecidableEq, Repr

/-- Result of running a handler: whether it returned within the allowed
number of loop iterations, its actions in program order, and the kring. -/
structure Run where
  returned : Bool
  trace : List Event
  kring : netmap_kring
  deriving DecidableEq, Repr

/-! ## The TX batching step -/

/-- Lines 228-231: `batch = g_head - kring->nr_hwcur; if (batch < 0) batch +=
nkr_num_slots;`. The subtraction and the addition are `uint32_t` arithmetic
whose result is stored in the `int batch`; the value returned is the bit
pattern of `batch`. -/
def tx_batch (g_head nr_hwcur nkr_num_slots : Nat) : Nat :=
  let batch := (g_head + U32 - nr_hwcur) % U32
  if INT_SIGN ≤ batch then (batch + nkr_num_slots) % U32 else batch

/-- Lines 233-239: the head left in `g_head` by the batching step. The
comparison `batch > PTN_TX_BATCH_LIM` is between an `int` and a `uint32_t`,
hence unsigned, hence a comparison of bit patterns. -/
def tx_batch_head (g_head nr_hwcur nkr_num_slots : Nat) : Nat :=
  if PTN_TX_BATCH_LIM nkr_num_slots < tx_batch g_head nr_hwcur nkr_num_slots then
    let new_head := (nr_hwcur + PTN_TX_BATCH_LIM nkr_num_slots) % U32
    if nkr_num_slots ≤ new_head then (new_head + U32 - nkr_num_slots) % U32 else new_head
  else g_head

/-! ## Steps shared by the two handlers -/

/-- Append an action to the log of a worker. -/
def emit (e : Event) (s : Worker) : Worker :=
  { s with log := e :: s.log }

/-- Lines 255-256 and 443-444: `kring->rhead = g_head; kring->rcur = g_cur;`. -/
def install_heads (s : Worker) : Worker :=
  { s with kring := { s.kring with rhead := s.g_head, rcur := s.g_cur } }

/-- The call `kring->nm_sync(kring, g_flags)` (lines 263, 452): the backend
leaves new values in `nr_hwcur` and `nr_hwtail`; the return value is the
first component. -/
def call_sync (w : World) (s : Worker) : Int × Worker :=
  let r := w.nm_sync s.log.length s.kring s.g_flags
  (r.1, emit (.nm_sync s.kring.rhead s.kring.rcur s.g_flags r.1)
    { s with kring := { s.kring with nr_hwcur := r.2.1 % U32, nr_hwtail := r.2.2 % U32 } })

/-- The call `ptnetmap_host_read_kring_csb(csb_ring, &g_head, &g_cur,
&g_flags, nkr_num_slots)` (lines 224, 297, 309, 430, 488, 500). -/
def host_read_kring_csb (w : World) (s : Worker) : Worker :=
  let r := w.read_kring_csb s.log.length
  emit (.read_kring_csb (r.1 % U32) (r.2.1 % U32) (r.2.2 % U32))
    { s with g_head := r.1 % U32, g_cur := r.2.1 % U32, g_flags := r.2.2 % U32 }

/-- The block `if (work && get_guestkick(csb)) { set_guestkick(csb, 0);
ptn_kthread_send_irq(...); work = false; }` of lines 288-294 and 479-485. At
the label `leave` (lines 338-342, 530-534) the same block appears without the
assignment to `work`, which is dead there. -/
def notify_guest (w : World) (s : Worker) : Worker :=
  if s.work then
    let v := w.get_guestkick s.log.length % U32
    let s1 := emit (.get_guestkick v) s
    if v ≠ 0 then
      { emit .send_irq (emit (.set_guestkick 0) s1) with work := false }
    else s1
  else s

/-- The labels `leave_kr_put` and `leave`: release the kring, then the final
notification block; the handler returns. -/
def leave_kr_put (w : World) (s : Worker) : Run :=
  let s1 := notify_guest w (emit .nm_kr_put s)
  { returned := true, trace := s1.log.reverse, kring := s1.kring }

/-- A run cut short because the allowed number of iterations is used up. -/
def out_of_fuel (s : Worker) : Run :=
  { returned := false, trace := s.log.reverse, kring := s.kring }

/-- A `for (;;)` whose body is `body`, run for at most `fuel` passes: the
loop goes on while the body ends in `again` and is left when it ends in
`leave_kr_put`. The Boolean tells whether the loop was left. -/
def for_ever (body : Worker → Next × Worker) : Nat → Worker → Bool × Worker
  | 0, s => (false, s)
  | fuel + 1, s =>
    match body s with
    | (.again, s1) => for_ever body fuel s1
    | (.leave_kr_put, s1) => (true, s1)

/-! ## The TX handler -/

/-- Lines 242-244: the reclaim hint. -/
def tx_reclaim_hint (w : World) (s : Worker) : Worker :=
  if w.nm_kr_txspace s.kring ≤ s.kring.nkr_num_slots >>> 1 then
    { s with g_flags := s.g_flags ||| w.NAF_FORCE_RECLAIM }
  else s

/-- Lines 228-239 on the worker state. -/
def tx_apply_batch (s : Worker) : Worker :=
  { s with g_head := tx_batch_head s.g_head s.kring.nr_hwcur s.kring.nkr_num_slots }

/-- Lines 268-272: publish `hwcur`/`hwtail` to the CSB and record progress. -/
def tx_publish (s : Worker) : Worker :=
  let s1 := emit (.write_kring_csb s.kring.nr_hwcur s.kring.nr_hwtail) s
  if s1.kring.rtail ≠ s1.kring.nr_hwtail then
    { emit (.rtail_update s1.kring.nr_hwtail) s1 with
      kring := { s1.kring with rtail := s1.kring.nr_hwtail }, work := true }
  else s1

/-- One pass through the body of the `for (;;)` of `ptnetmap_tx_handler`
(lines 226-331). -/
def tx_iter (w : World) (s0 : Worker) : Next × Worker :=
  let s1 := install_heads (tx_reclaim_hint w (tx_apply_batch s0))
  let r := call_sync w s1
  if r.1 ≠ 0 then
    (.leave_kr_put, emit (.set_hostkick 1) r.2)
  else
    let s2 := host_read_kring_csb w (notify_guest w (tx_publish r.2))
    if s2.g_head = s2.kring.rhead then
      let s3 := host_read_kring_csb w (emit (.set_hostkick 1) (emit .usleep_range s2))
      if s3.g_head ≠ s3.kring.rhead then (.again, emit (.set_hostkick 0) s3)
      else (.leave_kr_put, s3)
    else if s2.kring.nr_hwtail = s2.kring.rhead then (.leave_kr_put, s2)
    else if w.stopped s2.log.length || !w.configured s2.log.length then (.leave_kr_put, s2)
    else (.again, s2)

/-- The `for (;;)` of `ptnetmap_tx_handler`, run for at most `fuel` passes.
The Boolean tells whether the loop was left. -/
def tx_loop (w : World) : Nat → Worker → Bool × Worker :=
  for_ever (tx_iter w)

/-- The state in which a handler starts: nothing logged, `work = false`. -/
def Worker.init (kring : netmap_kring) : Worker :=
  { kring := kring, g_head := 0, g_cur := 0, g_flags := 0, work := false,
    cicle_nowork := 0, log := [] }

/-- Lines 214-224 and 420-430: load the locals from the kring, disarm the
host kick, read the guest indices. -/
def prologue (w : World) (s : Worker) : Worker :=
  host_read_kring_csb w
    (emit (.set_hostkick 0) { s with g_head := s.kring.rhead, g_cur := s.kring.rcur })

/-- The function `ptnetmap_tx_handler` (lines 184-343) on the kring
`tx_rings[0]` of the parent adapter. -/
def ptnetmap_tx_handler (w : World) (kring : netmap_kring) (fuel : Nat) : Run :=
  if !w.pts then
    { returned := true, trace := [], kring := kring }
  else if !w.pth_na || w.stopped 0 || !w.configured 0 then
    { returned := true, trace := [], kring := kring }
  else
    let s := emit (.nm_kr_tryget w.nm_kr_tryget) (Worker.init kring)
    if w.nm_kr_tryget ≠ 0 then
      leave_kr_put w s
    else
      let r := tx_loop w fuel (prologue w s)
      if r.1 then leave_kr_put w r.2 else out_of_fuel r.2

/-! ## The RX handler -/

/-- Modelled from the spec: `nm_prev` of `netmap_kern.h`, the index before
`i` in a ring whose last index is `lim` (the spec writes `prev(g_head)`). -/
def nm_prev (i lim : Nat) : Nat :=
  if i = 0 then lim else i - 1

/-- The function `ptnetmap_kr_rxfull` (lines 383-387). -/
def ptnetmap_kr_rxfull (kring : netmap_kring) (g_head : Nat) : Bool :=
  kring.nr_hwtail == nm_prev g_head ((kring.nkr_num_slots + U32 - 1) % U32)

/-- Lines 457-464: publish `hwcur`/`hwtail` to the CSB, record progress and
count the passes without progress. -/
def rx_publish (s : Worker) : Worker :=
  let s1 := emit (.write_kring_csb s.kring.nr_hwcur s.kring.nr_hwtail) s
  if s1.kring.rtail ≠ s1.kring.nr_hwtail then
    { emit (.rtail_update s1.kring.nr_hwtail) s1 with
      kring := { s1.kring with rtail := s1.kring.nr_hwtail }, work := true,
      cicle_nowork := 0 }
  else { s1 with cicle_nowork := s1.cicle_nowork + 1 }

/-- One pass through the body of the `for (;;)` of `ptnetmap_rx_handler`
(lines 432-523). -/
def rx_iter (w : World) (s0 : Worker) : Next × Worker :=
  let s1 := install_heads s0
  let r := call_sync w s1
  if r.1 ≠ 0 then
    (.leave_kr_put, emit (.set_hostkick 1) r.2)
  else
    let s2 := host_read_kring_csb w (notify_guest w (rx_publish r.2))
    if ptnetmap_kr_rxfull s2.kring s2.g_head then
      let s3 := host_read_kring_csb w (emit (.set_hostkick 1) (emit .usleep_range s2))
      if !ptnetmap_kr_rxfull s3.kring s3.g_head then (.again, emit (.set_hostkick 0) s3)
      else (.leave_kr_put, s3)
    else if s2.kring.nr_hwtail = s2.kring.rhead ∨ PTN_RX_NOWORK_CYCLE ≤ s2.cicle_nowork then
      (.leave_kr_put, s2)
    else if w.stopped s2.log.length || !w.configured s2.log.length then (.leave_kr_put, s2)
    else (.again, s2)

/-- The `for (;;)` of `ptnetmap_rx_handler`, run for at most `fuel` passes. -/
def rx_loop (w : World) : Nat → Worker → Bool × Worker :=
  for_ever (rx_iter w)

/-- The function `ptnetmap_rx_handler` (lines 390-535) on the kring
`rx_rings[0]` of the parent adapter. A failed try-acquire jumps to `leave`,
past `nm_kr_put`. -/
def ptnetmap_rx_handler (w : World) (kring : netmap_kring) (fuel : Nat) : Run :=
  if !w.pts then
    { returned := true, trace := [], kring := kring }
  else if !w.pth_na || w.stopped 0 || !w.configured 0 then
    { returned := true, trace := [], kring := kring }
  else
    let s := emit (.nm_kr_tryget w.nm_kr_tryget) (Worker.init kring)
    if w.nm_kr_tryget ≠ 0 then
      let s1 := notify_guest w s
      { returned := true, trace := s1.log.reverse, kring := s1.kring }
    else
      let r := rx_loop w fuel (prologue w s)
      if r.1 then leave_kr_put w r.2 else out_of_fuel r.2

/-! ## Session lifecycle -/

/-- The `M_ZERO` session returned by `malloc` (line 707). -/
def ptnetmap_state.zero : ptnetmap_state :=
  { ptk_tx := none, ptk_rx := none,
    config := { tx_ioeventfd := 0, tx_irqfd := 0, rx_ioeventfd := 0, rx_irqfd := 0, csb := 0 },
    csb := 0, configured := false, stopped := false, pth_na := none }

/-- An all-zero kring, what an index outside a ring array reads as. -/
def netmap_kring.zero : netmap_kring :=
  { nkr_num_slots := 0, nr_hwcur := 0, nr_hwtail := 0, rhead := 0, rcur := 0, rtail := 0,
    nm_notify := none, save_notify := none }

/-- Modelled from the spec: `ptn_kthread_delete`, the kernel-thread primitive
that destroys a worker; the worker stops existing and stops running. Deleting
`NULL` does nothing. -/
def ptn_kthread_delete (ptk : Option Nat) (h : Host) : Host :=
  match ptk with
  | none => h
  | some k => { h with kthreads := h.kthreads.erase k, running := h.running.erase k }

/-- Modelled from the spec: `ptn_kthread_stop`, the kernel-thread primitive
that stops a worker. -/
def ptn_kthread_stop (ptk : Option Nat) (h : Host) : Host :=
  match ptk with
  | none => h
  | some k => { h with running := h.running.erase k }

/-- The label `err` of `ptnetmap_create_kthreads` (lines 640-645). -/
def create_kthreads_err (pts : ptnetmap_state) (h : Host) : Nat × ptnetmap_state × Host :=
  match pts.ptk_tx with
  | some k => (EFAULT, { pts with ptk_tx := none }, ptn_kthread_delete (some k) h)
  | none => (EFAULT, pts, h)

/-- The function `ptnetmap_create_kthreads` (lines 614-646). A worker that
`ptn_kthread_create` returns starts to exist. -/
def ptnetmap_create_kthreads (e : CtlEnv) (pts : ptnetmap_state) (h : Host) :
    Nat × ptnetmap_state × Host :=
  match e.ptn_kthread_create_tx with
  | none => create_kthreads_err { pts with ptk_tx := none } h
  | some tx =>
    let pts1 := { pts with ptk_tx := some tx }
    let h1 := { h with kthreads := tx :: h.kthreads }
    match e.ptn_kthread_create_rx with
    | none => create_kthreads_err { pts1 with ptk_rx := none } h1
    | some rx => (0, { pts1 with ptk_rx := some rx }, { h1 with kthreads := rx :: h1.kthreads })

/-- The function `ptnetmap_kring_snapshot` (lines 573-591); `n` is the number
of the first of its four `CSB_WRITE`s. A write that does not fault reaches
the CSB. -/
def ptnetmap_kring_snapshot (e : CtlEnv) (n : Nat) (tx : Bool) (kring : netmap_kring)
    (h : Host) : Nat × Host :=
  if e.csb_write_fault n then (EFAULT, h)
  else
    let h1 := { h with csb_log := h.csb_log ++ [⟨tx, 0, kring.rhead⟩] }
    if e.csb_write_fault (n + 1) then (EFAULT, h1)
    else
      let h2 := { h1 with csb_log := h1.csb_log ++ [⟨tx, 1, kring.rcur⟩] }
      if e.csb_write_fault (n + 2) then (EFAULT, h2)
      else
        let h3 := { h2 with csb_log := h2.csb_log ++ [⟨tx, 2, kring.nr_hwcur⟩] }
        if e.csb_write_fault (n + 3) then (EFAULT, h3)
        else (0, { h3 with csb_log := h3.csb_log ++ [⟨tx, 3, kring.nr_hwtail⟩] })

/-- The function `ptnetmap_krings_snapshot` (lines 593-608). -/
def ptnetmap_krings_snapshot (e : CtlEnv) (h : Host) : Nat × Host :=
  let r := ptnetmap_kring_snapshot e 0 true (h.pth_na.parent.tx_rings.getD 0 netmap_kring.zero) h
  if r.1 ≠ 0 then r
  else ptnetmap_kring_snapshot e 4 false (h.pth_na.parent.rx_rings.getD 0 netmap_kring.zero) r.2

/-- Body of the loops of lines 747-754: save the ring callback and point the
ring at `nm_pt_host_notify`. -/
def kring_hijack (k : netmap_kring) : netmap_kring :=
  { k with save_notify := k.nm_notify, nm_notify := some .nm_pt_host_notify }

/-- Body of the loops of lines 788-795: put the saved callback back and clear
the save slot. -/
def kring_restore (k : netmap_kring) : netmap_kring :=
  { k with nm_notify := k.save_notify, save_notify := none }

/-- The loop `for (i = 0; i < n; i++) body(&rings[i])`. -/
def for_rings (body : netmap_kring → netmap_kring) : Nat → List netmap_kring → List netmap_kring
  | 0, rings => rings
  | n + 1, rings => List.modify body n (for_rings body n rings)

/-- Lines 738-754 of `ptnetmap_create`: install the session and overwrite
the notification callbacks of the parent. -/
def install_session (pts : ptnetmap_state) (h : Host) : Host :=
  let na := h.pth_na
  let pts1 := { pts with configured := true, pth_na := some na.self }
  let parent := na.parent
  { h with pth_na :=
    { na with
      ptn_state := some pts1
      parent_nm_notify := parent.nm_notify
      parent :=
        { parent with
          na_private := some na.self
          nm_notify := some .nm_pt_host_notify
          rx_rings := for_rings kring_hijack parent.num_rx_rings parent.rx_rings
          tx_rings := for_rings kring_hijack parent.num_tx_rings parent.tx_rings } } }

/-- The function `ptnetmap_create` (lines 695-771). Every path through the
label `err` frees the session and nothing else. -/
def ptnetmap_create (e : CtlEnv) (buf_len : Nat) (h : Host) : Nat × Host :=
  if h.pth_na.ptn_state.isSome then (EFAULT, h)
  else if !e.malloc_ok then (ENOMEM, h)
  else
    let pts := { ptnetmap_state.zero with configured := false, stopped := true }
    if buf_len ≠ e.sizeof_ptn_cfg then (EINVAL, h)
    else
      match e.copyin with
      | none => (EFAULT, h)
      | some cfg =>
        let pts1 := { pts with config := cfg, csb := cfg.csb }
        let r := ptnetmap_create_kthreads e pts1 h
        if r.1 ≠ 0 then (r.1, r.2.2)
        else
          let r1 := ptnetmap_krings_snapshot e r.2.2
          if r1.1 ≠ 0 then (r1.1, r1.2)
          else (0, install_session r.2.1 r1.2)

/-- The function `ptnetmap_start_kthreads` (lines 648-674), called on
`pth_na->ptn_state`. A worker whose `ptn_kthread_start` returns 0 runs. -/
def ptnetmap_start_kthreads (e : CtlEnv) (h : Host) : Nat × Host :=
  match h.pth_na.ptn_state with
  | none => (EFAULT, h)
  | some pts =>
    let h1 := { h with pth_na := { h.pth_na with ptn_state := some { pts with stopped := false } } }
    if e.ptn_kthread_start_tx ≠ 0 then (e.ptn_kthread_start_tx, h1)
    else
      let h2 := { h1 with running := pts.ptk_tx.toList ++ h1.running }
      if e.ptn_kthread_start_rx ≠ 0 then
        (e.ptn_kthread_start_rx, ptn_kthread_stop pts.ptk_tx h2)
      else (0, { h2 with running := pts.ptk_rx.toList ++ h2.running })

/-- The function `ptnetmap_stop_kthreads` (lines 676-689), called on
`pth_na->ptn_state`. -/
def ptnetmap_stop_kthreads (h : Host) : Host :=
  match h.pth_na.ptn_state with
  | none => h
  | some pts =>
    let h1 := { h with pth_na := { h.pth_na with ptn_state := some { pts with stopped := true } } }
    ptn_kthread_stop pts.ptk_rx (ptn_kthread_stop pts.ptk_tx h1)

/-- Lines 784-795 of `ptnetmap_delete`: the parent adapter after its
callbacks have been put back. -/
def restore_parent (na : netmap_pt_host_adapter) : netmap_adapter :=
  { na.parent with
    nm_notify := na.parent_nm_notify
    na_private := none
    rx_rings := for_rings kring_restore na.parent.num_rx_rings na.parent.rx_rings
    tx_rings := for_rings kring_restore na.parent.num_tx_rings na.parent.tx_rings }

/-- The function `ptnetmap_delete` (lines 773-810). -/
def ptnetmap_delete (h : Host) : Host :=
  match h.pth_na.ptn_state with
  | none => h
  | some pts =>
    let h1 := { h with pth_na :=
      { h.pth_na with parent := restore_parent h.pth_na, ptn_state := none } }
    ptn_kthread_delete pts.ptk_rx (ptn_kthread_delete pts.ptk_tx h1)

/-- The function `ptnetmap_ctl` (lines 818-869); `buf_len` is what
`nmr_read_buf` returns for a CREATE. -/
def ptnetmap_ctl (e : CtlEnv) (cmd : nr_cmd) (buf_len : Nat) (h : Host) : Nat × Host :=
  if !h.pth_na.passthrough_on then ( ENXIO, h)
  else
    match cmd with
    | .NETMAP_PT_HOST_CREATE =>
      let r := ptnetmap_create e buf_len h
      if r.1 ≠ 0 then r
      else
        let r1 := ptnetmap_start_kthreads e r.2
        if r1.1 ≠ 0 then (r1.1, ptnetmap_delete r1.2) else r1
    | .NETMAP_PT_HOST_DELETE => (0, ptnetmap_delete (ptnetmap_stop_kthreads h))
    | .other _ => (EINVAL, h)

/-! ## Statements taken from the specification -/

/-- The spec's `(a - b) mod n`, the distance from `b` forward to `a` in a
ring of `n` slots. -/
def ring_sub (a b n : Nat) : Int := ((a : Int) - (b : Int)) % (n : Int)

/-- The batching cap as the specification states it, for a ring of
`num_slots` slots, kring `hwcur` and guest head `g_head`: the head installed
is at most half a ring ahead of `hwcur`; it is `(hwcur + num_slots/2) mod
num_slots` when the guest is further ahead than that, and the guest head
otherwise. -/
def batch_cap_claim (num_slots hwcur g_head : Nat) : Prop :=
  ring_sub (tx_batch_head g_head hwcur num_slots) hwcur num_slots ≤ ((num_slots / 2 : Nat) : Int) ∧
  (((num_slots / 2 : Nat) : Int) < ring_sub g_head hwcur num_slots →
    (tx_batch_head g_head hwcur num_slots : Int) =
      ((hwcur : Int) + ((num_slots / 2 : Nat) : Int)) % (num_slots : Int)) ∧
  (¬ ((num_slots / 2 : Nat) : Int) < ring_sub g_head hwcur num_slots →
    tx_batch_head g_head hwcur num_slots = g_head)

/-- The head installed in `kring->rhead` is an index of the ring. -/
def head_in_range_claim (num_slots hwcur g_head : Nat) : Prop :=
  tx_batch_head g_head hwcur num_slots < num_slots

/-- What DELETE leaves of a kring that CREATE hijacked: the callback is the
one the ring had, the save slot is `NULL`. -/
def kring_clear_save (k : netmap_kring) : netmap_kring :=
  { k with save_notify := none }

/-- Whether one of the eight `CSB_WRITE`s of the initial snapshot faults. -/
def snapshot_faults (e : CtlEnv) : Bool :=
  (List.range 8).any e.csb_write_fault

/-- C2 as the specification states it, for a trace: every `send_irq` comes
after a read of `guest_need_kick` that returned a non-zero value, with no
CSB access between that read and the interrupt. -/
def irq_follows_read_claim (tr : List Event) : Prop :=
  ∀ pre post, tr = pre ++ Event.send_irq :: post →
    ∃ pre1 v mid, v ≠ 0 ∧ pre = pre1 ++ Event.get_guestkick v :: mid ∧
      ∀ e ∈ mid, e.csb_access = false

/-- What the handlers guarantee about interrupts: every `send_irq` comes
directly after the write `guest_need_kick = 0`, which comes directly after a
read of `guest_need_kick` that returned a non-zero value; and none of the two
actions that follow a read that returned 0 is an interrupt. -/
def irq_guarded (tr : List Event) : Prop :=
  (∀ pre post, tr = pre ++ Event.send_irq :: post →
    ∃ pre1 v, v ≠ 0 ∧ pre = pre1 ++ [Event.get_guestkick v, Event.set_guestkick 0]) ∧
  (∀ pre post, tr = pre ++ Event.get_guestkick 0 :: post →
    ∀ e ∈ post.take 2, e ≠ Event.send_irq)

/-- C3 for the trace of a handler that returned. First: if a sync advanced
`hwtail` (`rtail_update`) and no interrupt was injected afterwards, the trace
ends with the release of the kring followed by a read of `guest_need_kick`
that returned 0. Second: if the release of the kring is followed by a read
that returned a non-zero value, what follows is exactly the clearing of the
flag and one interrupt. -/
def progress_notified (tr : List Event) : Prop :=
  (∀ pre x post, tr = pre ++ Event.rtail_update x :: post → Event.send_irq ∉ post →
    ∃ pre1, tr = pre1 ++ [Event.nm_kr_put, Event.get_guestkick 0]) ∧
  (∀ pre v post, tr = pre ++ Event.nm_kr_put :: Event.get_guestkick v :: post → v ≠ 0 →
    post = [Event.set_guestkick 0, Event.send_irq])

/-- An event that is neither a sync nor the release of the kring. -/
def Event.quiet (e : Event) : Prop := e.is_sync = false ∧ e ≠ Event.nm_kr_put

/-- The session reads as stopped or not configured at every time after
`t0`. -/
def stopped_after (w : World) (t0 : Nat) : Prop :=
  ∀ t, t0 < t → (w.stopped t || !w.configured t) = true

/-- C4 as the specification states it, for a run: if the session is stopped
(or deconfigured) from inside a backend sync onwards, then the handler
returns, makes no further sync, and releases the kring once. The sync is the
event `ev`, at position `pre.length` of the trace. -/
def stop_honoured_claim (w : World) (r : Run) : Prop :=
  ∀ pre ev post, r.trace = pre ++ ev :: post → ev.is_sync = true → stopped_after w pre.length →
    r.returned = true ∧ (∀ e ∈ post, e.is_sync = false) ∧ post.count Event.nm_kr_put = 1

/-- C4 with the exception the code makes: the same conclusion, for a sync
after which the host kick is not disarmed again (the write
`host_need_kick = 0` of the `continue` that follows a doublecheck). -/
def stop_honoured_unless_continue (w : World) (r : Run) : Prop :=
  ∀ pre ev post, r.trace = pre ++ ev :: post → ev.is_sync = true → stopped_after w pre.length →
    Event.set_hostkick 0 ∉ post →
    r.returned = true ∧ (∀ e ∈ post, e.is_sync = false) ∧ post.count Event.nm_kr_put = 1

/-! ## Invariants used in the proofs -/

/-- Whether the newest of the events `rtail_update` and `send_irq` in a log
(newest first) is an `rtail_update`: progress recorded and not yet notified. -/
def pending : List Event → Bool
  | [] => false
  | Event.send_irq :: _ => false
  | Event.rtail_update _ :: _ => true
  | _ :: rest => pending rest

/-- Invariant of the log of a worker: every interrupt sits on top of the
clearing of the guest flag and a non-zero read of it. -/
def IrqInv (log : List Event) : Prop :=
  ∀ post pre, log = post ++ Event.send_irq :: pre →
    ∃ v pre1, v ≠ 0 ∧ pre = Event.set_guestkick 0 :: Event.get_guestkick v :: pre1

/-- Invariant of a worker inside the loop: `work` tells whether progress is
pending in the log, and the kring has not been released. -/
def WorkInv (s : Worker) : Prop :=
  s.work = pending s.log ∧ Event.nm_kr_put ∉ s.log

/-- The log `l1` is the log `l` with quiet events on top. -/
def Ext (l l1 : List Event) : Prop := ∃ blk, l1 = blk ++ l ∧ ∀ e ∈ blk, e.quiet

/-- What one pass of a loop body does to the log: a sync on top of the old
log, quiet events on top of the sync; and a pass that ends in `again` while
the session reads as stopped has disarmed the host kick again. -/
def PassSpec (w : World) (body : Worker → Next × Worker) : Prop :=
  ∀ s, ∃ ev blk, ev.is_sync = true ∧ (body s).2.log = blk ++ ev :: s.log ∧
    (∀ e ∈ blk, e.quiet) ∧
    ((body s).1 = Next.again → stopped_after w s.log.length → Event.set_hostkick 0 ∈ blk)

/-! ## Concrete inputs -/

/-- A kring of 256 slots whose callback is the function number `n`. -/
def ex_ring (n : Nat) : netmap_kring :=
  { netmap_kring.zero with nkr_num_slots := 256, nm_notify := some (.other n) }

/-- A parent adapter with one TX and one RX ring (each array also holds the
host ring) and `NULL` in `na_private` and in every `save_notify`. -/
def ex_parent : netmap_adapter :=
  { nm_notify := some (.other 1), na_private := none, num_tx_rings := 1, num_rx_rings := 1,
    tx_rings := [ex_ring 2, ex_ring 3], rx_rings := [ex_ring 4, ex_ring 5] }

/-- A passthrough adapter on `ex_parent` with no session, no worker. -/
def ex_host : Host :=
  { pth_na := { self := 100, passthrough_on := true, parent := ex_parent,
                parent_nm_notify := none, ptn_state := none },
    kthreads := [], running := [], csb_log := [] }

/-- An environment in which every step of CREATE succeeds. -/
def ex_env : CtlEnv :=
  { malloc_ok := true, sizeof_ptn_cfg := 24,
    copyin := some { tx_ioeventfd := 10, tx_irqfd := 11, rx_ioeventfd := 12, rx_irqfd := 13,
                     csb := 4096 },
    ptn_kthread_create_tx := some 1, ptn_kthread_create_rx := some 2,
    csb_write_fault := fun _ => false, ptn_kthread_start_tx := 0, ptn_kthread_start_rx := 0 }

/-- The environment `ex_env` with a CSB pointer whose page faults on write. -/
def ex_env_bad_csb : CtlEnv :=
  { ex_env with csb_write_fault := fun _ => true }

/-- The host `ex_host` with a non-NULL `na_private` and a non-NULL
`save_notify` in TX ring 0. -/
def ex_host_saved : Host :=
  { ex_host with pth_na := { ex_host.pth_na with parent :=
      { ex_parent with
        na_private := some 7
        tx_rings := [{ (ex_ring 2) with save_notify := some (.other 9) }, ex_ring 3] } } }

/-- An empty TX ring of 8 slots. -/
def ex_kring : netmap_kring :=
  { netmap_kring.zero with nkr_num_slots := 8, nr_hwtail := 7, rtail := 7 }

/-- A running session whose guest has produced one slot and asks for
interrupts, on a backend that transmits at once. -/
def ex_world : World :=
  { pts := true, pth_na := true, stopped := fun _ => false, configured := fun _ => true,
    nm_kr_tryget := 0,
    read_kring_csb := fun _ => (1, 1, 0),
    get_guestkick := fun _ => 1,
    nm_sync := fun _ k _ => (0, k.rhead, (k.rhead + 7) % 8),
    nm_kr_txspace := fun _ => 7, NAF_FORCE_RECLAIM := 8 }

/-- The world `ex_world` with a guest that polls: its `guest_need_kick` reads
as 0. -/
def ex_world_polling : World :=
  { ex_world with get_guestkick := fun _ => 0 }

/-- The world `ex_world` in which the session is stopped during the first
sync (the fourth action) and the guest has produced a second slot by the
time the worker reads the CSB again. -/
def ex_world_stop : World :=
  { ex_world with
    stopped := fun t => decide (4 ≤ t)
    read_kring_csb := fun t => if t ≤ 2 then (1, 1, 0) else (2, 2, 0) }

/-- The world `ex_world` in which the session is stopped during the first
sync and the guest produces a second slot between the re-snapshot and the
doublecheck of the first pass. -/
def ex_world_stop_continue : World :=
  { ex_world with
    stopped := fun t => decide (4 ≤ t)
    read_kring_csb := fun t => if t ≤ 9 then (1, 1, 0) else (2, 2, 0) }

/-! ## Parts of a run and of a pass -/

/-- The part of a handler that follows the prologue. -/
def run_loop (w : World) (body : Worker → Next × Worker) (fuel : Nat) (s0 : Worker) : Run :=
  if (for_ever body fuel s0).1 then leave_kr_put w (for_ever body fuel s0).2
  else out_of_fuel (for_ever body fuel s0).2

/-- The worker when the loop is entered. -/
def loop_entry (w : World) (kring : netmap_kring) : Worker :=
  prologue w (emit (Event.nm_kr_tryget w.nm_kr_tryget) (Worker.init kring))

/-- The value most recently written to `host_need_kick` in a log (newest first). -/
def lastkick : List Event → Option Nat
  | [] => none
  | Event.set_hostkick v :: _ => some v
  | _ :: rest => lastkick rest

/-- The worker of a TX pass after lines 228-257, about to call the backend sync. -/
def tx_pre (w : World) (s : Worker) : Worker :=
  install_heads (tx_reclaim_hint w (tx_apply_batch s))

/-- The worker of a TX pass whose sync succeeded, after the re-snapshot of line 297. -/
def tx_mid (w : World) (s : Worker) : Worker :=
  host_read_kring_csb w (notify_guest w (tx_publish (call_sync w (tx_pre w s)).2))

/-- The worker of an RX pass whose sync succeeded, after the re-snapshot of line 488. -/
def rx_mid (w : World) (s : Worker) : Worker :=
  host_read_kring_csb w (notify_guest w (rx_publish (call_sync w (install_heads s)).2))

/-- Lines 305-309 and 496-500: microsleep, arm the host kick, read the guest indices again. -/
def doublecheck (w : World) (s : Worker) : Worker :=
  host_read_kring_csb w (emit (Event.set_hostkick 1) (emit Event.usleep_range s))

/-- The events a pass logs between a successful sync and the decision to go on or to stop,
apart from the writes of the host kick. -/
def Event.inner : Event → Bool
  | .write_kring_csb _ _ => true
  | .rtail_update _ => true
  | .get_guestkick _ => true
  | .set_guestkick _ => true
  | .send_irq => true
  | .read_kring_csb _ _ _ => true
  | .usleep_range => true
  | _ => false

/-- The events of the notification block. -/
def Event.notification : Event → Bool
  | .get_guestkick _ => true
  | .set_guestkick _ => true
  | .send_irq => true
  | _ => false

/-- Says of an event that it is a read of the guest indices. -/
def Event.is_read : Event → Bool
  | .read_kring_csb _ _ _ => true
  | _ => false

/-- What one pass of a loop body does with the host kick: it logs one sync on top of the old
log; if that sync fails, the pass only arms the host kick and leaves the loop; and a pass
that goes round again with the host kick disarmed at its start ends with it disarmed. -/
def PassKick (body : Worker → Next × Worker) : Prop :=
  ∀ s, ∃ a b c ret blk, (body s).2.log = blk ++ Event.nm_sync a b c ret :: s.log ∧
    (∀ e ∈ blk, e.quiet) ∧
    (ret ≠ 0 → (body s).1 = Next.leave_kr_put ∧ blk = [Event.set_hostkick 1]) ∧
    ((body s).1 = Next.again → lastkick s.log = some 0 → lastkick (body s).2.log = some 0)

/-- What the log of a worker of the quiescent scenario holds after `c` passes. -/
def quiet_log (c : Nat) (l : List Event) : Prop :=
  (l.filter Event.is_sync).length = c ∧
  Event.set_hostkick 0 ∈ l ∧ (∀ v, Event.set_hostkick v ∈ l → v = 0) ∧
  Event.send_irq ∉ l ∧ Event.nm_kr_put ∉ l

/-- The worker of the quiescent scenario after `c` passes. -/
def quiet_worker (kring : netmap_kring) (c : Nat) (s : Worker) : Prop :=
  s.kring.nkr_num_slots = kring.nkr_num_slots ∧ s.kring.nr_hwtail = kring.nr_hwtail ∧
  s.kring.rtail = kring.nr_hwtail ∧ s.g_head = kring.rhead ∧ s.work = false ∧
  s.cicle_nowork = c ∧ quiet_log c s.log

/-! ## Statements taken from the specification: the handlers at work -/

/-- C12 as a property of one run: a sync that returns non-zero is followed by the write
`host_need_kick = 1`, the release of the kring and nothing else but the guest-kick
actions of the label `leave`; the kring was not released before; the handler returns. -/
def sync_failure_handled (r : Run) : Prop :=
  ∀ pre a b c ret post, r.trace = pre ++ Event.nm_sync a b c ret :: post → ret ≠ 0 →
    r.returned = true ∧ Event.nm_kr_put ∉ pre ∧
    ∃ epi, post = Event.set_hostkick 1 :: Event.nm_kr_put :: epi ∧
      ∀ e ∈ epi, e.notification = true

/-- C15, first half, as a property of a trace: before every sync the handler has written
`host_need_kick`, and the last such write before the sync wrote 0. -/
def kick_disarmed_at_sync (tr : List Event) : Prop :=
  ∀ pre ev post, tr = pre ++ ev :: post → ev.is_sync = true →
    ∃ a b, pre = a ++ Event.set_hostkick 0 :: b ∧ ∀ v, Event.set_hostkick v ∉ b

/-- C15, second half, as a property of a trace: after the kring is acquired the first
action is the write `host_need_kick = 0` and the second is the read of the guest indices. -/
def wake_starts_disarmed (tr : List Event) : Prop :=
  ∃ h c f rest, tr = Event.nm_kr_tryget 0 :: Event.set_hostkick 0 ::
    Event.read_kring_csb h c f :: rest

/-- C16, first part, as a property of a finished run of the TX handler: the trace ends with
the release of the kring followed only by guest-kick actions, and before the release
(i) the host kick was armed last and either the sync just before failed or the read just
after returned the head in `kring->rhead`, or (ii) the ring is full and the last write of
the host kick wrote 0, or (iii) the session reads as stopped or not configured. -/
def tx_exit_state (w : World) (r : Run) : Prop :=
  ∃ body epi, r.trace = body ++ Event.nm_kr_put :: epi ∧ (∀ e ∈ epi, e.notification = true) ∧
    ((∃ p a b c ret, ret ≠ 0 ∧ body = p ++ [Event.nm_sync a b c ret, Event.set_hostkick 1]) ∨
     (∃ p c f, body = p ++ [Event.set_hostkick 1, Event.read_kring_csb r.kring.rhead c f]) ∨
     (r.kring.nr_hwtail = r.kring.rhead ∧
        ∃ p q, body = p ++ Event.set_hostkick 0 :: q ∧ ∀ v, Event.set_hostkick v ∉ q) ∨
     (w.stopped body.length || !w.configured body.length) = true)

/-- A backend whose `nm_sync` always succeeds without advancing `hwtail`: every sync
returns 0 and leaves `nr_hwtail`, a `uint32_t`, where it was. -/
def hwtail_not_advancing (w : World) (kring : netmap_kring) : Prop :=
  kring.nr_hwtail < U32 ∧
  ∀ t k f, (w.nm_sync t k f).1 = 0 ∧ (w.nm_sync t k f).2.2 % U32 = k.nr_hwtail % U32

/-- An idle wake of the TX handler as C16 states it: the guest head reads as
`kring->rhead` at every read, the batching step leaves that head in `rhead` (nothing is
pending beyond the cap), and the sync does not advance `hwtail`. -/
def idle_wake_stated (w : World) (kring : netmap_kring) : Prop :=
  (∀ t, (w.read_kring_csb t).1 % U32 = kring.rhead) ∧
  tx_batch_head kring.rhead kring.nr_hwcur kring.nkr_num_slots = kring.rhead ∧
  hwtail_not_advancing w kring

/-- An idle wake with nothing left to publish: on top of `idle_wake_stated`, `nr_hwtail`
is where the handler last published it (`kring->rtail`, the value the test of line 270
compares with). -/
def idle_wake (w : World) (kring : netmap_kring) : Prop :=
  idle_wake_stated w kring ∧ kring.rtail = kring.nr_hwtail

/-- The trace of an idle wake, as C16 lists it. -/
def idle_trace (kring : netmap_kring) (tr : List Event) : Prop :=
  ∃ c0 f0 fs hc c1 f1 c2 f2, tr =
    [Event.nm_kr_tryget 0, Event.set_hostkick 0, Event.read_kring_csb kring.rhead c0 f0,
     Event.nm_sync kring.rhead c0 fs 0, Event.write_kring_csb hc kring.nr_hwtail,
     Event.read_kring_csb kring.rhead c1 f1, Event.usleep_range, Event.set_hostkick 1,
     Event.read_kring_csb kring.rhead c2 f2, Event.nm_kr_put]

/-- C17, second part, as a property of a run on a kring of `kring.nkr_num_slots` slots:
whenever a successful sync has published `hwtail = ht` and the next read of the guest
indices (the re-snapshot) shows the ring full, the handler sleeps, writes
`host_need_rxkick = 1` and reads the indices again (the doublecheck); if the ring is still
full it releases the kring and returns, with only guest-kick actions after the release;
if it is not, it writes `host_need_rxkick = 0` and the next action is an `nm_sync` call
(unless the budget of passes of the run ends there). -/
def rx_full_handshake (kring : netmap_kring) (r : Run) : Prop :=
  ∀ pre a b c hc ht notif g c1 f1 post,
    r.trace = pre ++ Event.nm_sync a b c 0 :: Event.write_kring_csb hc ht ::
        (notif ++ Event.read_kring_csb g c1 f1 :: post) →
    (∀ e ∈ notif, e.is_read = false) →
    ptnetmap_kr_rxfull { kring with nr_hwtail := ht } g = true →
    ∃ g2 c2 f2 rest, post = Event.usleep_range :: Event.set_hostkick 1 ::
        Event.read_kring_csb g2 c2 f2 :: rest ∧
      (ptnetmap_kr_rxfull { kring with nr_hwtail := ht } g2 = true →
        r.returned = true ∧ ∃ epi, rest = Event.nm_kr_put :: epi ∧
          ∀ e ∈ epi, e.notification = true) ∧
      (ptnetmap_kr_rxfull { kring with nr_hwtail := ht } g2 = false →
        ∃ rest2, rest = Event.set_hostkick 0 :: rest2 ∧
          ((rest2 = [] ∧ r.returned = false) ∨
            ∃ a3 b3 c3 ret3 rest3, rest2 = Event.nm_sync a3 b3 c3 ret3 :: rest3))

/-- The heads handed to the backend: the `rhead` of every `nm_sync` call of a trace, in
the order of the calls. -/
def sync_rheads : List Event → List Nat
  | [] => []
  | Event.nm_sync rhead _ _ _ :: rest => rhead :: sync_rheads rest
  | _ :: rest => sync_rheads rest

/-- The number of slots each sync of a run is handed, on a ring of `n` slots whose backend
leaves `hwcur` at the head it was given: the distance from the head of the sync before
(from `hwcur` at first) to the head of this sync. -/
def batches (n : Nat) : Nat → List Nat → List Nat
  | _, [] => []
  | hwcur, rhead :: rest => (rhead + n - hwcur) % n :: batches n rhead rest

/-- The scenario of C13: the session runs, the kring is acquired, the guest head reads as
`g` at every read, and every sync succeeds, sets `hwcur` to `rhead` and does not leave the
ring full (`hwtail` differs from `rhead`). -/
def burst_backend (w : World) (g : Nat) : Prop :=
  w.pts = true ∧ w.pth_na = true ∧ (∀ t, w.stopped t = false) ∧ (∀ t, w.configured t = true) ∧
  w.nm_kr_tryget = 0 ∧ (∀ t, (w.read_kring_csb t).1 % U32 = g) ∧
  ∀ t k f, (w.nm_sync t k f).1 = 0 ∧ (w.nm_sync t k f).2.1 % U32 = k.rhead % U32 ∧
    (w.nm_sync t k f).2.2 % U32 ≠ k.rhead % U32

/-- The general clause of C13 for a run on a ring of `n` slots with `hwcur = h` at entry
and guest head `g`: the batches sum to the guest's produced count and each is at most
`n / 2`. -/
def burst_split_claim (n h g : Nat) (r : Run) : Prop :=
  (batches n h (sync_rheads r.trace)).sum = (g + n - h) % n ∧
  ∀ b ∈ batches n h (sync_rheads r.trace), b ≤ n / 2

/-- The scenario of C14 as stated: the session runs, the kring is acquired, the guest
head reads as `kring->rhead` at every read (the guest indices are unchanged), every sync
succeeds without advancing `hwtail`, and the ring is neither full nor empty. -/
def rx_quiescent_stated (w : World) (kring : netmap_kring) : Prop :=
  w.pts = true ∧ w.pth_na = true ∧ (∀ t, w.stopped t = false) ∧ (∀ t, w.configured t = true) ∧
  w.nm_kr_tryget = 0 ∧ (∀ t, (w.read_kring_csb t).1 % U32 = kring.rhead) ∧
  hwtail_not_advancing w kring ∧
  ptnetmap_kr_rxfull kring kring.rhead = false ∧ kring.nr_hwtail ≠ kring.rhead

/-- The scenario of C14 with nothing left to publish: on top of `rx_quiescent_stated`,
`nr_hwtail` is where the handler last published it (`kring->rtail`, the value the test of
line 458 compares with). -/
def rx_quiescent (w : World) (kring : netmap_kring) : Prop :=
  rx_quiescent_stated w kring ∧ kring.rtail = kring.nr_hwtail

/-- What C14 says of a trace: exactly `PTN_RX_NOWORK_CYCLE` calls of `nm_sync`, the host
kick written but never with a value other than 0, no interrupt, the kring released once at
the very end. -/
def quiescent_exit (tr : List Event) : Prop :=
  (tr.filter Event.is_sync).length = PTN_RX_NOWORK_CYCLE ∧
  Event.set_hostkick 0 ∈ tr ∧ (∀ v, Event.set_hostkick v ∈ tr → v = 0) ∧
  Event.send_irq ∉ tr ∧ ∃ body, tr = body ++ [Event.nm_kr_put] ∧ Event.nm_kr_put ∉ body

/-! ## Concrete inputs for the handlers at work -/

/-- A session found stopped when a handler is invoked. -/
def ex_world_stopped : World :=
  { ex_world with stopped := fun _ => true }

/-- The world `ex_world` in which another context holds the kring: `nm_kr_tryget` fails. -/
def ex_world_busy : World :=
  { ex_world with nm_kr_tryget := 1 }

/-- The world `ex_world` on a backend whose sync fails with the error code -5. -/
def ex_world_sync_fails : World :=
  { ex_world with nm_sync := fun _ k _ => (-5, k.nr_hwcur, k.nr_hwtail) }

/-- An idle session: the guest has produced nothing and the backend has nothing to report. -/
def ex_world_idle : World :=
  { ex_world with
    read_kring_csb := fun _ => (0, 0, 0)
    nm_sync := fun _ k _ => (0, k.nr_hwcur, k.nr_hwtail) }

/-- The idle session in which the guest frees one slot between the re-snapshot and the
doublecheck of the first pass: from the ninth action on its head reads as 1. -/
def ex_world_guest_frees : World :=
  { ex_world_idle with read_kring_csb := fun t => if t ≤ 7 then (0, 0, 0) else (1, 1, 0) }

/-- The kring `ex_kring` with a `hwtail` that has advanced since it was last published:
`rtail` is behind. -/
def ex_kring_unpublished : netmap_kring :=
  { ex_kring with rtail := 5 }

/-- An empty TX ring of 256 slots at index 10. -/
def ex_kring_burst : netmap_kring :=
  { netmap_kring.zero with
    nkr_num_slots := 256
    nr_hwcur := 10
    nr_hwtail := 9
    rhead := 10
    rcur := 10
    rtail := 9 }

/-- A running session whose guest has produced 192 slots on `ex_kring_burst` (its head
reads as 202), on a backend that transmits at once: `hwcur` becomes `rhead` and the ring
is empty again. -/
def ex_world_burst : World :=
  { ex_world with
    read_kring_csb := fun _ => (202, 202, 0)
    nm_sync := fun _ k _ => (0, k.rhead, nm_prev (k.rhead % U32) 255) }

/-- An empty TX ring of `2^32 - 1` slots at index 0. -/
def ex_kring_huge : netmap_kring :=
  { netmap_kring.zero with
    nkr_num_slots := 4294967295
    nr_hwtail := 4294967294
    rtail := 4294967294 }

/-- A running session whose guest has produced `2^31` slots on `ex_kring_huge`, on a
backend that transmits at once (`rhead` is a `uint32_t`). -/
def ex_world_huge : World :=
  { ex_world with
    read_kring_csb := fun _ => (2147483648, 2147483648, 0)
    nm_sync := fun _ k _ => (0, k.rhead, nm_prev (k.rhead % U32) 4294967294) }

/-- An RX ring of 8 slots that holds three received slots the guest has not taken, all
of them published. -/
def ex_kring_rx : netmap_kring :=
  { netmap_kring.zero with
    nkr_num_slots := 8
    nr_hwtail := 3
    rtail := 3 }

/-- The ring `ex_kring_rx` when its three slots have arrived since the last publication:
`rtail` is still 0. -/
def ex_kring_rx_unpublished : netmap_kring :=
  { ex_kring_rx with rtail := 0 }

/-! # Theorems -/

/-! ## Ring arithmetic of the batching step -/

theorem ring_sub_eq (a b n : Nat) (ha : a < n) (hb : b < n) :
    ring_sub a b n = if b ≤ a then ((a - b : Nat) : Int) else ((a + n - b : Nat) : Int) := by
  unfold ring_sub
  split
  · rw [Int.emod_eq_of_lt] <;> omega
  · have h : ((a : Int) - b) % n = ((a : Int) - b + n) % n := by
      simp
    rw [h, Int.emod_eq_of_lt] <;> omega

theorem ring_add_half_eq (n hwcur : Nat) (hc : hwcur < n) :
    ((hwcur : Int) + ((n / 2 : Nat) : Int)) % (n : Int)
      = if hwcur + n / 2 < n then ((hwcur + n / 2 : Nat) : Int)
        else ((hwcur + n / 2 - n : Nat) : Int) := by
  split
  · rw [Int.emod_eq_of_lt] <;> omega
  · have h : ((hwcur : Int) + ((n / 2 : Nat) : Int)) % (n : Int)
        = ((hwcur : Int) + ((n / 2 : Nat) : Int) - n) % (n : Int) := by
      simp
    rw [h, Int.emod_eq_of_lt] <;> omega

/-- On rings of at most `2^31` slots and in-range indices, the 32-bit code of
the batching step computes the plain modular clamp. -/
theorem tx_batch_head_eq (n hwcur g : Nat) (hn : n ≤ 2147483648) (hc : hwcur < n) (hg : g < n) :
    tx_batch_head g hwcur n =
      if n / 2 < (if hwcur ≤ g then g - hwcur else g + n - hwcur) then
        (if hwcur + n / 2 < n then hwcur + n / 2 else hwcur + n / 2 - n)
      else g := by
  unfold tx_batch_head tx_batch PTN_TX_BATCH_LIM U32 INT_SIGN
  simp only [Nat.shiftRight_eq_div_pow, pow_one]
  split_ifs <;> omega

/-- The clamp value computed at lines 234-236 is an index of the ring, for
every ring size a `uint32_t` can hold. -/
theorem clamp_lt (n hwcur : Nat) (hn : n < 4294967296) (hc : hwcur < n) :
    (if n ≤ (hwcur + n / 2) % 4294967296
      then ((hwcur + n / 2) % 4294967296 + 4294967296 - n) % 4294967296
      else (hwcur + n / 2) % 4294967296) < n := by
  rcases Nat.lt_or_ge (hwcur + n / 2) 4294967296 with h | h
  · rw [Nat.mod_eq_of_lt h]
    split_ifs <;> omega
  · have : (hwcur + n / 2) % 4294967296 = hwcur + n / 2 - 4294967296 := by omega
    rw [this]
    split_ifs <;> omega

/-! ## C1: the TX batching cap -/

/-- C1, as stated, fails on a ring of `2^32 - 1` slots: with `hwcur = 0` and
the in-range guest head `2^31`, the difference is negative as an `int`, the
correction `batch += nkr_num_slots` brings it to `2^31 - 1`, which is not
above the cap, and the head installed is `2^31` slots ahead of `hwcur`, more
than half the ring. -/
theorem C1_counterexample :
    0 < 4294967295 ∧ 0 < 4294967295 ∧ 2147483648 < 4294967295 ∧
      tx_batch_head 2147483648 0 4294967295 = 2147483648 ∧
      ¬ batch_cap_claim 4294967295 0 2147483648 := by
  unfold batch_cap_claim ring_sub
  decide

/-- C1, amended: for every ring of `0 < num_slots ≤ 2^31` slots, every
`hwcur < num_slots` and every guest head `g_head < num_slots`, the head that
the batching step of `ptnetmap_tx_handler` installs is at most `num_slots / 2`
ahead of `hwcur`; it equals `(hwcur + num_slots/2) mod num_slots` when the
guest is more than `num_slots / 2` ahead, and `g_head` otherwise. -/
theorem C1_tx_batch_cap (num_slots hwcur g_head : Nat) (h0 : 0 < num_slots)
    (hn : num_slots ≤ 2147483648) (hc : hwcur < num_slots) (hg : g_head < num_slots) :
    batch_cap_claim num_slots hwcur g_head := by
  have hr : tx_batch_head g_head hwcur num_slots < num_slots := by
    rw [tx_batch_head_eq num_slots hwcur g_head hn hc hg]; split_ifs <;> omega
  unfold batch_cap_claim
  rw [ring_sub_eq _ _ _ hr hc, ring_sub_eq _ _ _ hg hc, ring_add_half_eq num_slots hwcur hc,
    tx_batch_head_eq num_slots hwcur g_head hn hc hg]
  split_ifs <;> omega

theorem C1_tx_batch_cap_witness :
    batch_cap_claim 256 10 200 ∧ tx_batch_head 200 10 256 = 138 :=
  ⟨C1_tx_batch_cap 256 10 200 (by decide) (by decide) (by decide) (by decide), by decide⟩

/-! ## C5: a hostile guest head -/

/-- C5, as stated, fails: on a ring of 256 slots with `hwcur = 255`, the
out-of-range guest head 261 is 6 slots ahead of `hwcur`, under the cap, and is
installed unchanged. -/
theorem C5_counterexample :
    0 < 256 ∧ 255 < 256 ∧ 261 < U32 ∧ tx_batch_head 261 255 256 = 261 ∧
      ¬ head_in_range_claim 256 255 261 := by
  unfold head_in_range_claim U32
  decide

/-- C5, amended: for every ring size `0 < num_slots < 2^32`, every
`hwcur < num_slots` and every 32-bit guest head, the value assigned to
`kring->rhead` is an index of the ring exactly when the guest head was one or
the batch exceeded the cap (the clamp value always is one); a guest head under
the cap is installed unchanged, whatever its value. -/
theorem C5_head_in_range_iff (num_slots hwcur g_head : Nat)
    (hn : num_slots < U32) (hc : hwcur < num_slots) (_hg : g_head < U32) :
    (head_in_range_claim num_slots hwcur g_head ↔
      (g_head < num_slots ∨
        PTN_TX_BATCH_LIM num_slots < tx_batch g_head hwcur num_slots)) ∧
    (¬ PTN_TX_BATCH_LIM num_slots < tx_batch g_head hwcur num_slots →
      tx_batch_head g_head hwcur num_slots = g_head) := by
  have hcl := clamp_lt num_slots hwcur hn hc
  unfold head_in_range_claim tx_batch_head
  by_cases hb : PTN_TX_BATCH_LIM num_slots < tx_batch g_head hwcur num_slots
  · simp only [hb, if_true, or_true, iff_true, not_true_eq_false, false_implies, and_true]
    unfold PTN_TX_BATCH_LIM U32
    simp only [Nat.shiftRight_eq_div_pow, pow_one]
    exact hcl
  · simp [hb]

theorem C5_head_in_range_iff_witness :
    (head_in_range_claim 256 0 4294967295 ↔
      (4294967295 < 256 ∨ PTN_TX_BATCH_LIM 256 < tx_batch 4294967295 0 256)) ∧
    (¬ PTN_TX_BATCH_LIM 256 < tx_batch 4294967295 0 256 →
      tx_batch_head 4294967295 0 256 = 4294967295) :=
  C5_head_in_range_iff 256 0 4294967295 (by decide) (by decide) (by decide)

/-! ## C2: interrupts and the guest flag -/

theorem irqInv_nil : IrqInv [] := by
  intro post pre h
  simp at h

theorem irqInv_cons {e : Event} {log : List Event} (he : e ≠ Event.send_irq) (h : IrqInv log) :
    IrqInv (e :: log) := by
  intro post pre hp
  cases post with
  | nil => simp at hp; exact absurd hp.1 he
  | cons a post =>
    simp only [List.cons_append, List.cons.injEq] at hp
    exact h post pre hp.2

theorem irqInv_kick {v : Nat} {log : List Event} (hv : v ≠ 0) (h : IrqInv log) :
    IrqInv (Event.send_irq :: Event.set_guestkick 0 :: Event.get_guestkick v :: log) := by
  intro post pre hp
  cases post with
  | nil =>
    simp only [List.nil_append, List.cons.injEq, true_and] at hp
    exact ⟨v, log, hv, hp.symm⟩
  | cons a post =>
    simp only [List.cons_append, List.cons.injEq] at hp
    exact irqInv_cons (by simp) (irqInv_cons (by simp) h) post pre hp.2

@[simp] theorem emit_log (e : Event) (s : Worker) : (emit e s).log = e :: s.log := rfl
@[simp] theorem emit_work (e : Event) (s : Worker) : (emit e s).work = s.work := rfl
@[simp] theorem emit_kring (e : Event) (s : Worker) : (emit e s).kring = s.kring := rfl
@[simp] theorem install_heads_log (s : Worker) : (install_heads s).log = s.log := rfl
@[simp] theorem install_heads_work (s : Worker) : (install_heads s).work = s.work := rfl
@[simp] theorem tx_apply_batch_log (s : Worker) : (tx_apply_batch s).log = s.log := rfl
@[simp] theorem tx_apply_batch_work (s : Worker) : (tx_apply_batch s).work = s.work := rfl
@[simp] theorem tx_reclaim_hint_log (w : World) (s : Worker) : (tx_reclaim_hint w s).log = s.log := by
  unfold tx_reclaim_hint; split <;> rfl
@[simp] theorem tx_reclaim_hint_work (w : World) (s : Worker) :
    (tx_reclaim_hint w s).work = s.work := by
  unfold tx_reclaim_hint; split <;> rfl
@[simp] theorem call_sync_log (w : World) (s : Worker) :
    (call_sync w s).2.log
      = Event.nm_sync s.kring.rhead s.kring.rcur s.g_flags (call_sync w s).1 :: s.log := rfl
@[simp] theorem call_sync_work (w : World) (s : Worker) : (call_sync w s).2.work = s.work := rfl
@[simp] theorem host_read_log (w : World) (s : Worker) :
    (host_read_kring_csb w s).log
      = Event.read_kring_csb (host_read_kring_csb w s).g_head (host_read_kring_csb w s).g_cur
          (host_read_kring_csb w s).g_flags :: s.log := rfl
@[simp] theorem host_read_work (w : World) (s : Worker) :
    (host_read_kring_csb w s).work = s.work := rfl
@[simp] theorem host_read_kring (w : World) (s : Worker) :
    (host_read_kring_csb w s).kring = s.kring := rfl

/-- The three ways the notification block can go. -/
theorem notify_guest_cases (w : World) (s : Worker) :
    (s.work = false ∧ notify_guest w s = s) ∨
    (s.work = true ∧ (notify_guest w s).work = true ∧
      (notify_guest w s).log = Event.get_guestkick 0 :: s.log) ∨
    (s.work = true ∧ (notify_guest w s).work = false ∧
      ∃ v, v ≠ 0 ∧ (notify_guest w s).log
        = Event.send_irq :: Event.set_guestkick 0 :: Event.get_guestkick v :: s.log) := by
  unfold notify_guest
  by_cases hw : s.work = true
  · by_cases hv : w.get_guestkick s.log.length % U32 = 0
    · right; left
      simp [hw, hv]
    · right; right
      simp only [hw, hv, if_true, ne_eq, not_false_eq_true, true_and]
      exact ⟨_, hv, rfl⟩
  · left
    simp only [Bool.not_eq_true] at hw
    simp [hw]

theorem tx_publish_cases (s : Worker) :
    ((tx_publish s).work = s.work ∧
      (tx_publish s).log = Event.write_kring_csb s.kring.nr_hwcur s.kring.nr_hwtail :: s.log) ∨
    ((tx_publish s).work = true ∧
      (tx_publish s).log = Event.rtail_update s.kring.nr_hwtail ::
        Event.write_kring_csb s.kring.nr_hwcur s.kring.nr_hwtail :: s.log) := by
  unfold tx_publish
  by_cases h : s.kring.rtail = s.kring.nr_hwtail
  · left; simp [h]
  · right; simp [h]

theorem rx_publish_cases (s : Worker) :
    ((rx_publish s).work = s.work ∧
      (rx_publish s).log = Event.write_kring_csb s.kring.nr_hwcur s.kring.nr_hwtail :: s.log) ∨
    ((rx_publish s).work = true ∧
      (rx_publish s).log = Event.rtail_update s.kring.nr_hwtail ::
        Event.write_kring_csb s.kring.nr_hwcur s.kring.nr_hwtail :: s.log) := by
  unfold rx_publish
  by_cases h : s.kring.rtail = s.kring.nr_hwtail
  · left; simp [h]
  · right; simp [h]

theorem irqInv_notify_guest (w : World) (s : Worker) (h : IrqInv s.log) :
    IrqInv (notify_guest w s).log := by
  rcases notify_guest_cases w s with ⟨_, h1⟩ | ⟨_, _, h1⟩ | ⟨_, _, v, hv, h1⟩
  · rw [h1]; exact h
  · rw [h1]; exact irqInv_cons (by simp) h
  · rw [h1]; exact irqInv_kick hv h

theorem irqInv_tx_publish (s : Worker) (h : IrqInv s.log) : IrqInv (tx_publish s).log := by
  rcases tx_publish_cases s with ⟨_, h1⟩ | ⟨_, h1⟩ <;> rw [h1]
  · exact irqInv_cons (by simp) h
  · exact irqInv_cons (by simp) (irqInv_cons (by simp) h)

theorem irqInv_rx_publish (s : Worker) (h : IrqInv s.log) : IrqInv (rx_publish s).log := by
  rcases rx_publish_cases s with ⟨_, h1⟩ | ⟨_, h1⟩ <;> rw [h1]
  · exact irqInv_cons (by simp) h
  · exact irqInv_cons (by simp) (irqInv_cons (by simp) h)

theorem irqInv_tx_iter (w : World) (s : Worker) (h : IrqInv s.log) :
    IrqInv (tx_iter w s).2.log := by
  have h1 : IrqInv (call_sync w (install_heads (tx_reclaim_hint w (tx_apply_batch s)))).2.log := by
    rw [call_sync_log]; exact irqInv_cons (by simp) (by simpa using h)
  have h2 := irqInv_notify_guest w _ (irqInv_tx_publish _ h1)
  unfold tx_iter
  simp only []
  split_ifs <;> simp only [emit_log, host_read_log] <;>
    repeat (first | exact h2 | exact h1 | apply irqInv_cons (by simp))

theorem irqInv_rx_iter (w : World) (s : Worker) (h : IrqInv s.log) :
    IrqInv (rx_iter w s).2.log := by
  have h1 : IrqInv (call_sync w (install_heads s)).2.log := by
    rw [call_sync_log]; exact irqInv_cons (by simp) (by simpa using h)
  have h2 := irqInv_notify_guest w _ (irqInv_rx_publish _ h1)
  unfold rx_iter
  simp only []
  split_ifs <;> simp only [emit_log, host_read_log] <;>
    repeat (first | exact h2 | exact h1 | apply irqInv_cons (by simp))

theorem for_ever_inv (body : Worker → Next × Worker) (P : Worker → Prop)
    (hstep : ∀ s, P s → P (body s).2) : ∀ fuel s, P s → P (for_ever body fuel s).2 := by
  intro fuel
  induction fuel with
  | zero => intro s hs; exact hs
  | succ n ih =>
    intro s hs
    have h1 := hstep s hs
    unfold for_ever
    cases hit : body s with
    | mk nx s1 =>
      rw [hit] at h1
      cases nx with
      | again => exact ih s1 h1
      | leave_kr_put => exact h1

theorem tx_loop_inv (w : World) (P : Worker → Prop) (hstep : ∀ s, P s → P (tx_iter w s).2) :
    ∀ fuel s, P s → P (tx_loop w fuel s).2 :=
  for_ever_inv (tx_iter w) P hstep

theorem rx_loop_inv (w : World) (P : Worker → Prop) (hstep : ∀ s, P s → P (rx_iter w s).2) :
    ∀ fuel s, P s → P (rx_loop w fuel s).2 :=
  for_ever_inv (rx_iter w) P hstep

theorem irqInv_prologue (w : World) (k : netmap_kring) :
    IrqInv (prologue w (emit (Event.nm_kr_tryget w.nm_kr_tryget) (Worker.init k))).log := by
  unfold prologue
  simp only [host_read_log, emit_log]
  exact irqInv_cons (by simp) (irqInv_cons (by simp) (irqInv_cons (by simp) irqInv_nil))

theorem irqInv_leave_kr_put (w : World) (s : Worker) (h : IrqInv s.log) :
    ∃ log, (leave_kr_put w s).trace = log.reverse ∧ IrqInv log :=
  ⟨_, rfl, irqInv_notify_guest w _ (irqInv_cons (by simp) h)⟩

theorem irqInv_tx_handler (w : World) (k : netmap_kring) (fuel : Nat) :
    ∃ log, (ptnetmap_tx_handler w k fuel).trace = log.reverse ∧ IrqInv log := by
  unfold ptnetmap_tx_handler
  simp only []
  split_ifs
  · exact ⟨[], rfl, irqInv_nil⟩
  · exact ⟨[], rfl, irqInv_nil⟩
  · exact irqInv_leave_kr_put w _ (irqInv_cons (by simp) irqInv_nil)
  · exact irqInv_leave_kr_put w _
      (tx_loop_inv w (fun s => IrqInv s.log) (irqInv_tx_iter w) fuel _ (irqInv_prologue w k))
  · exact ⟨_, rfl,
      tx_loop_inv w (fun s => IrqInv s.log) (irqInv_tx_iter w) fuel _ (irqInv_prologue w k)⟩

theorem irqInv_rx_handler (w : World) (k : netmap_kring) (fuel : Nat) :
    ∃ log, (ptnetmap_rx_handler w k fuel).trace = log.reverse ∧ IrqInv log := by
  unfold ptnetmap_rx_handler
  simp only []
  split_ifs
  · exact ⟨[], rfl, irqInv_nil⟩
  · exact ⟨[], rfl, irqInv_nil⟩
  · exact ⟨_, rfl, irqInv_notify_guest w _ (irqInv_cons (by simp) irqInv_nil)⟩
  · exact irqInv_leave_kr_put w _
      (rx_loop_inv w (fun s => IrqInv s.log) (irqInv_rx_iter w) fuel _ (irqInv_prologue w k))
  · exact ⟨_, rfl,
      rx_loop_inv w (fun s => IrqInv s.log) (irqInv_rx_iter w) fuel _ (irqInv_prologue w k)⟩

theorem irq_guarded_of_irqInv (log : List Event) (h : IrqInv log) : irq_guarded log.reverse := by
  have h1 : ∀ pre post, log.reverse = pre ++ Event.send_irq :: post →
      ∃ pre1 v, v ≠ 0 ∧ pre = pre1 ++ [Event.get_guestkick v, Event.set_guestkick 0] := by
    intro pre post hp
    have hl : log = post.reverse ++ Event.send_irq :: pre.reverse := by
      have := congrArg List.reverse hp
      simpa using this
    obtain ⟨v, pre1, hv, hpre⟩ := h _ _ hl
    refine ⟨pre1.reverse, v, hv, ?_⟩
    have := congrArg List.reverse hpre
    simpa using this
  refine ⟨h1, ?_⟩
  intro pre post hp e he hirq
  subst hirq
  match post, hp, he with
  | [], _, he => simp at he
  | [a], hp, he =>
    simp only [List.take, List.mem_singleton] at he
    subst he
    obtain ⟨pre1, v, _, hpre⟩ := h1 (pre ++ [Event.get_guestkick 0]) [] (by simpa using hp)
    have hh : pre ++ [Event.get_guestkick 0] = (pre1 ++ [Event.get_guestkick v]) ++ [Event.set_guestkick 0] := by
      simpa using hpre
    have := (List.append_inj' hh rfl).2
    simp at this
  | a :: b :: rest, hp, he =>
    simp only [List.take, List.mem_cons, List.mem_singleton, List.not_mem_nil, or_false] at he
    rcases he with he | he
    · subst he
      obtain ⟨pre1, v, _, hpre⟩ := h1 (pre ++ [Event.get_guestkick 0]) (b :: rest) (by simpa using hp)
      have hh : pre ++ [Event.get_guestkick 0] = (pre1 ++ [Event.get_guestkick v]) ++ [Event.set_guestkick 0] := by
        simpa using hpre
      have := (List.append_inj' hh rfl).2
      simp at this
    · subst he
      obtain ⟨pre1, v, hv, hpre⟩ := h1 (pre ++ [Event.get_guestkick 0, a]) rest (by simpa using hp)
      have := (List.append_inj' hpre rfl).2
      simp only [List.cons.injEq, Event.get_guestkick.injEq] at this
      exact hv this.1.symm

/-- C2, amended: in every execution of `ptnetmap_tx_handler` and of
`ptnetmap_rx_handler`, finished or not, for every guest and backend
behaviour, each call to `ptn_kthread_send_irq` comes directly after the
handler's write `guest_need_kick = 0`, which comes directly after a read of
`guest_need_kick` that returned a non-zero value; no interrupt is injected
when that read returned 0. -/
theorem C2_interrupts_guarded (w : World) (kring : netmap_kring) (fuel : Nat) :
    irq_guarded (ptnetmap_tx_handler w kring fuel).trace ∧
    irq_guarded (ptnetmap_rx_handler w kring fuel).trace := by
  obtain ⟨l1, h1, h1i⟩ := irqInv_tx_handler w kring fuel
  obtain ⟨l2, h2, h2i⟩ := irqInv_rx_handler w kring fuel
  rw [h1, h2]
  exact ⟨irq_guarded_of_irqInv l1 h1i, irq_guarded_of_irqInv l2 h2i⟩

/-- C2, as stated, fails: in this run of `ptnetmap_tx_handler` the action
directly before `send_irq` is the write `guest_need_kick = 0`, a CSB access
that lies between the interrupt and the non-zero read of `guest_need_kick`. -/
theorem C2_counterexample :
    (ptnetmap_tx_handler ex_world ex_kring 1).trace =
      [Event.nm_kr_tryget 0, Event.set_hostkick 0, Event.read_kring_csb 1 1 0,
       Event.nm_sync 1 1 0 0, Event.write_kring_csb 1 0, Event.rtail_update 0,
       Event.get_guestkick 1, Event.set_guestkick 0, Event.send_irq,
       Event.read_kring_csb 1 1 0, Event.usleep_range, Event.set_hostkick 1,
       Event.read_kring_csb 1 1 0, Event.nm_kr_put] ∧
    ¬ irq_follows_read_claim (ptnetmap_tx_handler ex_world ex_kring 1).trace := by
  have htr : (ptnetmap_tx_handler ex_world ex_kring 1).trace =
      [Event.nm_kr_tryget 0, Event.set_hostkick 0, Event.read_kring_csb 1 1 0,
       Event.nm_sync 1 1 0 0, Event.write_kring_csb 1 0, Event.rtail_update 0,
       Event.get_guestkick 1, Event.set_guestkick 0, Event.send_irq,
       Event.read_kring_csb 1 1 0, Event.usleep_range, Event.set_hostkick 1,
       Event.read_kring_csb 1 1 0, Event.nm_kr_put] := by decide
  refine ⟨htr, ?_⟩
  intro h
  obtain ⟨pre1, v, mid, _, hpre, hmid⟩ := h
    [Event.nm_kr_tryget 0, Event.set_hostkick 0, Event.read_kring_csb 1 1 0,
       Event.nm_sync 1 1 0 0, Event.write_kring_csb 1 0, Event.rtail_update 0,
       Event.get_guestkick 1, Event.set_guestkick 0]
    [Event.read_kring_csb 1 1 0, Event.usleep_range, Event.set_hostkick 1,
       Event.read_kring_csb 1 1 0, Event.nm_kr_put] (by rw [htr]; rfl)
  have hr := congrArg List.reverse hpre
  simp only [List.reverse_append, List.reverse_cons, List.reverse_nil, List.nil_append,
    List.cons_append, List.append_assoc, List.singleton_append] at hr
  cases hm : mid.reverse with
  | nil =>
    rw [hm] at hr
    simp at hr
  | cons a m =>
    rw [hm] at hr
    simp only [List.cons_append, List.cons.injEq] at hr
    have ha : a ∈ mid := by
      rw [← List.mem_reverse, hm]; simp
    have := hmid a ha
    rw [← hr.1] at this
    simp [Event.csb_access] at this

/-! ## C3: progress is notified -/

theorem pending_cons {e : Event} (log : List Event) (h1 : e ≠ Event.send_irq)
    (h2 : ∀ x, e ≠ Event.rtail_update x) : pending (e :: log) = pending log := by
  cases e <;> simp_all [pending]

theorem pending_split (a b : List Event) (x : Nat) (h : Event.send_irq ∉ a) :
    pending (a ++ Event.rtail_update x :: b) = true := by
  induction a with
  | nil => simp [pending]
  | cons e a ih =>
    simp only [List.mem_cons, not_or] at h
    cases e <;> simp_all [pending]

theorem workInv_emit {e : Event} {s : Worker} (h1 : e ≠ Event.send_irq)
    (h2 : ∀ x, e ≠ Event.rtail_update x) (h3 : e ≠ Event.nm_kr_put) (h : WorkInv s) :
    WorkInv (emit e s) := by
  refine ⟨?_, ?_⟩
  · rw [emit_log, emit_work, pending_cons _ h1 h2]; exact h.1
  · rw [emit_log]
    simp only [List.mem_cons, not_or]
    exact ⟨fun hh => h3 hh.symm, h.2⟩

theorem workInv_read {w : World} {s : Worker} (h : WorkInv s) :
    WorkInv (host_read_kring_csb w s) := by
  refine ⟨?_, ?_⟩
  · rw [host_read_log, host_read_work, pending_cons _ (by simp) (by simp)]; exact h.1
  · rw [host_read_log]
    simp only [List.mem_cons, not_or]
    exact ⟨by simp, h.2⟩

theorem workInv_call_sync {w : World} {s : Worker} (h : WorkInv s) :
    WorkInv (call_sync w s).2 := by
  refine ⟨?_, ?_⟩
  · rw [call_sync_log, call_sync_work, pending_cons _ (by simp) (by simp)]; exact h.1
  · rw [call_sync_log]
    simp only [List.mem_cons, not_or]
    exact ⟨by simp, h.2⟩

theorem workInv_tx_publish {s : Worker} (h : WorkInv s) : WorkInv (tx_publish s) := by
  rcases tx_publish_cases s with ⟨hw, hl⟩ | ⟨hw, hl⟩
  · refine ⟨?_, ?_⟩
    · rw [hw, hl, pending_cons _ (by simp) (by simp)]; exact h.1
    · rw [hl]; simp only [List.mem_cons, not_or]; exact ⟨by simp, h.2⟩
  · refine ⟨?_, ?_⟩
    · rw [hw, hl]; simp [pending]
    · rw [hl]; simp only [List.mem_cons, not_or]; exact ⟨by simp, by simp, h.2⟩

theorem workInv_rx_publish {s : Worker} (h : WorkInv s) : WorkInv (rx_publish s) := by
  rcases rx_publish_cases s with ⟨hw, hl⟩ | ⟨hw, hl⟩
  · refine ⟨?_, ?_⟩
    · rw [hw, hl, pending_cons _ (by simp) (by simp)]; exact h.1
    · rw [hl]; simp only [List.mem_cons, not_or]; exact ⟨by simp, h.2⟩
  · refine ⟨?_, ?_⟩
    · rw [hw, hl]; simp [pending]
    · rw [hl]; simp only [List.mem_cons, not_or]; exact ⟨by simp, by simp, h.2⟩

theorem workInv_notify_guest {w : World} {s : Worker} (h : WorkInv s) :
    WorkInv (notify_guest w s) := by
  rcases notify_guest_cases w s with ⟨_, h1⟩ | ⟨hw, hw1, hl⟩ | ⟨_, hw1, v, _, hl⟩
  · rw [h1]; exact h
  · refine ⟨?_, ?_⟩
    · rw [hw1, hl, pending_cons _ (by simp) (by simp), ← h.1, hw]
    · rw [hl]; simp only [List.mem_cons, not_or]; exact ⟨by simp, h.2⟩
  · refine ⟨?_, ?_⟩
    · rw [hw1, hl]; simp [pending]
    · rw [hl]; simp only [List.mem_cons, not_or]; exact ⟨by simp, by simp, by simp, h.2⟩

theorem workInv_install_heads {s : Worker} (h : WorkInv s) : WorkInv (install_heads s) := h

theorem workInv_tx_pre {w : World} {s : Worker} (h : WorkInv s) :
    WorkInv (install_heads (tx_reclaim_hint w (tx_apply_batch s))) := by
  refine ⟨?_, ?_⟩
  · simpa using h.1
  · simpa using h.2

theorem workInv_tx_iter (w : World) (s : Worker) (h : WorkInv s) : WorkInv (tx_iter w s).2 := by
  have h1 : WorkInv (call_sync w (install_heads (tx_reclaim_hint w (tx_apply_batch s)))).2 :=
    workInv_call_sync (workInv_tx_pre h)
  have h2 := workInv_read (w := w) (workInv_notify_guest (w := w) (workInv_tx_publish h1))
  unfold tx_iter
  simp only []
  split_ifs <;> (try dsimp only) <;>
    repeat (first | exact h2 | exact h1 | apply workInv_read | apply workInv_emit (by simp) (by simp) (by simp))

theorem workInv_rx_iter (w : World) (s : Worker) (h : WorkInv s) : WorkInv (rx_iter w s).2 := by
  have h1 : WorkInv (call_sync w (install_heads s)).2 :=
    workInv_call_sync (workInv_install_heads h)
  have h2 := workInv_read (w := w) (workInv_notify_guest (w := w) (workInv_rx_publish h1))
  unfold rx_iter
  simp only []
  split_ifs <;> (try dsimp only) <;>
    repeat (first | exact h2 | exact h1 | apply workInv_read | apply workInv_emit (by simp) (by simp) (by simp))

theorem workInv_start (w : World) (k : netmap_kring) :
    WorkInv (emit (Event.nm_kr_tryget w.nm_kr_tryget) (Worker.init k)) :=
  ⟨rfl, by simp [Worker.init]⟩

theorem workInv_prologue (w : World) (k : netmap_kring) :
    WorkInv (prologue w (emit (Event.nm_kr_tryget w.nm_kr_tryget) (Worker.init k))) := by
  unfold prologue
  apply workInv_read
  apply workInv_emit (by simp) (by simp) (by simp)
  exact workInv_start w k

theorem split_right {X Y A B : List Event} {e : Event} (h : X ++ Y = A ++ e :: B) (he : e ∉ Y) :
    ∃ M, X = A ++ e :: M ∧ B = M ++ Y := by
  rcases List.append_eq_append_iff.mp h with ⟨a, _, h2⟩ | ⟨c, h1, h2⟩
  · exact absurd (by rw [h2]; simp) he
  · cases c with
    | nil => exact absurd (by rw [← List.nil_append Y, ← h2]; simp) he
    | cons x c =>
      simp only [List.cons_append, List.cons.injEq] at h2
      exact ⟨c, by rw [h1, ← h2.1], h2.2⟩

theorem unique_split {X Y A B : List Event} {a : Event} (h : X ++ a :: Y = A ++ a :: B)
    (hX : a ∉ X) (hY : a ∉ Y) : X = A ∧ Y = B := by
  rcases List.append_eq_append_iff.mp h with ⟨c, h1, h2⟩ | ⟨c, h1, h2⟩
  · cases c with
    | nil => simp at h1 h2; exact ⟨h1.symm, h2⟩
    | cons x c =>
      simp only [List.cons_append, List.cons.injEq] at h2
      exact absurd (by rw [h2.2]; simp) hY
  · cases c with
    | nil => simp at h1 h2; exact ⟨h1, h2.symm⟩
    | cons x c =>
      simp only [List.cons_append, List.cons.injEq] at h2
      exact absurd (by rw [h1, ← h2.1]; simp) hX

theorem leave_trace_cases (w : World) (s : Worker) :
    ∃ epi, (leave_kr_put w s).trace = s.log.reverse ++ Event.nm_kr_put :: epi ∧
      (leave_kr_put w s).returned = true ∧
      ((s.work = false ∧ epi = []) ∨ (s.work = true ∧ epi = [Event.get_guestkick 0]) ∨
        (s.work = true ∧ ∃ v, v ≠ 0 ∧
          epi = [Event.get_guestkick v, Event.set_guestkick 0, Event.send_irq])) := by
  unfold leave_kr_put
  rcases notify_guest_cases w (emit Event.nm_kr_put s) with ⟨hw, h1⟩ | ⟨hw, _, hl⟩ | ⟨hw, _, v, hv, hl⟩
  · exact ⟨[], by simp [h1], rfl, Or.inl ⟨hw, rfl⟩⟩
  · exact ⟨_, by simp [hl], rfl, Or.inr (Or.inl ⟨hw, rfl⟩)⟩
  · exact ⟨_, by simp [hl], rfl, Or.inr (Or.inr ⟨hw, v, hv, rfl⟩)⟩

theorem notified_of_shape (B epi : List Event) (work : Bool) (hw : work = pending B.reverse)
    (hput : Event.nm_kr_put ∉ B)
    (hepi : (work = false ∧ epi = []) ∨ (work = true ∧ epi = [Event.get_guestkick 0]) ∨
        (work = true ∧ ∃ v, v ≠ 0 ∧
          epi = [Event.get_guestkick v, Event.set_guestkick 0, Event.send_irq])) :
    progress_notified (B ++ Event.nm_kr_put :: epi) := by
  have hput_epi : Event.nm_kr_put ∉ epi := by
    rcases hepi with ⟨_, h⟩ | ⟨_, h⟩ | ⟨_, v, _, h⟩ <;> rw [h] <;> simp
  constructor
  · intro pre x post hp hirq
    have hx : Event.rtail_update x ∉ Event.nm_kr_put :: epi := by
      rcases hepi with ⟨_, h⟩ | ⟨_, h⟩ | ⟨_, v, _, h⟩ <;> rw [h] <;> simp
    obtain ⟨M, hB, hpost⟩ := split_right hp hx
    have hM : Event.send_irq ∉ M := by
      intro hm; apply hirq; rw [hpost]; simp [hm]
    have hpend : pending B.reverse = true := by
      rw [hB]
      simp only [List.reverse_append, List.reverse_cons, List.append_assoc, List.singleton_append]
      exact pending_split _ _ _ (by simpa using hM)
    rcases hepi with ⟨h1, _⟩ | ⟨_, h⟩ | ⟨_, v, _, h⟩
    · rw [hw, hpend] at h1; simp at h1
    · exact ⟨B, by rw [h]⟩
    · exfalso; apply hirq; rw [hpost, h]; simp
  · intro pre v post hp hv
    obtain ⟨_, h2⟩ := unique_split hp hput hput_epi
    rcases hepi with ⟨_, h⟩ | ⟨_, h⟩ | ⟨_, v0, _, h⟩
    · rw [h] at h2; simp at h2
    · rw [h] at h2
      simp only [List.cons.injEq, Event.get_guestkick.injEq] at h2
      exact absurd h2.1.symm hv
    · rw [h] at h2
      simp only [List.cons.injEq] at h2
      exact h2.2.symm

theorem notified_leave_kr_put (w : World) (s : Worker) (h : WorkInv s) :
    progress_notified (leave_kr_put w s).trace := by
  obtain ⟨epi, htr, _, hepi⟩ := leave_trace_cases w s
  rw [htr]
  exact notified_of_shape _ _ s.work (by rw [List.reverse_reverse]; exact h.1)
    (by simpa using h.2) hepi

theorem progress_notified_nil : progress_notified [] := by
  constructor
  · intro pre x post hp; simp at hp
  · intro pre v post hp; simp at hp

/-- C3: in every execution of the TX or RX handler that returns, if a sync
advanced `hwtail` (so `work` became true) and no interrupt was injected after
that publication, then the handler ends with a read of `guest_need_kick`
after releasing the kring, and that read returned 0; and if the read after
the release returned a non-zero value, exactly the clearing of the flag and
one interrupt follow. -/
theorem C3_progress_notified (w : World) (kring : netmap_kring) (fuel : Nat) :
    ((ptnetmap_tx_handler w kring fuel).returned = true →
      progress_notified (ptnetmap_tx_handler w kring fuel).trace) ∧
    ((ptnetmap_rx_handler w kring fuel).returned = true →
      progress_notified (ptnetmap_rx_handler w kring fuel).trace) := by
  constructor
  · unfold ptnetmap_tx_handler
    simp only []
    split_ifs
    · exact fun _ => progress_notified_nil
    · exact fun _ => progress_notified_nil
    · exact fun _ => notified_leave_kr_put w _ (workInv_start w kring)
    · exact fun _ => notified_leave_kr_put w _
        (tx_loop_inv w WorkInv (workInv_tx_iter w) fuel _ (workInv_prologue w kring))
    · intro h; simp [out_of_fuel] at h
  · unfold ptnetmap_rx_handler
    simp only []
    split_ifs
    · exact fun _ => progress_notified_nil
    · exact fun _ => progress_notified_nil
    · intro _
      rcases notify_guest_cases w (emit (Event.nm_kr_tryget w.nm_kr_tryget) (Worker.init kring))
        with ⟨_, h1⟩ | ⟨hw, _⟩ | ⟨hw, _⟩
      · rw [h1]
        constructor
        · intro pre x post hp
          have := congrArg (fun l => Event.rtail_update x ∈ l) hp
          simp [Worker.init] at this
        · intro pre v post hp
          have := congrArg (fun l => Event.nm_kr_put ∈ l) hp
          simp [Worker.init] at this
      · simp [Worker.init] at hw
      · simp [Worker.init] at hw
    · exact fun _ => notified_leave_kr_put w _
        (rx_loop_inv w WorkInv (workInv_rx_iter w) fuel _ (workInv_prologue w kring))
    · intro h; simp [out_of_fuel] at h

theorem C3_progress_notified_witness :
    (ptnetmap_tx_handler ex_world_polling ex_kring 1).returned = true ∧
    (ptnetmap_tx_handler ex_world_polling ex_kring 1).trace =
      [Event.nm_kr_tryget 0, Event.set_hostkick 0, Event.read_kring_csb 1 1 0,
       Event.nm_sync 1 1 0 0, Event.write_kring_csb 1 0, Event.rtail_update 0,
       Event.get_guestkick 0, Event.read_kring_csb 1 1 0, Event.usleep_range,
       Event.set_hostkick 1, Event.read_kring_csb 1 1 0, Event.nm_kr_put,
       Event.get_guestkick 0] ∧
    progress_notified (ptnetmap_tx_handler ex_world_polling ex_kring 1).trace :=
  ⟨by decide, by decide, (C3_progress_notified ex_world_polling ex_kring 1).1 (by decide)⟩

/-! ## C4: stop during a sync -/

theorem ext_refl (l : List Event) : Ext l l := ⟨[], rfl, by simp⟩

theorem ext_cons {l l1 : List Event} {e : Event} (he : e.quiet) (h : Ext l l1) :
    Ext l (e :: l1) := by
  obtain ⟨blk, h1, h2⟩ := h
  refine ⟨e :: blk, by rw [h1]; rfl, ?_⟩
  intro x hx
  rcases List.mem_cons.mp hx with hx | hx
  · rw [hx]; exact he
  · exact h2 x hx

theorem ext_notify_guest (w : World) (s : Worker) {l : List Event} (h : Ext l s.log) :
    Ext l (notify_guest w s).log := by
  rcases notify_guest_cases w s with ⟨_, h1⟩ | ⟨_, _, h1⟩ | ⟨_, _, v, _, h1⟩ <;> rw [h1]
  · exact h
  · exact ext_cons (by simp [Event.quiet, Event.is_sync]) h
  · exact ext_cons (by simp [Event.quiet, Event.is_sync])
      (ext_cons (by simp [Event.quiet, Event.is_sync])
        (ext_cons (by simp [Event.quiet, Event.is_sync]) h))

theorem ext_tx_publish (s : Worker) {l : List Event} (h : Ext l s.log) :
    Ext l (tx_publish s).log := by
  rcases tx_publish_cases s with ⟨_, h1⟩ | ⟨_, h1⟩ <;> rw [h1]
  · exact ext_cons (by simp [Event.quiet, Event.is_sync]) h
  · exact ext_cons (by simp [Event.quiet, Event.is_sync])
      (ext_cons (by simp [Event.quiet, Event.is_sync]) h)

theorem ext_rx_publish (s : Worker) {l : List Event} (h : Ext l s.log) :
    Ext l (rx_publish s).log := by
  rcases rx_publish_cases s with ⟨_, h1⟩ | ⟨_, h1⟩ <;> rw [h1]
  · exact ext_cons (by simp [Event.quiet, Event.is_sync]) h
  · exact ext_cons (by simp [Event.quiet, Event.is_sync])
      (ext_cons (by simp [Event.quiet, Event.is_sync]) h)

theorem ext_length {l l1 : List Event} (h : Ext l l1) : l.length ≤ l1.length := by
  obtain ⟨blk, h1, _⟩ := h
  rw [h1, List.length_append]; omega

theorem passSpec_of (w : World) (body : Worker → Next × Worker) (s : Worker) (s1 s2 : Worker)
    (hs1 : s1.log = s.log)
    (hs2 : Ext (call_sync w s1).2.log s2.log)
    (hbody : (body s = (Next.leave_kr_put, emit (Event.set_hostkick 1) (call_sync w s1).2)) ∨
      (body s = (Next.again, emit (Event.set_hostkick 0) (host_read_kring_csb w
        (emit (Event.set_hostkick 1) (emit Event.usleep_range s2))))) ∨
      (body s = (Next.leave_kr_put, host_read_kring_csb w
        (emit (Event.set_hostkick 1) (emit Event.usleep_range s2)))) ∨
      (body s = (Next.leave_kr_put, s2)) ∨
      (body s = (Next.again, s2) ∧
        ¬ (w.stopped s2.log.length || !w.configured s2.log.length) = true)) :
    ∃ ev blk, ev.is_sync = true ∧ (body s).2.log = blk ++ ev :: s.log ∧
      (∀ e ∈ blk, e.quiet) ∧
      ((body s).1 = Next.again → stopped_after w s.log.length → Event.set_hostkick 0 ∈ blk) := by
  have hlen := ext_length hs2
  rw [call_sync_log, hs1] at hs2 hlen
  have hq : ∀ e : Event, e.is_sync = false → e ≠ Event.nm_kr_put → e.quiet := fun _ h1 h2 => ⟨h1, h2⟩
  have hs3 : Ext (Event.nm_sync s1.kring.rhead s1.kring.rcur s1.g_flags (call_sync w s1).1 :: s.log)
      (host_read_kring_csb w (emit (Event.set_hostkick 1) (emit Event.usleep_range s2))).log := by
    rw [host_read_log, emit_log, emit_log]
    exact ext_cons (hq _ rfl (by simp)) (ext_cons (hq _ rfl (by simp))
      (ext_cons (hq _ rfl (by simp)) hs2))
  refine ⟨Event.nm_sync s1.kring.rhead s1.kring.rcur s1.g_flags (call_sync w s1).1, ?_⟩
  rcases hbody with hb | hb | hb | hb | ⟨hb, hstop⟩ <;> rw [hb]
  · refine ⟨[Event.set_hostkick 1], rfl, ?_, ?_, ?_⟩
    · simp [call_sync_log, hs1]
    · intro e he
      rw [List.mem_singleton.mp he]
      exact hq _ rfl (by simp)
    · intro h; simp at h
  · obtain ⟨blk3, h3, hq3⟩ := hs3
    refine ⟨Event.set_hostkick 0 :: blk3, rfl, ?_, ?_, ?_⟩
    · rw [emit_log, h3]; rfl
    · intro e he
      rcases List.mem_cons.mp he with he | he
      · rw [he]; exact hq _ rfl (by simp)
      · exact hq3 e he
    · intro _ _; simp
  · obtain ⟨blk3, h3, hq3⟩ := hs3
    exact ⟨blk3, rfl, h3, hq3, by intro h; simp at h⟩
  · obtain ⟨blk2, h2, hq2⟩ := hs2
    exact ⟨blk2, rfl, h2, hq2, by intro h; simp at h⟩
  · obtain ⟨blk2, h2, hq2⟩ := hs2
    refine ⟨blk2, rfl, h2, hq2, ?_⟩
    intro _ hst
    exact absurd (hst s2.log.length (by simp only [List.length_cons] at hlen; omega)) hstop

theorem passSpec_tx (w : World) : PassSpec w (tx_iter w) := by
  intro s
  apply passSpec_of w (tx_iter w) s (install_heads (tx_reclaim_hint w (tx_apply_batch s)))
    (host_read_kring_csb w (notify_guest w (tx_publish
      (call_sync w (install_heads (tx_reclaim_hint w (tx_apply_batch s)))).2)))
  · simp
  · rw [host_read_log]
    exact ext_cons (by simp [Event.quiet, Event.is_sync])
      (ext_notify_guest w _ (ext_tx_publish _ (ext_refl _)))
  · unfold tx_iter
    simp only []
    split_ifs with h1 h2 h3 h4 h5 <;> simp_all

theorem passSpec_rx (w : World) : PassSpec w (rx_iter w) := by
  intro s
  apply passSpec_of w (rx_iter w) s (install_heads s)
    (host_read_kring_csb w (notify_guest w (rx_publish (call_sync w (install_heads s)).2)))
  · simp
  · rw [host_read_log]
    exact ext_cons (by simp [Event.quiet, Event.is_sync])
      (ext_notify_guest w _ (ext_rx_publish _ (ext_refl _)))
  · unfold rx_iter
    simp only []
    split_ifs with h1 h2 h3 h4 h5 <;> simp_all

theorem sync_split {blk base P Q : List Event} {ev0 ev : Event}
    (h : blk ++ ev0 :: base = P ++ ev :: Q) (hlen : base.length ≤ Q.length)
    (hev : ev.is_sync = true) (hblk : ∀ e ∈ blk, e.quiet) : P = blk ∧ ev = ev0 ∧ Q = base := by
  rcases List.append_eq_append_iff.mp h with ⟨a, h1, h2⟩ | ⟨c, h1, h2⟩
  · cases a with
    | nil =>
      simp only [List.nil_append, List.cons.injEq] at h2
      exact ⟨by simpa using h1, h2.1.symm, h2.2.symm⟩
    | cons x a =>
      simp only [List.cons_append, List.cons.injEq] at h2
      have := congrArg List.length h2.2
      simp only [List.length_append, List.length_cons] at this
      omega
  · cases c with
    | nil =>
      simp only [List.nil_append, List.cons.injEq] at h2
      exact ⟨by simpa using h1.symm, h2.1, h2.2⟩
    | cons x c =>
      simp only [List.cons_append, List.cons.injEq] at h2
      have hx : ev ∈ blk := by rw [h1, h2.1]; simp
      have := (hblk ev hx).1
      rw [hev] at this
      exact absurd this (by simp)

theorem split_short {X Y P Q : List Event} {e : Event} (h : X ++ Y = P ++ e :: Q)
    (hlen : Q.length < Y.length) : ∃ c, Y = c ++ e :: Q ∧ P = X ++ c := by
  rcases List.append_eq_append_iff.mp h with ⟨a, h1, h2⟩ | ⟨c, h1, h2⟩
  · exact ⟨a, h2, h1⟩
  · cases c with
    | nil =>
      simp only [List.nil_append] at h2
      exact ⟨[], by simpa using h2.symm, by simpa using h1.symm⟩
    | cons x c =>
      have := congrArg List.length h2
      simp only [List.length_append, List.length_cons] at this
      omega

theorem for_ever_stop (w : World) (body : Worker → Next × Worker) (hb : PassSpec w body) :
    ∀ fuel s, ∃ ext, (for_ever body fuel s).2.log = ext ++ s.log ∧
      (∀ e ∈ ext, e ≠ Event.nm_kr_put) ∧
      ∀ postR ev preR, (for_ever body fuel s).2.log = postR ++ ev :: preR → ev.is_sync = true →
        s.log.length ≤ preR.length → stopped_after w preR.length →
        Event.set_hostkick 0 ∉ postR →
        (for_ever body fuel s).1 = true ∧ ∀ e ∈ postR, e.is_sync = false := by
  intro fuel
  induction fuel with
  | zero =>
    intro s
    refine ⟨[], rfl, by simp, ?_⟩
    intro postR ev preR h _ hlen _ _
    have := congrArg List.length h
    simp only [for_ever, List.length_append, List.length_cons] at this
    omega
  | succ n ih =>
    intro s
    obtain ⟨ev0, blk, hev0, hlog, hblk, hagain⟩ := hb s
    have hnoput : ∀ e ∈ blk ++ [ev0], e ≠ Event.nm_kr_put := by
      intro e he
      rcases List.mem_append.mp he with he | he
      · exact (hblk e he).2
      · rw [List.mem_singleton.mp he]
        intro h; rw [h] at hev0; simp [Event.is_sync] at hev0
    unfold for_ever
    cases hit : body s with
    | mk nx s1 =>
      rw [hit] at hlog hagain
      simp only at hlog hagain
      cases nx with
      | leave_kr_put =>
        refine ⟨blk ++ [ev0], by simp [hlog], hnoput, ?_⟩
        intro postR ev preR h hev hlen _ _
        simp only [hlog] at h
        obtain ⟨hP, _, _⟩ := sync_split h hlen hev hblk
        exact ⟨rfl, fun e he => ((hblk e (hP ▸ he)).1)⟩
      | again =>
        obtain ⟨ext, hext, hextput, hmain⟩ := ih s1
        refine ⟨ext ++ (blk ++ [ev0]), by simp [hext, hlog], ?_, ?_⟩
        · intro e he
          rcases List.mem_append.mp he with he | he
          · exact hextput e he
          · exact hnoput e he
        · intro postR ev preR h hev hlen hstop hno
          simp only at h
          by_cases hl : s1.log.length ≤ preR.length
          · exact hmain postR ev preR h hev hl hstop hno
          · exfalso
            rw [hext] at h
            obtain ⟨c, hc1, hc2⟩ := split_short h (by omega)
            rw [hlog] at hc1
            obtain ⟨hP, _, hQ⟩ := sync_split hc1 hlen hev hblk
            apply hno
            rw [hc2, hP]
            have := hagain rfl (by rw [hQ] at hstop; exact hstop)
            simp [this]

theorem epilogue_quiet {work : Bool} {epi : List Event}
    (hepi : (work = false ∧ epi = []) ∨ (work = true ∧ epi = [Event.get_guestkick 0]) ∨
        (work = true ∧ ∃ v, v ≠ 0 ∧
          epi = [Event.get_guestkick v, Event.set_guestkick 0, Event.send_irq])) :
    ∀ e ∈ epi, e.quiet := by
  intro e he
  rcases hepi with ⟨_, h⟩ | ⟨_, h⟩ | ⟨_, v, _, h⟩ <;> rw [h] at he <;>
    simp only [List.mem_cons, List.mem_singleton, List.not_mem_nil, or_false] at he
  · rw [he]; simp [Event.quiet, Event.is_sync]
  · rcases he with he | he | he <;> rw [he] <;> simp [Event.quiet, Event.is_sync]

theorem stop_honoured_of_loop (w : World) (body : Worker → Next × Worker) (hb : PassSpec w body)
    (fuel : Nat) (s0 : Worker) (hs0 : ∀ e ∈ s0.log, e.quiet) :
    stop_honoured_unless_continue w
      (if (for_ever body fuel s0).1 then leave_kr_put w (for_ever body fuel s0).2
        else out_of_fuel (for_ever body fuel s0).2) := by
  intro pre ev post htr hev hstop hno
  obtain ⟨ext, hext, hextput, hmain⟩ := for_ever_stop w body hb fuel s0
  have hev_s0 : ev ∉ s0.log := by
    intro h; have := (hs0 ev h).1; rw [hev] at this; simp at this
  have hput_F : Event.nm_kr_put ∉ (for_ever body fuel s0).2.log := by
    rw [hext]
    intro h
    rcases List.mem_append.mp h with h | h
    · exact hextput _ h rfl
    · exact (hs0 _ h).2 rfl
  -- the part of the argument shared by the two ways the run can end
  have key : ∀ M : List Event, (for_ever body fuel s0).2.log.reverse = pre ++ ev :: M →
      Event.set_hostkick 0 ∉ M →
      (for_ever body fuel s0).1 = true ∧ (∀ e ∈ M, e.is_sync = false) ∧ Event.nm_kr_put ∉ M := by
    intro M hM hnoM
    have hF : (for_ever body fuel s0).2.log = M.reverse ++ ev :: pre.reverse := by
      have := congrArg List.reverse hM
      simpa using this
    have hlen : s0.log.length ≤ pre.reverse.length := by
      rw [hext] at hF
      obtain ⟨M1, _, h2⟩ := split_right hF hev_s0
      rw [h2, List.length_append]; omega
    have hstop1 : stopped_after w pre.reverse.length := by simpa using hstop
    obtain ⟨h1, h2⟩ := hmain M.reverse ev pre.reverse hF hev hlen hstop1 (by simpa using hnoM)
    refine ⟨h1, fun e he => h2 e (by simpa using he), ?_⟩
    intro hm
    apply hput_F
    rw [hF]; simp [hm]
  by_cases hr : (for_ever body fuel s0).1 = true
  · simp only [hr, if_true] at htr ⊢
    obtain ⟨epi, hepi, hret, hcases⟩ := leave_trace_cases w (for_ever body fuel s0).2
    have hq := epilogue_quiet hcases
    rw [hepi] at htr
    have hev_epi : ev ∉ Event.nm_kr_put :: epi := by
      intro h
      rcases List.mem_cons.mp h with h | h
      · rw [h] at hev; simp [Event.is_sync] at hev
      · have := (hq ev h).1; rw [hev] at this; simp at this
    obtain ⟨M, hM, hpost⟩ := split_right htr hev_epi
    obtain ⟨_, h2, h3⟩ := key M hM (by intro h; apply hno; rw [hpost]; simp [h])
    refine ⟨hret, ?_, ?_⟩
    · intro e he
      rw [hpost] at he
      rcases List.mem_append.mp he with he | he
      · exact h2 e he
      · rcases List.mem_cons.mp he with he | he
        · rw [he]; rfl
        · exact (hq e he).1
    · rw [hpost, List.count_append, List.count_cons_self,
        List.count_eq_zero_of_not_mem h3,
        List.count_eq_zero_of_not_mem (fun h => (hq _ h).2 rfl)]
  · exfalso
    simp only [hr, if_false] at htr
    simp only [out_of_fuel] at htr
    exact hr (key post htr hno).1

theorem no_sync_vacuous (w : World) (r : Run) (h : ∀ e ∈ r.trace, e.is_sync = false) :
    stop_honoured_unless_continue w r := by
  intro pre ev post htr hev _ _
  have := h ev (by rw [htr]; simp)
  rw [hev] at this
  simp at this

theorem prologue_quiet (w : World) (k : netmap_kring) :
    ∀ e ∈ (prologue w (emit (Event.nm_kr_tryget w.nm_kr_tryget) (Worker.init k))).log,
      e.quiet := by
  intro e he
  simp only [prologue, host_read_log, emit_log, Worker.init, List.mem_cons, List.mem_singleton,
    List.not_mem_nil, or_false] at he
  rcases he with he | he | he <;> rw [he] <;> simp [Event.quiet, Event.is_sync]

/-- C4, amended: in every execution of `ptnetmap_tx_handler` and of
`ptnetmap_rx_handler`, if the session reads as stopped (or not configured)
from inside the backend sync of a pass onwards, and the handler does not
disarm the host kick again after that sync (no `continue` out of a
doublecheck), then the handler makes no further `nm_sync` call, releases the
kring once, and returns. -/
theorem C4_stop_honoured_unless_continue (w : World) (kring : netmap_kring) (fuel : Nat) :
    stop_honoured_unless_continue w (ptnetmap_tx_handler w kring fuel) ∧
    stop_honoured_unless_continue w (ptnetmap_rx_handler w kring fuel) := by
  constructor
  · unfold ptnetmap_tx_handler tx_loop
    simp only []
    split_ifs with h1 h2 h3
    · exact no_sync_vacuous w _ (by simp)
    · exact no_sync_vacuous w _ (by simp)
    · apply no_sync_vacuous
      obtain ⟨epi, hepi, _, hcases⟩ := leave_trace_cases w
        (emit (Event.nm_kr_tryget w.nm_kr_tryget) (Worker.init kring))
      have hq := epilogue_quiet hcases
      rw [hepi]
      intro e he
      simp only [emit_log, Worker.init, List.reverse_cons, List.reverse_nil, List.nil_append,
        List.singleton_append, List.mem_cons] at he
      rcases he with he | he | he
      · rw [he]; rfl
      · rw [he]; rfl
      · exact (hq e he).1
    · have := stop_honoured_of_loop w (tx_iter w) (passSpec_tx w) fuel _ (prologue_quiet w kring)
      rwa [if_pos (by assumption)] at this
    · have := stop_honoured_of_loop w (tx_iter w) (passSpec_tx w) fuel _ (prologue_quiet w kring)
      rwa [if_neg (by assumption)] at this
  · unfold ptnetmap_rx_handler rx_loop
    simp only []
    split_ifs with h1 h2 h3
    · exact no_sync_vacuous w _ (by simp)
    · exact no_sync_vacuous w _ (by simp)
    · apply no_sync_vacuous
      rcases notify_guest_cases w (emit (Event.nm_kr_tryget w.nm_kr_tryget) (Worker.init kring))
        with ⟨_, h⟩ | ⟨hw, _⟩ | ⟨hw, _⟩
      · rw [h]
        intro e he
        simp only [emit_log, Worker.init, List.reverse_cons, List.reverse_nil, List.nil_append,
          List.mem_singleton] at he
        rw [he]; rfl
      · simp [Worker.init] at hw
      · simp [Worker.init] at hw
    · have := stop_honoured_of_loop w (rx_iter w) (passSpec_rx w) fuel _ (prologue_quiet w kring)
      rwa [if_pos (by assumption)] at this
    · have := stop_honoured_of_loop w (rx_iter w) (passSpec_rx w) fuel _ (prologue_quiet w kring)
      rwa [if_neg (by assumption)] at this

/-- C4, as stated, fails: the session is stopped during the first sync, the
guest head equals `rhead` at the re-snapshot and differs at the doublecheck,
and the handler takes the `continue` of line 313 past the stop check and
calls `nm_sync` a second time. -/
theorem C4_counterexample :
    stopped_after ex_world_stop_continue 3 ∧
    (ptnetmap_tx_handler ex_world_stop_continue ex_kring 2).trace =
      [Event.nm_kr_tryget 0, Event.set_hostkick 0, Event.read_kring_csb 1 1 0,
       Event.nm_sync 1 1 0 0, Event.write_kring_csb 1 0, Event.rtail_update 0,
       Event.get_guestkick 1, Event.set_guestkick 0, Event.send_irq,
       Event.read_kring_csb 1 1 0, Event.usleep_range, Event.set_hostkick 1,
       Event.read_kring_csb 2 2 0, Event.set_hostkick 0,
       Event.nm_sync 2 2 0 0, Event.write_kring_csb 2 1, Event.rtail_update 1,
       Event.get_guestkick 1, Event.set_guestkick 0, Event.send_irq,
       Event.read_kring_csb 2 2 0, Event.usleep_range, Event.set_hostkick 1,
       Event.read_kring_csb 2 2 0, Event.nm_kr_put] ∧
    ¬ stop_honoured_claim ex_world_stop_continue
        (ptnetmap_tx_handler ex_world_stop_continue ex_kring 2) := by
  have hstop : stopped_after ex_world_stop_continue 3 := by
    intro t ht
    have : 4 ≤ t := ht
    simp [ex_world_stop_continue, this]
  have htr : (ptnetmap_tx_handler ex_world_stop_continue ex_kring 2).trace =
      [Event.nm_kr_tryget 0, Event.set_hostkick 0, Event.read_kring_csb 1 1 0,
       Event.nm_sync 1 1 0 0, Event.write_kring_csb 1 0, Event.rtail_update 0,
       Event.get_guestkick 1, Event.set_guestkick 0, Event.send_irq,
       Event.read_kring_csb 1 1 0, Event.usleep_range, Event.set_hostkick 1,
       Event.read_kring_csb 2 2 0, Event.set_hostkick 0,
       Event.nm_sync 2 2 0 0, Event.write_kring_csb 2 1, Event.rtail_update 1,
       Event.get_guestkick 1, Event.set_guestkick 0, Event.send_irq,
       Event.read_kring_csb 2 2 0, Event.usleep_range, Event.set_hostkick 1,
       Event.read_kring_csb 2 2 0, Event.nm_kr_put] := by decide
  refine ⟨hstop, htr, ?_⟩
  intro h
  have h1 := (h [Event.nm_kr_tryget 0, Event.set_hostkick 0, Event.read_kring_csb 1 1 0]
    (Event.nm_sync 1 1 0 0) _ (by rw [htr]; rfl) rfl hstop).2.1
  have h2 := h1 (Event.nm_sync 2 2 0 0) (by simp)
  simp [Event.is_sync] at h2

theorem C4_stop_honoured_unless_continue_witness :
    stopped_after ex_world_stop 3 ∧
    (ptnetmap_tx_handler ex_world_stop ex_kring 2).trace =
      [Event.nm_kr_tryget 0, Event.set_hostkick 0, Event.read_kring_csb 1 1 0] ++
       Event.nm_sync 1 1 0 0 :: [Event.write_kring_csb 1 0, Event.rtail_update 0,
       Event.get_guestkick 1, Event.set_guestkick 0, Event.send_irq,
       Event.read_kring_csb 2 2 0, Event.nm_kr_put] ∧
    ((ptnetmap_tx_handler ex_world_stop ex_kring 2).returned = true ∧
      (∀ e ∈ [Event.write_kring_csb 1 0, Event.rtail_update 0,
         Event.get_guestkick 1, Event.set_guestkick 0, Event.send_irq,
         Event.read_kring_csb 2 2 0, Event.nm_kr_put], e.is_sync = false) ∧
      List.count Event.nm_kr_put [Event.write_kring_csb 1 0, Event.rtail_update 0,
         Event.get_guestkick 1, Event.set_guestkick 0, Event.send_irq,
         Event.read_kring_csb 2 2 0, Event.nm_kr_put] = 1) :=
  have hstop : stopped_after ex_world_stop 3 := by
    intro t ht
    have : 4 ≤ t := ht
    simp [ex_world_stop, this]
  ⟨hstop, by decide,
    (C4_stop_honoured_unless_continue ex_world_stop ex_kring 2).1
      [Event.nm_kr_tryget 0, Event.set_hostkick 0, Event.read_kring_csb 1 1 0]
      (Event.nm_sync 1 1 0 0)
      [Event.write_kring_csb 1 0, Event.rtail_update 0,
       Event.get_guestkick 1, Event.set_guestkick 0, Event.send_irq,
       Event.read_kring_csb 2 2 0, Event.nm_kr_put]
      (by decide) rfl hstop (by decide)⟩

/-! ## Loops over the ring arrays -/

theorem getElem?_for_rings (f : netmap_kring → netmap_kring) (n : Nat) (l : List netmap_kring)
    (i : Nat) : (for_rings f n l)[i]? = (l[i]?).map (fun k => if i < n then f k else k) := by
  induction n with
  | zero => simp [for_rings]
  | succ n ih =>
    simp only [for_rings, List.getElem?_modify, ih]
    cases l[i]? with
    | none => simp
    | some k =>
      simp only [Option.map_some', Option.map_eq_map]
      by_cases h1 : n = i
      · subst h1; simp
      · by_cases h2 : i < n
        · have : i < n + 1 := by omega
          simp [h1, h2, this]
        · have : ¬ i < n + 1 := by omega
          simp [h1, h2, this]

theorem for_rings_comp (f g : netmap_kring → netmap_kring) (n : Nat) (l : List netmap_kring) :
    for_rings g n (for_rings f n l) = for_rings (fun k => g (f k)) n l := by
  apply List.ext_getElem?
  intro i
  simp only [getElem?_for_rings]
  cases l[i]? with
  | none => simp
  | some k => by_cases h : i < n <;> simp [h]

theorem for_rings_id (f : netmap_kring → netmap_kring) (n : Nat) (l : List netmap_kring)
    (h : ∀ k ∈ l, f k = k) : for_rings f n l = l := by
  apply List.ext_getElem?
  intro i
  simp only [getElem?_for_rings]
  cases hk : l[i]? with
  | none => simp
  | some k =>
    have hm : k ∈ l := List.getElem?_mem hk
    by_cases h1 : i < n <;> simp [h1, h k hm]

theorem for_rings_map_nm_notify (f : netmap_kring → netmap_kring) (n : Nat) (l : List netmap_kring)
    (h : ∀ k, (f k).nm_notify = k.nm_notify) :
    (for_rings f n l).map (fun k => k.nm_notify) = l.map (fun k => k.nm_notify) := by
  apply List.ext_getElem?
  intro i
  simp only [List.getElem?_map, getElem?_for_rings]
  cases l[i]? with
  | none => simp
  | some k => by_cases h1 : i < n <;> simp [h1, h k]

/-! ## What the lifecycle functions leave alone -/

theorem ptn_kthread_delete_pth_na (p : Option Nat) (h : Host) :
    (ptn_kthread_delete p h).pth_na = h.pth_na := by
  cases p <;> rfl

theorem ptn_kthread_stop_pth_na (p : Option Nat) (h : Host) :
    (ptn_kthread_stop p h).pth_na = h.pth_na := by
  cases p <;> rfl

theorem create_kthreads_pth_na (e : CtlEnv) (pts : ptnetmap_state) (h : Host) :
    (ptnetmap_create_kthreads e pts h).2.2.pth_na = h.pth_na := by
  unfold ptnetmap_create_kthreads create_kthreads_err
  cases e.ptn_kthread_create_tx <;> cases e.ptn_kthread_create_rx <;> cases hp : pts.ptk_tx <;>
    simp [hp, ptn_kthread_delete]

theorem kring_snapshot_pth_na (e : CtlEnv) (n : Nat) (tx : Bool) (k : netmap_kring) (h : Host) :
    (ptnetmap_kring_snapshot e n tx k h).2.pth_na = h.pth_na := by
  unfold ptnetmap_kring_snapshot
  split_ifs <;> rfl

theorem krings_snapshot_pth_na (e : CtlEnv) (h : Host) :
    (ptnetmap_krings_snapshot e h).2.pth_na = h.pth_na := by
  unfold ptnetmap_krings_snapshot
  simp only
  split_ifs
  · exact kring_snapshot_pth_na ..
  · rw [kring_snapshot_pth_na, kring_snapshot_pth_na]

theorem create_fail_pth_na (e : CtlEnv) (len : Nat) (h : Host)
    (hf : (ptnetmap_create e len h).1 ≠ 0) : (ptnetmap_create e len h).2.pth_na = h.pth_na := by
  unfold ptnetmap_create at hf ⊢
  split_ifs at hf ⊢ <;> try rfl
  cases hc : e.copyin with
  | none => rfl
  | some cfg =>
    simp only [hc] at hf ⊢
    split_ifs at hf ⊢
    · exact create_kthreads_pth_na ..
    · rw [krings_snapshot_pth_na, create_kthreads_pth_na]
    · exact absurd rfl hf

theorem create_ok (e : CtlEnv) (len : Nat) (h : Host) (hok : (ptnetmap_create e len h).1 = 0) :
    ∃ pts hk, (ptnetmap_create e len h).2 = install_session pts hk ∧ hk.pth_na = h.pth_na ∧
      h.pth_na.ptn_state = none := by
  unfold ptnetmap_create at hok ⊢
  split_ifs at hok ⊢ with h1 h2 h3
  · simp [EFAULT] at hok
  · simp [ENOMEM] at hok
  · simp [EINVAL] at hok
  · cases hc : e.copyin with
    | none => simp [hc, EFAULT] at hok
    | some cfg =>
      simp only [hc] at hok ⊢
      split_ifs at hok ⊢ with h4 h5
      · exact absurd hok h4
      · exact absurd hok h5
      · refine ⟨_, _, rfl, ?_, ?_⟩
        · rw [krings_snapshot_pth_na, create_kthreads_pth_na]
        · simpa using h1

theorem delete_pth_na (x : Host) (p : ptnetmap_state) (hp : x.pth_na.ptn_state = some p) :
    (ptnetmap_delete x).pth_na =
      { x.pth_na with parent := restore_parent x.pth_na, ptn_state := none } := by
  unfold ptnetmap_delete
  simp only [hp, ptn_kthread_delete_pth_na]

theorem delete_none (x : Host) (hp : x.pth_na.ptn_state = none) : ptnetmap_delete x = x := by
  unfold ptnetmap_delete
  simp only [hp]

theorem stop_none (x : Host) (hp : x.pth_na.ptn_state = none) : ptnetmap_stop_kthreads x = x := by
  unfold ptnetmap_stop_kthreads
  simp only [hp]

theorem stop_pth_na (x : Host) (p : ptnetmap_state) (hp : x.pth_na.ptn_state = some p) :
    (ptnetmap_stop_kthreads x).pth_na =
      { x.pth_na with ptn_state := some { p with stopped := true } } := by
  unfold ptnetmap_stop_kthreads
  simp only [hp, ptn_kthread_stop_pth_na]

theorem start_pth_na (e : CtlEnv) (x : Host) (p : ptnetmap_state)
    (hp : x.pth_na.ptn_state = some p) :
    (ptnetmap_start_kthreads e x).2.pth_na =
      { x.pth_na with ptn_state := some { p with stopped := false } } := by
  unfold ptnetmap_start_kthreads
  simp only [hp]
  split_ifs <;> simp [ptn_kthread_stop_pth_na]

theorem restore_install (pts : ptnetmap_state) (hk : Host) :
    restore_parent (install_session pts hk).pth_na =
      { hk.pth_na.parent with
        na_private := none
        rx_rings := for_rings kring_clear_save hk.pth_na.parent.num_rx_rings hk.pth_na.parent.rx_rings
        tx_rings := for_rings kring_clear_save hk.pth_na.parent.num_tx_rings hk.pth_na.parent.tx_rings } := by
  unfold restore_parent install_session
  simp only [for_rings_comp]
  rfl

/-! ## Return values of the steps of CREATE -/

theorem create_kthreads_ret (e : CtlEnv) (pts : ptnetmap_state) (h : Host) :
    (ptnetmap_create_kthreads e pts h).1 =
      if e.ptn_kthread_create_tx.isNone || e.ptn_kthread_create_rx.isNone then EFAULT else 0 := by
  unfold ptnetmap_create_kthreads create_kthreads_err
  cases e.ptn_kthread_create_tx <;> cases e.ptn_kthread_create_rx <;> cases hp : pts.ptk_tx <;>
    simp [hp]

theorem kring_snapshot_ret (e : CtlEnv) (n : Nat) (tx : Bool) (k : netmap_kring) (h : Host) :
    (ptnetmap_kring_snapshot e n tx k h).1 =
      if e.csb_write_fault n || e.csb_write_fault (n + 1) || e.csb_write_fault (n + 2)
        || e.csb_write_fault (n + 3) then EFAULT else 0 := by
  unfold ptnetmap_kring_snapshot
  split_ifs <;> simp_all

theorem krings_snapshot_ret (e : CtlEnv) (h : Host) :
    (ptnetmap_krings_snapshot e h).1 = if snapshot_faults e then EFAULT else 0 := by
  unfold ptnetmap_krings_snapshot
  simp only [snapshot_faults, List.range_succ, List.range_zero, List.nil_append,
    List.cons_append, List.any_cons, List.any_nil, Bool.or_false]
  split_ifs <;> simp_all [kring_snapshot_ret, EFAULT]
  intros; simp_all

/-! ## C6: a failing CREATE -/

/-- C6: evaluation of `ptnetmap_create` at an input on which it fails after
the workers exist. The CSB pointer of the configuration faults on write; the
call returns `EFAULT` and leaves the adapter untouched, but the two workers
created by `ptnetmap_create_kthreads` (handles 1 and 2) still exist when it
returns, although the session that held their handles has been freed. -/
theorem C6_create_leaks_workers_on_snapshot_fault :
    ex_host.pth_na.ptn_state = none ∧ ex_host.kthreads = [] ∧
    (ptnetmap_create ex_env_bad_csb 24 ex_host).1 = EFAULT ∧
    (ptnetmap_create ex_env_bad_csb 24 ex_host).2.pth_na = ex_host.pth_na ∧
    (ptnetmap_create ex_env_bad_csb 24 ex_host).2.kthreads = [2, 1] := by
  decide

/-! ## C7: error codes of CREATE -/

/-- C7, as stated, fails: a second `ptnetmap_create` on an adapter that
already has a session returns `EFAULT`, not `EBUSY`. -/
theorem C7_counterexample :
    ((ptnetmap_create ex_env 24 ex_host).2.pth_na.ptn_state).isSome = true ∧
    (ptnetmap_create ex_env 24 (ptnetmap_create ex_env 24 ex_host).2).1 = EFAULT ∧
    (ptnetmap_create ex_env 24 (ptnetmap_create ex_env 24 ex_host).2).1 ≠ EBUSY := by
  decide

/-- C7, amended: `ptnetmap_create` returns `EFAULT` (not `EBUSY`) when the
adapter already has a passthrough session; otherwise `ENOMEM` when the
allocation of the session fails; otherwise `EINVAL` when `buf_len` differs
from `sizeof(struct ptn_cfg)`; otherwise `EFAULT` when `copyin` fails, when a
worker cannot be created or when a write of the CSB snapshot faults; and 0
exactly when none of these happens. -/
theorem C7_create_error_codes (e : CtlEnv) (buf_len : Nat) (h : Host) :
    (ptnetmap_create e buf_len h).1 =
      if h.pth_na.ptn_state.isSome then EFAULT
      else if !e.malloc_ok then ENOMEM
      else if buf_len ≠ e.sizeof_ptn_cfg then EINVAL
      else if e.copyin.isNone then EFAULT
      else if e.ptn_kthread_create_tx.isNone || e.ptn_kthread_create_rx.isNone then EFAULT
      else if snapshot_faults e then EFAULT
      else 0 := by
  unfold ptnetmap_create
  cases hc : e.copyin with
  | none => split_ifs <;> simp_all
  | some cfg =>
    simp only [create_kthreads_ret, krings_snapshot_ret, Option.isNone_some]
    split_ifs <;> simp_all [EFAULT]

/-! ## C9: DELETE restores the callbacks -/

/-- C9: after a successful `ptnetmap_create`, `ptnetmap_delete` sets the
`nm_notify` of the parent and of every TX and RX kring back to the value it
held immediately before that `ptnetmap_create`; hence a ring points at
`nm_pt_host_notify` afterwards only if it did before the session was
created. -/
theorem C9_delete_restores_callbacks (e : CtlEnv) (buf_len : Nat) (h : Host)
    (hok : (ptnetmap_create e buf_len h).1 = 0) :
    (ptnetmap_delete (ptnetmap_create e buf_len h).2).pth_na.parent.nm_notify
      = h.pth_na.parent.nm_notify ∧
    (ptnetmap_delete (ptnetmap_create e buf_len h).2).pth_na.parent.tx_rings.map
        (fun k => k.nm_notify)
      = h.pth_na.parent.tx_rings.map (fun k => k.nm_notify) ∧
    (ptnetmap_delete (ptnetmap_create e buf_len h).2).pth_na.parent.rx_rings.map
        (fun k => k.nm_notify)
      = h.pth_na.parent.rx_rings.map (fun k => k.nm_notify) ∧
    (some notify_fn.nm_pt_host_notify ∉
        (h.pth_na.parent.tx_rings ++ h.pth_na.parent.rx_rings).map (fun k => k.nm_notify) →
      ∀ k ∈ (ptnetmap_delete (ptnetmap_create e buf_len h).2).pth_na.parent.tx_rings ++
          (ptnetmap_delete (ptnetmap_create e buf_len h).2).pth_na.parent.rx_rings,
        k.nm_notify ≠ some notify_fn.nm_pt_host_notify) := by
  obtain ⟨pts, hk, hc, hna, _⟩ := create_ok e buf_len h hok
  have htx : (ptnetmap_delete (ptnetmap_create e buf_len h).2).pth_na.parent.tx_rings.map
      (fun k => k.nm_notify) = h.pth_na.parent.tx_rings.map (fun k => k.nm_notify) := by
    rw [hc, delete_pth_na (install_session pts hk) _ rfl]
    simp only [restore_install, ← hna]
    exact for_rings_map_nm_notify _ _ _ (fun _ => rfl)
  have hrx : (ptnetmap_delete (ptnetmap_create e buf_len h).2).pth_na.parent.rx_rings.map
      (fun k => k.nm_notify) = h.pth_na.parent.rx_rings.map (fun k => k.nm_notify) := by
    rw [hc, delete_pth_na (install_session pts hk) _ rfl]
    simp only [restore_install, ← hna]
    exact for_rings_map_nm_notify _ _ _ (fun _ => rfl)
  refine ⟨?_, htx, hrx, ?_⟩
  · rw [hc, delete_pth_na (install_session pts hk) _ rfl]
    simp only [restore_install, ← hna]
  · intro hno k hk hpt
    apply hno
    rw [List.map_append, ← htx, ← hrx, ← List.map_append]
    exact List.mem_map.mpr ⟨k, hk, hpt⟩

theorem C9_delete_restores_callbacks_witness :
    (ptnetmap_create ex_env 24 ex_host).1 = 0 ∧
    (ptnetmap_create ex_env 24 ex_host).2.pth_na.parent.tx_rings.map (fun k => k.nm_notify)
      = [some notify_fn.nm_pt_host_notify, some (notify_fn.other 3)] ∧
    (ptnetmap_delete (ptnetmap_create ex_env 24 ex_host).2).pth_na.parent.tx_rings.map
        (fun k => k.nm_notify)
      = ex_host.pth_na.parent.tx_rings.map (fun k => k.nm_notify) :=
  ⟨by decide, by decide, (C9_delete_restores_callbacks ex_env 24 ex_host (by decide)).2.1⟩

/-! ## C8: CREATE then DELETE -/

/-- C8, as stated, fails: on a parent whose `na_private` and whose TX ring 0
`save_notify` are not `NULL`, CREATE followed by DELETE leaves both `NULL`,
so the parent adapter is not as before CREATE. -/
theorem C8_counterexample :
    ex_host_saved.pth_na.ptn_state = none ∧
    (ptnetmap_ctl ex_env .NETMAP_PT_HOST_CREATE 24 ex_host_saved).1 = 0 ∧
    ex_host_saved.pth_na.parent.na_private = some 7 ∧
    (ptnetmap_ctl ex_env .NETMAP_PT_HOST_DELETE 0
      (ptnetmap_ctl ex_env .NETMAP_PT_HOST_CREATE 24 ex_host_saved).2).2.pth_na.parent.na_private
      = none ∧
    (ptnetmap_ctl ex_env .NETMAP_PT_HOST_DELETE 0
      (ptnetmap_ctl ex_env .NETMAP_PT_HOST_CREATE 24 ex_host_saved).2).2.pth_na.parent
      ≠ ex_host_saved.pth_na.parent := by
  decide

theorem ctl_create_ok (e : CtlEnv) (buf_len : Nat) (h : Host)
    (hon : h.pth_na.passthrough_on = true)
    (hok : (ptnetmap_ctl e .NETMAP_PT_HOST_CREATE buf_len h).1 = 0) :
    (ptnetmap_create e buf_len h).1 = 0 ∧
    (ptnetmap_ctl e .NETMAP_PT_HOST_CREATE buf_len h).2
      = (ptnetmap_start_kthreads e (ptnetmap_create e buf_len h).2).2 := by
  simp only [ptnetmap_ctl, hon, Bool.not_true, Bool.false_eq_true, if_false] at hok ⊢
  split_ifs at hok ⊢ with h1 h2
  · exact absurd hok h1
  · exact absurd hok h2
  · exact ⟨by simpa using h1, rfl⟩

/-- C8, amended: a successful CREATE (`ptnetmap_create` then
`ptnetmap_start_kthreads`) followed immediately by DELETE
(`ptnetmap_stop_kthreads` then `ptnetmap_delete`) leaves `ptn_state` `NULL`
and the parent adapter as before CREATE except that `na_private` and the
`save_notify` of every TX/RX ring below `num_tx_rings`/`num_rx_rings` are
`NULL`: `nm_notify` of the parent and of every ring have their pre-CREATE
values, and the parent is exactly as before CREATE when `na_private` and
every `save_notify` were `NULL` then. -/
theorem C8_create_delete_roundtrip (e : CtlEnv) (buf_len : Nat) (h : Host)
    (hon : h.pth_na.passthrough_on = true)
    (hok : (ptnetmap_ctl e .NETMAP_PT_HOST_CREATE buf_len h).1 = 0) :
    (ptnetmap_ctl e .NETMAP_PT_HOST_DELETE 0
        (ptnetmap_ctl e .NETMAP_PT_HOST_CREATE buf_len h).2).2.pth_na.ptn_state = none ∧
    (ptnetmap_ctl e .NETMAP_PT_HOST_DELETE 0
        (ptnetmap_ctl e .NETMAP_PT_HOST_CREATE buf_len h).2).2.pth_na.parent =
      { h.pth_na.parent with
        na_private := none
        rx_rings := for_rings kring_clear_save h.pth_na.parent.num_rx_rings h.pth_na.parent.rx_rings
        tx_rings := for_rings kring_clear_save h.pth_na.parent.num_tx_rings h.pth_na.parent.tx_rings } ∧
    (h.pth_na.parent.na_private = none →
      (∀ k ∈ h.pth_na.parent.tx_rings, k.save_notify = none) →
      (∀ k ∈ h.pth_na.parent.rx_rings, k.save_notify = none) →
      (ptnetmap_ctl e .NETMAP_PT_HOST_DELETE 0
        (ptnetmap_ctl e .NETMAP_PT_HOST_CREATE buf_len h).2).2.pth_na.parent = h.pth_na.parent) := by
  obtain ⟨hcr, hst⟩ := ctl_create_ok e buf_len h hon hok
  obtain ⟨pts, hk, hc, hna, _⟩ := create_ok e buf_len h hcr
  have h1 : (ptnetmap_start_kthreads e (install_session pts hk)).2.pth_na = _ :=
    start_pth_na e (install_session pts hk) _ rfl
  have hon1 : (ptnetmap_start_kthreads e (install_session pts hk)).2.pth_na.passthrough_on = true := by
    rw [h1]; simpa [install_session, hna] using hon
  have h2 := stop_pth_na (ptnetmap_start_kthreads e (install_session pts hk)).2 _ (by rw [h1])
  have h3 := delete_pth_na (ptnetmap_stop_kthreads (ptnetmap_start_kthreads e (install_session pts hk)).2)
    _ (by rw [h2])
  have hpar : (ptnetmap_ctl e .NETMAP_PT_HOST_DELETE 0
        (ptnetmap_ctl e .NETMAP_PT_HOST_CREATE buf_len h).2).2.pth_na.parent =
      { h.pth_na.parent with
        na_private := none
        rx_rings := for_rings kring_clear_save h.pth_na.parent.num_rx_rings h.pth_na.parent.rx_rings
        tx_rings := for_rings kring_clear_save h.pth_na.parent.num_tx_rings h.pth_na.parent.tx_rings } := by
    rw [hst, hc]
    simp only [ptnetmap_ctl, hon1, Bool.not_true, Bool.false_eq_true, if_false]
    rw [h3, h2, h1]
    simp only [restore_parent]
    have := restore_install pts hk
    simp only [restore_parent] at this
    rw [← hna]
    exact this
  refine ⟨?_, hpar, ?_⟩
  · rw [hst, hc]
    simp only [ptnetmap_ctl, hon1, Bool.not_true, Bool.false_eq_true, if_false]
    rw [h3]
  · intro hp htx hrx
    rw [hpar, for_rings_id _ _ _ (fun k hk => ?_), for_rings_id _ _ _ (fun k hk => ?_)]
    · cases hpp : h.pth_na.parent
      simp only [hpp] at hp
      simp [hp]
    · have := hrx k hk
      cases k; simp_all [kring_clear_save]
    · have := htx k hk
      cases k; simp_all [kring_clear_save]

theorem C8_create_delete_roundtrip_witness :
    (ptnetmap_ctl ex_env .NETMAP_PT_HOST_CREATE 24 ex_host).1 = 0 ∧
    (ptnetmap_ctl ex_env .NETMAP_PT_HOST_CREATE 24 ex_host).2.pth_na.parent ≠ ex_host.pth_na.parent ∧
    (ptnetmap_ctl ex_env .NETMAP_PT_HOST_DELETE 0
      (ptnetmap_ctl ex_env .NETMAP_PT_HOST_CREATE 24 ex_host).2).2.pth_na.parent
      = ex_host.pth_na.parent :=
  ⟨by decide, by decide,
    (C8_create_delete_roundtrip ex_env 24 ex_host (by decide) (by decide)).2.2
      (by decide) (by decide) (by decide)⟩

/-! ## C10: DELETE without a session -/

/-- C10: on a passthrough host adapter whose `ptn_state` is `NULL`,
`ptnetmap_ctl` with `NETMAP_PT_HOST_DELETE` returns 0 and changes nothing
(`ptnetmap_stop_kthreads` and `ptnetmap_delete` both return the state they
were given); and on every passthrough host adapter, with or without a session,
DELETE applied twice gives the result and the state of DELETE applied
once. -/
theorem C10_delete_idempotent (e : CtlEnv) (buf_len : Nat) (h : Host)
    (hon : h.pth_na.passthrough_on = true) :
    (h.pth_na.ptn_state = none →
      ptnetmap_ctl e .NETMAP_PT_HOST_DELETE buf_len h = (0, h) ∧
      ptnetmap_stop_kthreads h = h ∧ ptnetmap_delete h = h) ∧
    ptnetmap_ctl e .NETMAP_PT_HOST_DELETE buf_len
        (ptnetmap_ctl e .NETMAP_PT_HOST_DELETE buf_len h).2
      = ptnetmap_ctl e .NETMAP_PT_HOST_DELETE buf_len h := by
  have hnone : ∀ x : Host, x.pth_na.passthrough_on = true → x.pth_na.ptn_state = none →
      ptnetmap_ctl e .NETMAP_PT_HOST_DELETE buf_len x = (0, x) := by
    intro x hx hp
    simp [ptnetmap_ctl, hx, stop_none x hp, delete_none x hp]
  refine ⟨fun hp => ⟨hnone h hon hp, stop_none h hp, delete_none h hp⟩, ?_⟩
  have hctl : ptnetmap_ctl e .NETMAP_PT_HOST_DELETE buf_len h
      = (0, ptnetmap_delete (ptnetmap_stop_kthreads h)) := by
    simp [ptnetmap_ctl, hon]
  rw [hctl]
  cases hp : h.pth_na.ptn_state with
  | none =>
    rw [stop_none h hp, delete_none h hp]
    exact hnone h hon hp
  | some p =>
    apply hnone
    · rw [delete_pth_na _ _ (by rw [stop_pth_na h p hp])]
      simpa [stop_pth_na h p hp] using hon
    · rw [delete_pth_na _ _ (by rw [stop_pth_na h p hp])]

theorem C10_delete_idempotent_witness :
    ptnetmap_ctl ex_env .NETMAP_PT_HOST_DELETE 0 ex_host = (0, ex_host) ∧
    ptnetmap_ctl ex_env .NETMAP_PT_HOST_DELETE 0
        (ptnetmap_ctl ex_env .NETMAP_PT_HOST_DELETE 0
          (ptnetmap_ctl ex_env .NETMAP_PT_HOST_CREATE 24 ex_host).2).2
      = ptnetmap_ctl ex_env .NETMAP_PT_HOST_DELETE 0
          (ptnetmap_ctl ex_env .NETMAP_PT_HOST_CREATE 24 ex_host).2 :=
  ⟨((C10_delete_idempotent ex_env 0 ex_host (by decide)).1 (by decide)).1,
    (C10_delete_idempotent ex_env 0
      (ptnetmap_ctl ex_env .NETMAP_PT_HOST_CREATE 24 ex_host).2 (by decide)).2⟩

/-! ## Runs and passes -/

theorem tx_handler_run (w : World) (kring : netmap_kring) (fuel : Nat)
    (hpts : w.pts = true) (hna : w.pth_na = true) (hst : w.stopped 0 = false)
    (hcf : w.configured 0 = true) (htry : w.nm_kr_tryget = 0) :
    ptnetmap_tx_handler w kring fuel = run_loop w (tx_iter w) fuel (loop_entry w kring) := by
  unfold ptnetmap_tx_handler run_loop loop_entry tx_loop
  simp [hpts, hna, hst, hcf, htry]

theorem rx_handler_run (w : World) (kring : netmap_kring) (fuel : Nat)
    (hpts : w.pts = true) (hna : w.pth_na = true) (hst : w.stopped 0 = false)
    (hcf : w.configured 0 = true) (htry : w.nm_kr_tryget = 0) :
    ptnetmap_rx_handler w kring fuel = run_loop w (rx_iter w) fuel (loop_entry w kring) := by
  unfold ptnetmap_rx_handler run_loop loop_entry rx_loop
  simp [hpts, hna, hst, hcf, htry]

/-- Either a handler ran its loop, or its trace holds no sync. -/
theorem tx_handler_cases (w : World) (kring : netmap_kring) (fuel : Nat) :
    (w.nm_kr_tryget = 0 ∧
      ptnetmap_tx_handler w kring fuel = run_loop w (tx_iter w) fuel (loop_entry w kring)) ∨
    (∀ e ∈ (ptnetmap_tx_handler w kring fuel).trace, e.is_sync = false) := by
  by_cases h : w.pts = true ∧ w.pth_na = true ∧ w.stopped 0 = false ∧ w.configured 0 = true ∧
      w.nm_kr_tryget = 0
  · exact Or.inl ⟨h.2.2.2.2, tx_handler_run w kring fuel h.1 h.2.1 h.2.2.1 h.2.2.2.1 h.2.2.2.2⟩
  · right
    unfold ptnetmap_tx_handler
    simp only []
    split_ifs with h1 h2 h3
    · simp
    · simp
    · obtain ⟨epi, hepi, _, hcases⟩ := leave_trace_cases w
        (emit (Event.nm_kr_tryget w.nm_kr_tryget) (Worker.init kring))
      have hq := epilogue_quiet hcases
      rw [hepi]
      intro e he
      simp only [emit_log, Worker.init, List.reverse_cons, List.reverse_nil, List.nil_append,
        List.singleton_append, List.mem_cons] at he
      rcases he with he | he | he
      · rw [he]; rfl
      · rw [he]; rfl
      · exact (hq e he).1
    · exfalso; apply h; simp_all
    · exfalso; apply h; simp_all

theorem rx_handler_cases (w : World) (kring : netmap_kring) (fuel : Nat) :
    (w.nm_kr_tryget = 0 ∧
      ptnetmap_rx_handler w kring fuel = run_loop w (rx_iter w) fuel (loop_entry w kring)) ∨
    (∀ e ∈ (ptnetmap_rx_handler w kring fuel).trace, e.is_sync = false) := by
  by_cases h : w.pts = true ∧ w.pth_na = true ∧ w.stopped 0 = false ∧ w.configured 0 = true ∧
      w.nm_kr_tryget = 0
  · exact Or.inl ⟨h.2.2.2.2, rx_handler_run w kring fuel h.1 h.2.1 h.2.2.1 h.2.2.2.1 h.2.2.2.2⟩
  · right
    unfold ptnetmap_rx_handler
    simp only []
    split_ifs with h1 h2 h3
    · simp
    · simp
    · rcases notify_guest_cases w (emit (Event.nm_kr_tryget w.nm_kr_tryget) (Worker.init kring))
        with ⟨_, h⟩ | ⟨hw, _⟩ | ⟨hw, _⟩
      · rw [h]
        intro e he
        simp only [emit_log, Worker.init, List.reverse_cons, List.reverse_nil, List.nil_append,
          List.mem_singleton] at he
        rw [he]; rfl
      · simp [Worker.init] at hw
      · simp [Worker.init] at hw
    · exfalso; apply h; simp_all
    · exfalso; apply h; simp_all

theorem for_ever_locate (w : World) (body : Worker → Next × Worker) (hb : PassSpec w body)
    (P : Worker → Prop) (hP : ∀ s, P s → (body s).1 = Next.again → P (body s).2) :
    ∀ fuel s, P s → ∀ postR ev preR, (for_ever body fuel s).2.log = postR ++ ev :: preR →
      ev.is_sync = true → s.log.length ≤ preR.length →
      ∃ sk n blk, P sk ∧ sk.log = preR ∧ (body sk).2.log = blk ++ ev :: sk.log ∧
        (∀ e ∈ blk, e.quiet) ∧ for_ever body fuel s = for_ever body (n + 1) sk := by
  intro fuel
  induction fuel with
  | zero =>
    intro s _ postR ev preR h _ hlen
    have := congrArg List.length h
    simp only [for_ever, List.length_append, List.length_cons] at this
    omega
  | succ n ih =>
    intro s hs postR ev preR h hev hlen
    obtain ⟨ev0, blk, hev0, hlog, hblk, _⟩ := hb s
    by_cases hl : (body s).2.log.length ≤ preR.length
    · -- the sync belongs to a later pass
      have hPs := hP s hs
      cases hit : body s with
      | mk nx s1 =>
        rw [hit] at hl hPs
        simp only at hl hPs
        cases nx with
        | leave_kr_put =>
          exfalso
          have h' : s1.log = postR ++ ev :: preR := by
            simpa [for_ever, hit] using h
          have := congrArg List.length h'
          simp only [List.length_append, List.length_cons] at this
          omega
        | again =>
          have h' : (for_ever body n s1).2.log = postR ++ ev :: preR := by
            simpa [for_ever, hit] using h
          obtain ⟨sk, m, blk1, h1, h2, h3, h4, h5⟩ := ih s1 (hPs rfl) postR ev preR h' hev hl
          refine ⟨sk, m, blk1, h1, h2, h3, h4, ?_⟩
          rw [← h5]
          simp [for_ever, hit]
    · -- the sync is the one of this pass
      obtain ⟨ext, hext, _, _⟩ := for_ever_stop w body hb n (body s).2
      have hF : ∃ W, (for_ever body (n + 1) s).2.log = W ++ (body s).2.log := by
        cases hit : body s with
        | mk nx s1 =>
          rw [hit] at hext
          cases nx with
          | leave_kr_put => exact ⟨[], by simp [for_ever, hit]⟩
          | again => exact ⟨ext, by simpa [for_ever, hit] using hext⟩
      obtain ⟨W, hW⟩ := hF
      rw [hW] at h
      obtain ⟨c, hc1, _⟩ := split_short h (by omega)
      rw [hlog] at hc1
      obtain ⟨hc, he, hQ⟩ := sync_split hc1 hlen hev hblk
      refine ⟨s, n, blk, hs, hQ.symm, ?_, hblk, rfl⟩
      rw [hlog, he]

theorem for_ever_exit (body : Worker → Next × Worker) (P : Worker → Prop)
    (hP : ∀ s, P s → (body s).1 = Next.again → P (body s).2) :
    ∀ fuel s, P s → (for_ever body fuel s).1 = true →
      ∃ sk, P sk ∧ (body sk).1 = Next.leave_kr_put ∧ (for_ever body fuel s).2 = (body sk).2 := by
  intro fuel
  induction fuel with
  | zero => intro s _ h; simp [for_ever] at h
  | succ n ih =>
    intro s hs h
    have hPs := hP s hs
    cases hit : body s with
    | mk nx s1 =>
      rw [hit] at hPs
      cases nx with
      | leave_kr_put => exact ⟨s, hs, by rw [hit], by simp [for_ever, hit]⟩
      | again =>
        have h' : (for_ever body n s1).1 = true := by simpa [for_ever, hit] using h
        obtain ⟨sk, h1, h2, h3⟩ := ih s1 (hPs rfl) h'
        exact ⟨sk, h1, h2, by simpa [for_ever, hit] using h3⟩

theorem tx_iter_eq (w : World) (s : Worker) :
    tx_iter w s =
      if (call_sync w (tx_pre w s)).1 ≠ 0 then
        (Next.leave_kr_put, emit (Event.set_hostkick 1) (call_sync w (tx_pre w s)).2)
      else if (tx_mid w s).g_head = (tx_mid w s).kring.rhead then
        if (doublecheck w (tx_mid w s)).g_head ≠ (tx_mid w s).kring.rhead then
          (Next.again, emit (Event.set_hostkick 0) (doublecheck w (tx_mid w s)))
        else (Next.leave_kr_put, doublecheck w (tx_mid w s))
      else if (tx_mid w s).kring.nr_hwtail = (tx_mid w s).kring.rhead then
        (Next.leave_kr_put, tx_mid w s)
      else if w.stopped (tx_mid w s).log.length || !w.configured (tx_mid w s).log.length then
        (Next.leave_kr_put, tx_mid w s)
      else (Next.again, tx_mid w s) := rfl

theorem rx_iter_eq (w : World) (s : Worker) :
    rx_iter w s =
      if (call_sync w (install_heads s)).1 ≠ 0 then
        (Next.leave_kr_put, emit (Event.set_hostkick 1) (call_sync w (install_heads s)).2)
      else if ptnetmap_kr_rxfull (rx_mid w s).kring (rx_mid w s).g_head then
        if !ptnetmap_kr_rxfull (rx_mid w s).kring (doublecheck w (rx_mid w s)).g_head then
          (Next.again, emit (Event.set_hostkick 0) (doublecheck w (rx_mid w s)))
        else (Next.leave_kr_put, doublecheck w (rx_mid w s))
      else if (rx_mid w s).kring.nr_hwtail = (rx_mid w s).kring.rhead ∨
          PTN_RX_NOWORK_CYCLE ≤ (rx_mid w s).cicle_nowork then
        (Next.leave_kr_put, rx_mid w s)
      else if w.stopped (rx_mid w s).log.length || !w.configured (rx_mid w s).log.length then
        (Next.leave_kr_put, rx_mid w s)
      else (Next.again, rx_mid w s) := rfl

theorem tx_iter_cases (w : World) (s : Worker) :
    ((call_sync w (tx_pre w s)).1 ≠ 0 ∧
      tx_iter w s = (Next.leave_kr_put, emit (Event.set_hostkick 1) (call_sync w (tx_pre w s)).2)) ∨
    ((call_sync w (tx_pre w s)).1 = 0 ∧ (tx_mid w s).g_head = (tx_mid w s).kring.rhead ∧
      (doublecheck w (tx_mid w s)).g_head ≠ (tx_mid w s).kring.rhead ∧
      tx_iter w s = (Next.again, emit (Event.set_hostkick 0) (doublecheck w (tx_mid w s)))) ∨
    ((call_sync w (tx_pre w s)).1 = 0 ∧ (tx_mid w s).g_head = (tx_mid w s).kring.rhead ∧
      (doublecheck w (tx_mid w s)).g_head = (tx_mid w s).kring.rhead ∧
      tx_iter w s = (Next.leave_kr_put, doublecheck w (tx_mid w s))) ∨
    ((call_sync w (tx_pre w s)).1 = 0 ∧ (tx_mid w s).g_head ≠ (tx_mid w s).kring.rhead ∧
      (tx_mid w s).kring.nr_hwtail = (tx_mid w s).kring.rhead ∧
      tx_iter w s = (Next.leave_kr_put, tx_mid w s)) ∨
    ((call_sync w (tx_pre w s)).1 = 0 ∧ (tx_mid w s).g_head ≠ (tx_mid w s).kring.rhead ∧
      (tx_mid w s).kring.nr_hwtail ≠ (tx_mid w s).kring.rhead ∧
      (w.stopped (tx_mid w s).log.length || !w.configured (tx_mid w s).log.length) = true ∧
      tx_iter w s = (Next.leave_kr_put, tx_mid w s)) ∨
    ((call_sync w (tx_pre w s)).1 = 0 ∧ (tx_mid w s).g_head ≠ (tx_mid w s).kring.rhead ∧
      (tx_mid w s).kring.nr_hwtail ≠ (tx_mid w s).kring.rhead ∧
      (w.stopped (tx_mid w s).log.length || !w.configured (tx_mid w s).log.length) = false ∧
      tx_iter w s = (Next.again, tx_mid w s)) := by
  rw [tx_iter_eq]
  split_ifs <;> simp_all

theorem rx_iter_cases (w : World) (s : Worker) :
    ((call_sync w (install_heads s)).1 ≠ 0 ∧
      rx_iter w s = (Next.leave_kr_put, emit (Event.set_hostkick 1) (call_sync w (install_heads s)).2)) ∨
    ((call_sync w (install_heads s)).1 = 0 ∧
      ptnetmap_kr_rxfull (rx_mid w s).kring (rx_mid w s).g_head = true ∧
      ptnetmap_kr_rxfull (rx_mid w s).kring (doublecheck w (rx_mid w s)).g_head = false ∧
      rx_iter w s = (Next.again, emit (Event.set_hostkick 0) (doublecheck w (rx_mid w s)))) ∨
    ((call_sync w (install_heads s)).1 = 0 ∧
      ptnetmap_kr_rxfull (rx_mid w s).kring (rx_mid w s).g_head = true ∧
      ptnetmap_kr_rxfull (rx_mid w s).kring (doublecheck w (rx_mid w s)).g_head = true ∧
      rx_iter w s = (Next.leave_kr_put, doublecheck w (rx_mid w s))) ∨
    ((call_sync w (install_heads s)).1 = 0 ∧
      ptnetmap_kr_rxfull (rx_mid w s).kring (rx_mid w s).g_head = false ∧
      ((rx_mid w s).kring.nr_hwtail = (rx_mid w s).kring.rhead ∨
        PTN_RX_NOWORK_CYCLE ≤ (rx_mid w s).cicle_nowork) ∧
      rx_iter w s = (Next.leave_kr_put, rx_mid w s)) ∨
    ((call_sync w (install_heads s)).1 = 0 ∧
      ptnetmap_kr_rxfull (rx_mid w s).kring (rx_mid w s).g_head = false ∧
      ¬ ((rx_mid w s).kring.nr_hwtail = (rx_mid w s).kring.rhead ∨
        PTN_RX_NOWORK_CYCLE ≤ (rx_mid w s).cicle_nowork) ∧
      (w.stopped (rx_mid w s).log.length || !w.configured (rx_mid w s).log.length) = true ∧
      rx_iter w s = (Next.leave_kr_put, rx_mid w s)) ∨
    ((call_sync w (install_heads s)).1 = 0 ∧
      ptnetmap_kr_rxfull (rx_mid w s).kring (rx_mid w s).g_head = false ∧
      ¬ ((rx_mid w s).kring.nr_hwtail = (rx_mid w s).kring.rhead ∨
        PTN_RX_NOWORK_CYCLE ≤ (rx_mid w s).cicle_nowork) ∧
      (w.stopped (rx_mid w s).log.length || !w.configured (rx_mid w s).log.length) = false ∧
      rx_iter w s = (Next.again, rx_mid w s)) := by
  rw [rx_iter_eq]
  split_ifs <;> simp_all

/-! ## The host kick along a pass -/

theorem inner_quiet {e : Event} (h : e.inner = true) : e.quiet := by
  cases e <;> simp_all [Event.inner, Event.quiet, Event.is_sync]

theorem notification_inner {e : Event} (h : e.notification = true) : e.inner = true := by
  cases e <;> simp_all [Event.inner, Event.notification]

theorem lastkick_cons_inner {e : Event} (l : List Event) (h : e.inner = true) :
    lastkick (e :: l) = lastkick l := by
  cases e <;> simp_all [Event.inner, lastkick]

theorem lastkick_cons_sync {e : Event} (l : List Event) (h : e.is_sync = true) :
    lastkick (e :: l) = lastkick l := by
  cases e <;> simp_all [Event.is_sync, lastkick]

theorem lastkick_append_inner (blk l : List Event) (h : ∀ e ∈ blk, e.inner = true) :
    lastkick (blk ++ l) = lastkick l := by
  induction blk with
  | nil => rfl
  | cons e blk ih =>
    rw [List.cons_append, lastkick_cons_inner _ (h e (by simp))]
    exact ih (fun x hx => h x (by simp [hx]))

theorem lastkick_some {l : List Event} {v : Nat} (h : lastkick l = some v) :
    ∃ a b, l = a ++ Event.set_hostkick v :: b ∧ ∀ u, Event.set_hostkick u ∉ a := by
  induction l with
  | nil => simp [lastkick] at h
  | cons e l ih =>
    by_cases he : ∃ u, e = Event.set_hostkick u
    · obtain ⟨u, hu⟩ := he
      subst hu
      simp only [lastkick, Option.some.injEq] at h
      subst h
      exact ⟨[], l, rfl, by simp⟩
    · have hl : lastkick (e :: l) = lastkick l := by
        cases e <;> simp_all [lastkick]
      rw [hl] at h
      obtain ⟨a, b, h1, h2⟩ := ih h
      refine ⟨e :: a, b, by rw [h1]; rfl, ?_⟩
      intro u hu
      rcases List.mem_cons.mp hu with hu | hu
      · exact he ⟨u, hu.symm⟩
      · exact h2 u hu

theorem inner_notify_guest (w : World) (s : Worker) :
    ∃ blk, (notify_guest w s).log = blk ++ s.log ∧ ∀ e ∈ blk, e.notification = true := by
  rcases notify_guest_cases w s with ⟨_, h1⟩ | ⟨_, _, h1⟩ | ⟨_, _, v, _, h1⟩ <;> rw [h1]
  · exact ⟨[], rfl, by simp⟩
  · exact ⟨[Event.get_guestkick 0], rfl, by simp [Event.notification]⟩
  · exact ⟨[Event.send_irq, Event.set_guestkick 0, Event.get_guestkick v], rfl,
      by simp [Event.notification]⟩

theorem inner_tx_publish (s : Worker) :
    ∃ blk, (tx_publish s).log = blk ++ s.log ∧ ∀ e ∈ blk, e.inner = true := by
  rcases tx_publish_cases s with ⟨_, h1⟩ | ⟨_, h1⟩ <;> rw [h1]
  · exact ⟨[_], rfl, by simp [Event.inner]⟩
  · exact ⟨[_, _], rfl, by simp [Event.inner]⟩

theorem inner_rx_publish (s : Worker) :
    ∃ blk, (rx_publish s).log = blk ++ s.log ∧ ∀ e ∈ blk, e.inner = true := by
  rcases rx_publish_cases s with ⟨_, h1⟩ | ⟨_, h1⟩ <;> rw [h1]
  · exact ⟨[_], rfl, by simp [Event.inner]⟩
  · exact ⟨[_, _], rfl, by simp [Event.inner]⟩

@[simp] theorem tx_pre_log (w : World) (s : Worker) : (tx_pre w s).log = s.log := by
  simp [tx_pre]

theorem tx_mid_log (w : World) (s : Worker) :
    ∃ blk, (tx_mid w s).log = blk ++ Event.nm_sync (tx_pre w s).kring.rhead
        (tx_pre w s).kring.rcur (tx_pre w s).g_flags (call_sync w (tx_pre w s)).1 :: s.log ∧
      ∀ e ∈ blk, e.inner = true := by
  obtain ⟨b1, h1, q1⟩ := inner_tx_publish (call_sync w (tx_pre w s)).2
  obtain ⟨b2, h2, q2⟩ := inner_notify_guest w (tx_publish (call_sync w (tx_pre w s)).2)
  refine ⟨Event.read_kring_csb (tx_mid w s).g_head (tx_mid w s).g_cur (tx_mid w s).g_flags ::
    (b2 ++ b1), ?_, ?_⟩
  · unfold tx_mid
    rw [host_read_log, h2, h1, call_sync_log, tx_pre_log]
    simp
  · intro e he
    rcases List.mem_cons.mp he with he | he
    · rw [he]; rfl
    · rcases List.mem_append.mp he with he | he
      · exact notification_inner (q2 e he)
      · exact q1 e he

theorem rx_mid_log (w : World) (s : Worker) :
    ∃ blk, (rx_mid w s).log = blk ++ Event.nm_sync (install_heads s).kring.rhead
        (install_heads s).kring.rcur (install_heads s).g_flags (call_sync w (install_heads s)).1
          :: s.log ∧
      ∀ e ∈ blk, e.inner = true := by
  obtain ⟨b1, h1, q1⟩ := inner_rx_publish (call_sync w (install_heads s)).2
  obtain ⟨b2, h2, q2⟩ := inner_notify_guest w (rx_publish (call_sync w (install_heads s)).2)
  refine ⟨Event.read_kring_csb (rx_mid w s).g_head (rx_mid w s).g_cur (rx_mid w s).g_flags ::
    (b2 ++ b1), ?_, ?_⟩
  · unfold rx_mid
    rw [host_read_log, h2, h1, call_sync_log, install_heads_log]
    simp
  · intro e he
    rcases List.mem_cons.mp he with he | he
    · rw [he]; rfl
    · rcases List.mem_append.mp he with he | he
      · exact notification_inner (q2 e he)
      · exact q1 e he

theorem doublecheck_log (w : World) (s : Worker) :
    (doublecheck w s).log = Event.read_kring_csb (doublecheck w s).g_head (doublecheck w s).g_cur
      (doublecheck w s).g_flags :: Event.set_hostkick 1 :: Event.usleep_range :: s.log := rfl

theorem passKick_of (w : World) (body : Worker → Next × Worker) (s s1 mid : Worker)
    (a b c : Nat)
    (hs1 : (call_sync w s1).2.log = Event.nm_sync a b c (call_sync w s1).1 :: s.log)
    (hmid : ∃ blk, mid.log = blk ++ Event.nm_sync a b c (call_sync w s1).1 :: s.log ∧
      ∀ e ∈ blk, e.inner = true)
    (hbody : ((call_sync w s1).1 ≠ 0 ∧
        body s = (Next.leave_kr_put, emit (Event.set_hostkick 1) (call_sync w s1).2)) ∨
      ((call_sync w s1).1 = 0 ∧
        (body s = (Next.again, emit (Event.set_hostkick 0) (doublecheck w mid)) ∨
         body s = (Next.leave_kr_put, doublecheck w mid) ∨
         body s = (Next.leave_kr_put, mid) ∨ body s = (Next.again, mid)))) :
    ∃ a b c ret blk, (body s).2.log = blk ++ Event.nm_sync a b c ret :: s.log ∧
      (∀ e ∈ blk, e.quiet) ∧
      (ret ≠ 0 → (body s).1 = Next.leave_kr_put ∧ blk = [Event.set_hostkick 1]) ∧
      ((body s).1 = Next.again → lastkick s.log = some 0 →
        lastkick (body s).2.log = some 0) := by
  obtain ⟨blk2, h2, q2⟩ := hmid
  have hq2 : ∀ e ∈ blk2, e.quiet := fun e he => inner_quiet (q2 e he)
  have hq : ∀ e : Event, e.is_sync = false → e ≠ Event.nm_kr_put → e.quiet :=
    fun _ h1 h2 => ⟨h1, h2⟩
  refine ⟨a, b, c, (call_sync w s1).1, ?_⟩
  rcases hbody with ⟨hr, hb⟩ | ⟨hr, hb | hb | hb | hb⟩ <;> rw [hb]
  · refine ⟨[Event.set_hostkick 1], by rw [emit_log, hs1]; rfl, ?_, fun _ => ⟨rfl, rfl⟩, ?_⟩
    · intro e he
      rw [List.mem_singleton.mp he]; exact hq _ rfl (by simp)
    · intro h; simp at h
  · refine ⟨Event.set_hostkick 0 :: Event.read_kring_csb (doublecheck w mid).g_head
      (doublecheck w mid).g_cur (doublecheck w mid).g_flags :: Event.set_hostkick 1 ::
      Event.usleep_range :: blk2, by rw [emit_log, doublecheck_log, h2]; rfl, ?_,
      fun h => absurd hr h, fun _ _ => rfl⟩
    intro e he
    simp only [List.mem_cons] at he
    rcases he with he | he | he | he | he
    · rw [he]; exact hq _ rfl (by simp)
    · rw [he]; exact hq _ rfl (by simp)
    · rw [he]; exact hq _ rfl (by simp)
    · rw [he]; exact hq _ rfl (by simp)
    · exact hq2 e he
  · refine ⟨Event.read_kring_csb (doublecheck w mid).g_head
      (doublecheck w mid).g_cur (doublecheck w mid).g_flags :: Event.set_hostkick 1 ::
      Event.usleep_range :: blk2, by rw [doublecheck_log, h2]; rfl, ?_,
      fun h => absurd hr h, ?_⟩
    · intro e he
      simp only [List.mem_cons] at he
      rcases he with he | he | he | he
      · rw [he]; exact hq _ rfl (by simp)
      · rw [he]; exact hq _ rfl (by simp)
      · rw [he]; exact hq _ rfl (by simp)
      · exact hq2 e he
    · intro h; simp at h
  · exact ⟨blk2, h2, hq2, fun h => absurd hr h, by intro h; simp at h⟩
  · refine ⟨blk2, h2, hq2, fun h => absurd hr h, ?_⟩
    intro _ hk
    simp only []
    rw [h2, lastkick_append_inner _ _ q2, lastkick_cons_sync _ (by rfl)]
    exact hk

theorem passKick_tx (w : World) : PassKick (tx_iter w) := by
  intro s
  apply passKick_of w (tx_iter w) s (tx_pre w s) (tx_mid w s) _ _ _
    (by rw [call_sync_log, tx_pre_log]) (tx_mid_log w s)
  rcases tx_iter_cases w s with h | h | h | h | h | h
  · exact Or.inl h
  · exact Or.inr ⟨h.1, Or.inl h.2.2.2⟩
  · exact Or.inr ⟨h.1, Or.inr (Or.inl h.2.2.2)⟩
  · exact Or.inr ⟨h.1, Or.inr (Or.inr (Or.inl h.2.2.2))⟩
  · exact Or.inr ⟨h.1, Or.inr (Or.inr (Or.inl h.2.2.2.2))⟩
  · exact Or.inr ⟨h.1, Or.inr (Or.inr (Or.inr h.2.2.2.2))⟩

theorem passKick_rx (w : World) : PassKick (rx_iter w) := by
  intro s
  apply passKick_of w (rx_iter w) s (install_heads s) (rx_mid w s) _ _ _
    (by rw [call_sync_log, install_heads_log]) (rx_mid_log w s)
  rcases rx_iter_cases w s with h | h | h | h | h | h
  · exact Or.inl h
  · exact Or.inr ⟨h.1, Or.inl h.2.2.2⟩
  · exact Or.inr ⟨h.1, Or.inr (Or.inl h.2.2.2)⟩
  · exact Or.inr ⟨h.1, Or.inr (Or.inr (Or.inl h.2.2.2))⟩
  · exact Or.inr ⟨h.1, Or.inr (Or.inr (Or.inl h.2.2.2.2))⟩
  · exact Or.inr ⟨h.1, Or.inr (Or.inr (Or.inr h.2.2.2.2))⟩

/-! ## C12 and C15: a failing sync, and the host kick at every sync -/

theorem run_loop_trace (w : World) (body : Worker → Next × Worker) (fuel : Nat) (s0 : Worker) :
    ((for_ever body fuel s0).1 = false ∧ (run_loop w body fuel s0).returned = false ∧
      (run_loop w body fuel s0).trace = (for_ever body fuel s0).2.log.reverse) ∨
    ((for_ever body fuel s0).1 = true ∧ (run_loop w body fuel s0).returned = true ∧
      ∃ epi, (run_loop w body fuel s0).trace =
          (for_ever body fuel s0).2.log.reverse ++ Event.nm_kr_put :: epi ∧
        ∀ e ∈ epi, e.notification = true) := by
  unfold run_loop
  by_cases hr : (for_ever body fuel s0).1 = true
  · right
    simp only [hr, if_true, true_and]
    obtain ⟨epi, hepi, hret, hcases⟩ := leave_trace_cases w (for_ever body fuel s0).2
    refine ⟨hret, epi, hepi, ?_⟩
    intro e he
    rcases hcases with ⟨_, h⟩ | ⟨_, h⟩ | ⟨_, v, _, h⟩ <;> rw [h] at he <;>
      simp only [List.mem_cons, List.mem_singleton, List.not_mem_nil, or_false] at he
    · rw [he]; rfl
    · rcases he with he | he | he <;> rw [he] <;> rfl
  · left
    simp only [Bool.not_eq_true] at hr
    simp [hr, out_of_fuel]

theorem run_locate (w : World) (body : Worker → Next × Worker) (hb : PassSpec w body)
    (P : Worker → Prop) (hP : ∀ s, P s → (body s).1 = Next.again → P (body s).2)
    (fuel : Nat) (s0 : Worker) (hs0 : ∀ e ∈ s0.log, e.quiet) (h0 : P s0)
    (pre : List Event) (ev : Event) (post : List Event)
    (htr : (run_loop w body fuel s0).trace = pre ++ ev :: post) (hev : ev.is_sync = true) :
    ∃ sk n blk, P sk ∧ sk.log = pre.reverse ∧ (body sk).2.log = blk ++ ev :: sk.log ∧
      (∀ e ∈ blk, e.quiet) ∧ for_ever body fuel s0 = for_ever body (n + 1) sk ∧
      Event.nm_kr_put ∉ pre := by
  obtain ⟨ext, hext, hextput, _⟩ := for_ever_stop w body hb fuel s0
  have hev_s0 : ev ∉ s0.log := by
    intro h; have := (hs0 ev h).1; rw [hev] at this; simp at this
  have hput_F : Event.nm_kr_put ∉ (for_ever body fuel s0).2.log := by
    rw [hext]
    intro h
    rcases List.mem_append.mp h with h | h
    · exact hextput _ h rfl
    · exact (hs0 _ h).2 rfl
  have key : ∀ M : List Event, (for_ever body fuel s0).2.log.reverse = pre ++ ev :: M →
      ∃ sk n blk, P sk ∧ sk.log = pre.reverse ∧ (body sk).2.log = blk ++ ev :: sk.log ∧
        (∀ e ∈ blk, e.quiet) ∧ for_ever body fuel s0 = for_ever body (n + 1) sk ∧
        Event.nm_kr_put ∉ pre := by
    intro M hM
    have hF : (for_ever body fuel s0).2.log = M.reverse ++ ev :: pre.reverse := by
      have := congrArg List.reverse hM
      simpa using this
    have hlen : s0.log.length ≤ pre.reverse.length := by
      rw [hext] at hF
      obtain ⟨M1, _, h2⟩ := split_right hF hev_s0
      rw [h2, List.length_append]; omega
    obtain ⟨sk, n, blk, h1, h2, h3, h4, h5⟩ :=
      for_ever_locate w body hb P hP fuel s0 h0 M.reverse ev pre.reverse hF hev hlen
    refine ⟨sk, n, blk, h1, h2, h3, h4, h5, ?_⟩
    intro hm
    apply hput_F
    rw [hF]; simp [hm]
  rcases run_loop_trace w body fuel s0 with ⟨_, _, h⟩ | ⟨_, _, epi, h, hepi⟩
  · rw [h] at htr
    exact key post htr
  · rw [h] at htr
    have hev_epi : ev ∉ Event.nm_kr_put :: epi := by
      intro hm
      rcases List.mem_cons.mp hm with hm | hm
      · rw [hm] at hev; simp [Event.is_sync] at hev
      · have := (inner_quiet (notification_inner (hepi ev hm))).1
        rw [hev] at this; simp at this
    obtain ⟨M, hM, _⟩ := split_right htr hev_epi
    exact key M hM

theorem sync_failure_of_loop (w : World) (body : Worker → Next × Worker) (hb : PassSpec w body)
    (hk : PassKick body) (fuel : Nat) (s0 : Worker) (hs0 : ∀ e ∈ s0.log, e.quiet) :
    sync_failure_handled (run_loop w body fuel s0) := by
  intro pre a b c ret post htr hret
  obtain ⟨sk, n, blk, _, hsk, hlog, hblk, hfor, hput⟩ :=
    run_locate w body hb (fun _ => True) (fun _ _ _ => trivial) fuel s0 hs0 trivial
      pre _ post htr rfl
  obtain ⟨a1, b1, c1, ret1, blk1, hlog1, hblk1, hfail, _⟩ := hk sk
  obtain ⟨hb1, he1, _⟩ := sync_split (hlog1.symm.trans hlog) (le_refl _) rfl hblk1
  simp only [Event.nm_sync.injEq] at he1
  obtain ⟨hleave, hblk2⟩ := hfail (by rw [← he1.2.2.2]; exact hret)
  have hF : for_ever body fuel s0 = (true, (body sk).2) := by
    rw [hfor]
    cases hit : body sk with
    | mk nx s1 =>
      rw [hit] at hleave
      simp only at hleave
      subst hleave
      simp [for_ever, hit]
  rcases run_loop_trace w body fuel s0 with ⟨h1, _, _⟩ | ⟨_, hr, epi, h, hepi⟩
  · rw [hF] at h1; simp at h1
  · refine ⟨hr, hput, epi, ?_, hepi⟩
    rw [h, hF] at htr
    simp only [] at htr
    rw [hlog, hb1, hblk2, hsk] at htr
    simp only [List.reverse_append, List.reverse_cons, List.reverse_nil, List.nil_append,
      List.reverse_reverse, List.append_assoc, List.singleton_append, List.cons_append] at htr
    have := List.append_cancel_left htr
    simp only [List.cons.injEq, true_and] at this
    exact this.symm

theorem kick_disarmed_of_loop (w : World) (body : Worker → Next × Worker) (hb : PassSpec w body)
    (hk : PassKick body) (fuel : Nat) (s0 : Worker) (hs0 : ∀ e ∈ s0.log, e.quiet)
    (h0 : lastkick s0.log = some 0) :
    kick_disarmed_at_sync (run_loop w body fuel s0).trace := by
  intro pre ev post htr hev
  have hP : ∀ s, lastkick s.log = some 0 → (body s).1 = Next.again →
      lastkick (body s).2.log = some 0 := by
    intro s h1 h2
    obtain ⟨_, _, _, _, _, _, _, _, h⟩ := hk s
    exact h h2 h1
  obtain ⟨sk, n, blk, hPk, hsk, _⟩ :=
    run_locate w body hb (fun s => lastkick s.log = some 0) hP fuel s0 hs0 h0 pre ev post htr hev
  rw [hsk] at hPk
  obtain ⟨x, y, hxy, hx⟩ := lastkick_some hPk
  refine ⟨y.reverse, x.reverse, ?_, ?_⟩
  · have := congrArg List.reverse hxy
    simpa using this
  · intro v hv
    exact hx v (by simpa using hv)

theorem no_sync_failure_vacuous (r : Run) (h : ∀ e ∈ r.trace, e.is_sync = false) :
    sync_failure_handled r := by
  intro pre a b c ret post htr _
  have := h (Event.nm_sync a b c ret) (by rw [htr]; simp)
  simp [Event.is_sync] at this

theorem loop_entry_trace (w : World) (body : Worker → Next × Worker) (hb : PassSpec w body)
    (kring : netmap_kring) (fuel : Nat) (htry : w.nm_kr_tryget = 0) :
    wake_starts_disarmed (run_loop w body fuel (loop_entry w kring)).trace := by
  obtain ⟨ext, hext, _, _⟩ := for_ever_stop w body hb fuel (loop_entry w kring)
  have hl : (loop_entry w kring).log.reverse = [Event.nm_kr_tryget 0, Event.set_hostkick 0,
      Event.read_kring_csb (loop_entry w kring).g_head (loop_entry w kring).g_cur
        (loop_entry w kring).g_flags] := by
    simp [loop_entry, prologue, host_read_kring_csb, emit, Worker.init, htry]
  rcases run_loop_trace w body fuel (loop_entry w kring) with ⟨_, _, h⟩ | ⟨_, _, epi, h, _⟩
  · rw [h, hext, List.reverse_append, hl]
    exact ⟨_, _, _, _, rfl⟩
  · rw [h, hext, List.reverse_append, hl]
    exact ⟨_, _, _, _, rfl⟩

/-- C12: in every execution of `ptnetmap_tx_handler` and of `ptnetmap_rx_handler`, for
every guest and backend, a call of `nm_sync` that returns non-zero is followed by exactly
the write `host_need_kick = 1` and the release of the kring, then only by guest-kick
actions of the label `leave` (so no `hwcur`/`hwtail` write to the CSB, no later host-kick
write, no further `nm_sync`); the kring was not released before, and the handler returns. -/
theorem C12_sync_failure_handled (w : World) (kring : netmap_kring) (fuel : Nat) :
    sync_failure_handled (ptnetmap_tx_handler w kring fuel) ∧
    sync_failure_handled (ptnetmap_rx_handler w kring fuel) := by
  constructor
  · rcases tx_handler_cases w kring fuel with ⟨_, h⟩ | h
    · rw [h]
      exact sync_failure_of_loop w _ (passSpec_tx w) (passKick_tx w) fuel _ (prologue_quiet w kring)
    · exact no_sync_failure_vacuous _ h
  · rcases rx_handler_cases w kring fuel with ⟨_, h⟩ | h
    · rw [h]
      exact sync_failure_of_loop w _ (passSpec_rx w) (passKick_rx w) fuel _ (prologue_quiet w kring)
    · exact no_sync_failure_vacuous _ h

theorem C12_sync_failure_handled_witness :
    (ptnetmap_tx_handler ex_world_sync_fails ex_kring 3).trace =
      [Event.nm_kr_tryget 0, Event.set_hostkick 0, Event.read_kring_csb 1 1 0] ++
        Event.nm_sync 1 1 0 (-5) :: [Event.set_hostkick 1, Event.nm_kr_put] ∧
    ((ptnetmap_tx_handler ex_world_sync_fails ex_kring 3).returned = true ∧
      Event.nm_kr_put ∉ [Event.nm_kr_tryget 0, Event.set_hostkick 0, Event.read_kring_csb 1 1 0] ∧
      ∃ epi, [Event.set_hostkick 1, Event.nm_kr_put]
          = Event.set_hostkick 1 :: Event.nm_kr_put :: epi ∧
        ∀ e ∈ epi, e.notification = true) :=
  ⟨by decide, (C12_sync_failure_handled ex_world_sync_fails ex_kring 3).1
    [Event.nm_kr_tryget 0, Event.set_hostkick 0, Event.read_kring_csb 1 1 0] 1 1 0 (-5)
    [Event.set_hostkick 1, Event.nm_kr_put] (by decide) (by decide)⟩

/-- C15: in every execution of `ptnetmap_tx_handler` and of `ptnetmap_rx_handler` that
passes the entry gate and acquires the kring, the handler has written `host_need_kick`
before every `nm_sync` call and the last such write before the call wrote 0; and the
first action after the acquisition is the write `host_need_kick = 0`, directly followed
by the first read of the guest indices. -/
theorem C15_hostkick_disarmed_at_sync (w : World) (kring : netmap_kring) (fuel : Nat)
    (hpts : w.pts = true) (hna : w.pth_na = true) (hst : w.stopped 0 = false)
    (hcf : w.configured 0 = true) (htry : w.nm_kr_tryget = 0) :
    (kick_disarmed_at_sync (ptnetmap_tx_handler w kring fuel).trace ∧
      wake_starts_disarmed (ptnetmap_tx_handler w kring fuel).trace) ∧
    (kick_disarmed_at_sync (ptnetmap_rx_handler w kring fuel).trace ∧
      wake_starts_disarmed (ptnetmap_rx_handler w kring fuel).trace) := by
  have hk0 : lastkick (loop_entry w kring).log = some 0 := by
    simp [loop_entry, prologue, host_read_kring_csb, emit, lastkick]
  rw [tx_handler_run w kring fuel hpts hna hst hcf htry,
    rx_handler_run w kring fuel hpts hna hst hcf htry]
  exact ⟨⟨kick_disarmed_of_loop w _ (passSpec_tx w) (passKick_tx w) fuel _
      (prologue_quiet w kring) hk0, loop_entry_trace w _ (passSpec_tx w) kring fuel htry⟩,
    ⟨kick_disarmed_of_loop w _ (passSpec_rx w) (passKick_rx w) fuel _
      (prologue_quiet w kring) hk0, loop_entry_trace w _ (passSpec_rx w) kring fuel htry⟩⟩

theorem C15_hostkick_disarmed_at_sync_witness :
    (kick_disarmed_at_sync (ptnetmap_tx_handler ex_world ex_kring 2).trace ∧
      wake_starts_disarmed (ptnetmap_tx_handler ex_world ex_kring 2).trace) ∧
    (kick_disarmed_at_sync (ptnetmap_rx_handler ex_world ex_kring 2).trace ∧
      wake_starts_disarmed (ptnetmap_rx_handler ex_world ex_kring 2).trace) :=
  C15_hostkick_disarmed_at_sync ex_world ex_kring 2 rfl rfl rfl rfl rfl

/-! ## What the steps of a pass leave in the worker -/

@[simp] theorem notify_guest_kring (w : World) (s : Worker) :
    (notify_guest w s).kring = s.kring := by
  unfold notify_guest
  simp only []
  split_ifs <;> rfl

@[simp] theorem notify_guest_cicle (w : World) (s : Worker) :
    (notify_guest w s).cicle_nowork = s.cicle_nowork := by
  unfold notify_guest
  simp only []
  split_ifs <;> rfl

theorem notify_guest_idle (w : World) (s : Worker) (h : s.work = false) :
    notify_guest w s = s := by
  unfold notify_guest
  simp [h]

@[simp] theorem host_read_g_head (w : World) (s : Worker) :
    (host_read_kring_csb w s).g_head = (w.read_kring_csb s.log.length).1 % U32 := rfl

@[simp] theorem host_read_cicle (w : World) (s : Worker) :
    (host_read_kring_csb w s).cicle_nowork = s.cicle_nowork := rfl

@[simp] theorem tx_publish_rhead (s : Worker) : (tx_publish s).kring.rhead = s.kring.rhead := by
  unfold tx_publish; simp only []; split_ifs <;> rfl

@[simp] theorem tx_publish_hwcur (s : Worker) :
    (tx_publish s).kring.nr_hwcur = s.kring.nr_hwcur := by
  unfold tx_publish; simp only []; split_ifs <;> rfl

@[simp] theorem tx_publish_hwtail (s : Worker) :
    (tx_publish s).kring.nr_hwtail = s.kring.nr_hwtail := by
  unfold tx_publish; simp only []; split_ifs <;> rfl

@[simp] theorem tx_publish_slots (s : Worker) :
    (tx_publish s).kring.nkr_num_slots = s.kring.nkr_num_slots := by
  unfold tx_publish; simp only []; split_ifs <;> rfl

@[simp] theorem rx_publish_rhead (s : Worker) : (rx_publish s).kring.rhead = s.kring.rhead := by
  unfold rx_publish; simp only []; split_ifs <;> rfl

@[simp] theorem rx_publish_hwtail (s : Worker) :
    (rx_publish s).kring.nr_hwtail = s.kring.nr_hwtail := by
  unfold rx_publish; simp only []; split_ifs <;> rfl

@[simp] theorem rx_publish_slots (s : Worker) :
    (rx_publish s).kring.nkr_num_slots = s.kring.nkr_num_slots := by
  unfold rx_publish; simp only []; split_ifs <;> rfl

@[simp] theorem tx_pre_rhead (w : World) (s : Worker) :
    (tx_pre w s).kring.rhead = tx_batch_head s.g_head s.kring.nr_hwcur s.kring.nkr_num_slots := by
  unfold tx_pre install_heads tx_reclaim_hint tx_apply_batch
  split_ifs <;> rfl

@[simp] theorem tx_pre_slots (w : World) (s : Worker) :
    (tx_pre w s).kring.nkr_num_slots = s.kring.nkr_num_slots := by
  unfold tx_pre install_heads tx_reclaim_hint tx_apply_batch
  split_ifs <;> rfl

@[simp] theorem tx_pre_rtail (w : World) (s : Worker) :
    (tx_pre w s).kring.rtail = s.kring.rtail := by
  unfold tx_pre install_heads tx_reclaim_hint tx_apply_batch
  split_ifs <;> rfl

@[simp] theorem tx_pre_work (w : World) (s : Worker) : (tx_pre w s).work = s.work := by
  simp [tx_pre]

@[simp] theorem call_sync_rhead (w : World) (s : Worker) :
    (call_sync w s).2.kring.rhead = s.kring.rhead := rfl

@[simp] theorem call_sync_slots (w : World) (s : Worker) :
    (call_sync w s).2.kring.nkr_num_slots = s.kring.nkr_num_slots := rfl

@[simp] theorem call_sync_rtail (w : World) (s : Worker) :
    (call_sync w s).2.kring.rtail = s.kring.rtail := rfl

@[simp] theorem call_sync_cicle (w : World) (s : Worker) :
    (call_sync w s).2.cicle_nowork = s.cicle_nowork := rfl

theorem call_sync_ret (w : World) (s : Worker) :
    (call_sync w s).1 = (w.nm_sync s.log.length s.kring s.g_flags).1 := rfl

theorem call_sync_hwcur (w : World) (s : Worker) :
    (call_sync w s).2.kring.nr_hwcur = (w.nm_sync s.log.length s.kring s.g_flags).2.1 % U32 := rfl

theorem call_sync_hwtail (w : World) (s : Worker) :
    (call_sync w s).2.kring.nr_hwtail = (w.nm_sync s.log.length s.kring s.g_flags).2.2 % U32 := rfl

@[simp] theorem tx_mid_rhead (w : World) (s : Worker) :
    (tx_mid w s).kring.rhead = tx_batch_head s.g_head s.kring.nr_hwcur s.kring.nkr_num_slots := by
  simp [tx_mid]

@[simp] theorem tx_mid_slots (w : World) (s : Worker) :
    (tx_mid w s).kring.nkr_num_slots = s.kring.nkr_num_slots := by
  simp [tx_mid]

theorem tx_mid_hwcur (w : World) (s : Worker) :
    (tx_mid w s).kring.nr_hwcur = (call_sync w (tx_pre w s)).2.kring.nr_hwcur := by
  simp [tx_mid]

theorem tx_mid_hwtail (w : World) (s : Worker) :
    (tx_mid w s).kring.nr_hwtail = (call_sync w (tx_pre w s)).2.kring.nr_hwtail := by
  simp [tx_mid]

@[simp] theorem rx_mid_rhead (w : World) (s : Worker) : (rx_mid w s).kring.rhead = s.g_head := by
  simp [rx_mid, install_heads]

@[simp] theorem rx_mid_slots (w : World) (s : Worker) :
    (rx_mid w s).kring.nkr_num_slots = s.kring.nkr_num_slots := by
  simp [rx_mid, install_heads]

theorem rx_mid_hwtail (w : World) (s : Worker) :
    (rx_mid w s).kring.nr_hwtail = (call_sync w (install_heads s)).2.kring.nr_hwtail := by
  simp [rx_mid]

@[simp] theorem doublecheck_kring (w : World) (s : Worker) : (doublecheck w s).kring = s.kring :=
  rfl

@[simp] theorem doublecheck_work (w : World) (s : Worker) : (doublecheck w s).work = s.work :=
  rfl

theorem leave_kr_put_kring (w : World) (s : Worker) : (leave_kr_put w s).kring = s.kring := by
  simp [leave_kr_put]

/-! ## C11: the entry gate -/

/-- C11: for every session that has no host adapter, is stopped, or is not configured when
`ptnetmap_tx_handler` or `ptnetmap_rx_handler` is invoked, the handler returns with an
empty trace (no CSB read or write, no `nm_kr_tryget`, no `nm_kr_put`, no `nm_sync`, no
interrupt) and leaves the kring as it was. -/
theorem C11_entry_gate (w : World) (kring : netmap_kring) (fuel : Nat)
    (h : w.pth_na = false ∨ w.stopped 0 = true ∨ w.configured 0 = false) :
    ptnetmap_tx_handler w kring fuel = { returned := true, trace := [], kring := kring } ∧
    ptnetmap_rx_handler w kring fuel = { returned := true, trace := [], kring := kring } := by
  unfold ptnetmap_tx_handler ptnetmap_rx_handler
  rcases h with h | h | h <;> simp [h]

theorem C11_entry_gate_witness :
    ex_world_stopped.stopped 0 = true ∧
    ptnetmap_tx_handler ex_world_stopped ex_kring 5
      = { returned := true, trace := [], kring := ex_kring } ∧
    ptnetmap_rx_handler ex_world_stopped ex_kring 5
      = { returned := true, trace := [], kring := ex_kring } :=
  ⟨rfl, C11_entry_gate ex_world_stopped ex_kring 5 (Or.inr (Or.inl rfl))⟩

/-! ## C16: how the TX handler leaves -/

theorem tx_exit_of_loop (w : World) (fuel : Nat) (s0 : Worker)
    (h0 : lastkick s0.log = some 0)
    (hret : (run_loop w (tx_iter w) fuel s0).returned = true) :
    tx_exit_state w (run_loop w (tx_iter w) fuel s0) := by
  have hP : ∀ s, lastkick s.log = some 0 → (tx_iter w s).1 = Next.again →
      lastkick (tx_iter w s).2.log = some 0 := by
    intro s h1 h2
    obtain ⟨_, _, _, _, _, _, _, _, h⟩ := passKick_tx w s
    exact h h2 h1
  rcases run_loop_trace w (tx_iter w) fuel s0 with ⟨_, h, _⟩ | ⟨hF, _, epi, htr, hepi⟩
  · rw [h] at hret; simp at hret
  obtain ⟨sk, hk, hleave, hFs⟩ :=
    for_ever_exit (tx_iter w) (fun s => lastkick s.log = some 0) hP fuel s0 h0 hF
  have hkr : (run_loop w (tx_iter w) fuel s0).kring = (tx_iter w sk).2.kring := by
    unfold run_loop
    rw [if_pos hF, leave_kr_put_kring, hFs]
  refine ⟨(tx_iter w sk).2.log.reverse, epi, by rw [htr, hFs], hepi, ?_⟩
  rw [hkr]
  obtain ⟨blk, hmid, hblk⟩ := tx_mid_log w sk
  rcases tx_iter_cases w sk with h | h | h | h | h | h
  · left
    rw [h.2]
    refine ⟨sk.log.reverse, (tx_pre w sk).kring.rhead, (tx_pre w sk).kring.rcur,
      (tx_pre w sk).g_flags, (call_sync w (tx_pre w sk)).1, h.1, ?_⟩
    rw [emit_log, call_sync_log, tx_pre_log]
    simp
  · rw [h.2.2.2] at hleave; simp at hleave
  · right; left
    rw [h.2.2.2]
    refine ⟨(Event.usleep_range :: (tx_mid w sk).log).reverse, (doublecheck w (tx_mid w sk)).g_cur,
      (doublecheck w (tx_mid w sk)).g_flags, ?_⟩
    rw [doublecheck_log, doublecheck_kring, ← h.2.2.1]
    simp
  · right; right; left
    rw [h.2.2.2]
    refine ⟨h.2.2.1, ?_⟩
    have hl : lastkick (tx_mid w sk).log = some 0 := by
      rw [hmid, lastkick_append_inner _ _ hblk, lastkick_cons_sync _ (by rfl)]
      exact hk
    obtain ⟨x, y, hxy, hx⟩ := lastkick_some hl
    refine ⟨y.reverse, x.reverse, ?_, ?_⟩
    · rw [hxy]; simp
    · intro v hv
      exact hx v (by simpa using hv)
  · right; right; right
    rw [h.2.2.2.2]
    simpa using h.2.2.2.1
  · rw [h.2.2.2.2] at hleave; simp at hleave

@[simp] theorem tx_pre_hwtail (w : World) (s : Worker) :
    (tx_pre w s).kring.nr_hwtail = s.kring.nr_hwtail := by
  unfold tx_pre install_heads tx_reclaim_hint tx_apply_batch
  split_ifs <;> rfl

@[simp] theorem tx_pre_rcur (w : World) (s : Worker) : (tx_pre w s).kring.rcur = s.g_cur := by
  unfold tx_pre install_heads tx_reclaim_hint tx_apply_batch
  split_ifs <;> rfl

@[simp] theorem loop_entry_kring (w : World) (kring : netmap_kring) :
    (loop_entry w kring).kring = kring := rfl

@[simp] theorem loop_entry_work (w : World) (kring : netmap_kring) :
    (loop_entry w kring).work = false := rfl

@[simp] theorem loop_entry_cicle (w : World) (kring : netmap_kring) :
    (loop_entry w kring).cicle_nowork = 0 := rfl

theorem loop_entry_g_head (w : World) (kring : netmap_kring) :
    (loop_entry w kring).g_head = (w.read_kring_csb 2).1 % U32 := rfl

theorem loop_entry_log (w : World) (kring : netmap_kring) :
    (loop_entry w kring).log = [Event.read_kring_csb (loop_entry w kring).g_head
      (loop_entry w kring).g_cur (loop_entry w kring).g_flags, Event.set_hostkick 0,
      Event.nm_kr_tryget w.nm_kr_tryget] := rfl

/-- A TX pass whose sync succeeds and finds `nr_hwtail` where it was published logs the
sync, the publication and the re-snapshot, and leaves `work` as it was. -/
theorem tx_mid_quiet (w : World) (s : Worker) (hw : s.work = false)
    (ht : (call_sync w (tx_pre w s)).2.kring.nr_hwtail = s.kring.rtail) :
    (tx_mid w s).work = false ∧
    (tx_mid w s).log = [Event.read_kring_csb (tx_mid w s).g_head (tx_mid w s).g_cur
        (tx_mid w s).g_flags,
      Event.write_kring_csb (call_sync w (tx_pre w s)).2.kring.nr_hwcur s.kring.rtail,
      Event.nm_sync (tx_pre w s).kring.rhead (tx_pre w s).kring.rcur (tx_pre w s).g_flags
        (call_sync w (tx_pre w s)).1] ++ s.log := by
  have hp : tx_publish (call_sync w (tx_pre w s)).2 =
      emit (Event.write_kring_csb (call_sync w (tx_pre w s)).2.kring.nr_hwcur s.kring.rtail)
        (call_sync w (tx_pre w s)).2 := by
    unfold tx_publish
    simp [ht]
  have hn : notify_guest w (tx_publish (call_sync w (tx_pre w s)).2) =
      tx_publish (call_sync w (tx_pre w s)).2 := by
    apply notify_guest_idle
    rw [hp]; simp [hw]
  unfold tx_mid
  rw [hn, hp]
  simp [hw]

theorem idle_wake_run (w : World) (kring : netmap_kring) (n : Nat)
    (hpts : w.pts = true) (hna : w.pth_na = true) (hst : w.stopped 0 = false)
    (hcf : w.configured 0 = true) (htry : w.nm_kr_tryget = 0) (hidle : idle_wake w kring) :
    (ptnetmap_tx_handler w kring (n + 1)).returned = true ∧
    idle_trace kring (ptnetmap_tx_handler w kring (n + 1)).trace := by
  obtain ⟨⟨hread, hbatch, hlt, hsync⟩, hrt⟩ := hidle
  rw [tx_handler_run w kring (n + 1) hpts hna hst hcf htry]
  have hg0 : (loop_entry w kring).g_head = kring.rhead := by
    rw [loop_entry_g_head]; exact hread 2
  have hret : (call_sync w (tx_pre w (loop_entry w kring))).1 = 0 := by
    rw [call_sync_ret]; exact (hsync _ _ _).1
  have hht : (call_sync w (tx_pre w (loop_entry w kring))).2.kring.nr_hwtail
      = (loop_entry w kring).kring.rtail := by
    rw [call_sync_hwtail, (hsync _ _ _).2, tx_pre_hwtail, loop_entry_kring, hrt,
      Nat.mod_eq_of_lt hlt]
  obtain ⟨hmw, hml⟩ := tx_mid_quiet w (loop_entry w kring) rfl hht
  have hmg : (tx_mid w (loop_entry w kring)).g_head = kring.rhead := by
    unfold tx_mid; rw [host_read_g_head]; exact hread _
  have hmr : (tx_mid w (loop_entry w kring)).kring.rhead = kring.rhead := by
    rw [tx_mid_rhead, hg0, loop_entry_kring, hbatch]
  have hdg : (doublecheck w (tx_mid w (loop_entry w kring))).g_head = kring.rhead := by
    unfold doublecheck; rw [host_read_g_head]; exact hread _
  have hit : tx_iter w (loop_entry w kring)
      = (Next.leave_kr_put, doublecheck w (tx_mid w (loop_entry w kring))) := by
    rw [tx_iter_eq, if_neg (by simp [hret]), if_pos (by rw [hmg, hmr]),
      if_neg (by rw [hdg, hmr]; simp)]
  have hF : for_ever (tx_iter w) (n + 1) (loop_entry w kring)
      = (true, doublecheck w (tx_mid w (loop_entry w kring))) := by
    simp [for_ever, hit]
  have hrun : run_loop w (tx_iter w) (n + 1) (loop_entry w kring)
      = leave_kr_put w (doublecheck w (tx_mid w (loop_entry w kring))) := by
    unfold run_loop; rw [hF]; rfl
  rw [hrun]
  refine ⟨rfl, ?_⟩
  have hl : (leave_kr_put w (doublecheck w (tx_mid w (loop_entry w kring)))).trace
      = (Event.nm_kr_put :: (doublecheck w (tx_mid w (loop_entry w kring))).log).reverse := by
    unfold leave_kr_put
    simp only []
    rw [notify_guest_idle w _ (by simp [hmw])]
    rfl
  rw [hl, doublecheck_log, hml, loop_entry_log, hdg, hmg, hg0, tx_pre_rhead, hg0,
    loop_entry_kring, hbatch, hret, htry, hrt]
  refine ⟨(loop_entry w kring).g_cur, (loop_entry w kring).g_flags,
    (tx_pre w (loop_entry w kring)).g_flags,
    (call_sync w (tx_pre w (loop_entry w kring))).2.kring.nr_hwcur,
    (tx_mid w (loop_entry w kring)).g_cur, (tx_mid w (loop_entry w kring)).g_flags,
    (doublecheck w (tx_mid w (loop_entry w kring))).g_cur,
    (doublecheck w (tx_mid w (loop_entry w kring))).g_flags, ?_⟩
  simp

/-- C16, as stated, fails: in this idle wake (the guest head reads as `rhead` at every
read, the batching step leaves it, the sync leaves `hwtail` at 7) the handler finds
`rtail = 5` behind `hwtail`, records the progress, reads `guest_need_txkick` and injects
an interrupt. -/
theorem C16_counterexample :
    idle_wake_stated ex_world_idle ex_kring_unpublished ∧
    (ptnetmap_tx_handler ex_world_idle ex_kring_unpublished 1).returned = true ∧
    (ptnetmap_tx_handler ex_world_idle ex_kring_unpublished 1).trace =
      [Event.nm_kr_tryget 0, Event.set_hostkick 0, Event.read_kring_csb 0 0 0,
       Event.nm_sync 0 0 0 0, Event.write_kring_csb 0 7, Event.rtail_update 7,
       Event.get_guestkick 1, Event.set_guestkick 0, Event.send_irq,
       Event.read_kring_csb 0 0 0, Event.usleep_range, Event.set_hostkick 1,
       Event.read_kring_csb 0 0 0, Event.nm_kr_put] ∧
    ¬ idle_trace ex_kring_unpublished
        (ptnetmap_tx_handler ex_world_idle ex_kring_unpublished 1).trace := by
  have htr : (ptnetmap_tx_handler ex_world_idle ex_kring_unpublished 1).trace =
      [Event.nm_kr_tryget 0, Event.set_hostkick 0, Event.read_kring_csb 0 0 0,
       Event.nm_sync 0 0 0 0, Event.write_kring_csb 0 7, Event.rtail_update 7,
       Event.get_guestkick 1, Event.set_guestkick 0, Event.send_irq,
       Event.read_kring_csb 0 0 0, Event.usleep_range, Event.set_hostkick 1,
       Event.read_kring_csb 0 0 0, Event.nm_kr_put] := by decide
  refine ⟨⟨fun _ => rfl, by decide, by decide, fun _ _ _ => ⟨rfl, rfl⟩⟩, by decide, htr, ?_⟩
  rintro ⟨c0, f0, fs, hc, c1, f1, c2, f2, h⟩
  rw [htr] at h
  have := congrArg List.length h
  simp at this

/-- C16, amended: every execution of `ptnetmap_tx_handler` that passed the entry gate,
acquired the kring and returned ends in one of three ways: (i) the host kick was armed
last, and either the sync just before failed or the guest head read just after equals
`kring->rhead`; (ii) the ring is full, `nr_hwtail == kring->rhead`, and the last write of
the host kick wrote 0; (iii) the session reads as stopped or not configured at the check
of line 327. And an idle wake with nothing left to publish (the guest head reads as
`rhead` throughout, `rtail == nr_hwtail` at entry, the sync does not advance `hwtail`)
returns after one pass with the trace: acquire, write host kick 0, read indices, sync,
publish `hwcur`/`hwtail`, read indices, microsleep, write host kick 1, read indices,
release; no interrupt. -/
theorem C16_tx_exit (w : World) (kring : netmap_kring) (fuel : Nat)
    (hpts : w.pts = true) (hna : w.pth_na = true) (hst : w.stopped 0 = false)
    (hcf : w.configured 0 = true) (htry : w.nm_kr_tryget = 0) :
    ((ptnetmap_tx_handler w kring fuel).returned = true →
      tx_exit_state w (ptnetmap_tx_handler w kring fuel)) ∧
    (idle_wake w kring → 0 < fuel →
      (ptnetmap_tx_handler w kring fuel).returned = true ∧
      idle_trace kring (ptnetmap_tx_handler w kring fuel).trace) := by
  constructor
  · rw [tx_handler_run w kring fuel hpts hna hst hcf htry]
    exact tx_exit_of_loop w fuel _ (by simp [loop_entry_log, lastkick])
  · intro hidle hfuel
    obtain ⟨n, rfl⟩ : ∃ n, fuel = n + 1 := ⟨fuel - 1, by omega⟩
    exact idle_wake_run w kring n hpts hna hst hcf htry hidle

theorem C16_tx_exit_witness :
    ((ptnetmap_tx_handler ex_world_idle ex_kring 1).returned = true ∧
      tx_exit_state ex_world_idle (ptnetmap_tx_handler ex_world_idle ex_kring 1)) ∧
    (idle_wake ex_world_idle ex_kring ∧
      (ptnetmap_tx_handler ex_world_idle ex_kring 1).returned = true ∧
      idle_trace ex_kring (ptnetmap_tx_handler ex_world_idle ex_kring 1).trace) :=
  ⟨⟨by decide, (C16_tx_exit ex_world_idle ex_kring 1 rfl rfl rfl rfl rfl).1 (by decide)⟩,
    ⟨⟨fun _ => rfl, by decide, by decide, fun _ _ _ => ⟨rfl, rfl⟩⟩, rfl⟩,
    (C16_tx_exit ex_world_idle ex_kring 1 rfl rfl rfl rfl rfl).2
      ⟨⟨fun _ => rfl, by decide, by decide, fun _ _ _ => ⟨rfl, rfl⟩⟩, rfl⟩ (by decide)⟩

/-! ## C17: the RX ring-full handshake -/

theorem rxfull_congr {k1 k2 : netmap_kring} (g : Nat) (h1 : k1.nr_hwtail = k2.nr_hwtail)
    (h2 : k1.nkr_num_slots = k2.nkr_num_slots) :
    ptnetmap_kr_rxfull k1 g = ptnetmap_kr_rxfull k2 g := by
  unfold ptnetmap_kr_rxfull
  rw [h1, h2]

theorem rx_iter_slots (w : World) (s : Worker) :
    (rx_iter w s).2.kring.nkr_num_slots = s.kring.nkr_num_slots := by
  rcases rx_iter_cases w s with h | h | h | h | h | h
  · rw [h.2]; simp [install_heads]
  · rw [h.2.2.2]; simp
  · rw [h.2.2.2]; simp
  · rw [h.2.2.2]; simp
  · rw [h.2.2.2.2]; simp
  · rw [h.2.2.2.2]; simp

theorem first_read_split {X Y A B : List Event} {e1 e2 : Event}
    (h : X ++ e1 :: Y = A ++ e2 :: B) (h1 : e1.is_read = true) (h2 : e2.is_read = true)
    (hX : ∀ e ∈ X, e.is_read = false) (hA : ∀ e ∈ A, e.is_read = false) :
    X = A ∧ e1 = e2 ∧ Y = B := by
  rcases List.append_eq_append_iff.mp h with ⟨c, h3, h4⟩ | ⟨c, h3, h4⟩
  · cases c with
    | nil =>
      simp only [List.nil_append, List.cons.injEq] at h4
      exact ⟨by simpa using h3.symm, h4.1, h4.2⟩
    | cons x c =>
      simp only [List.cons_append, List.cons.injEq] at h4
      have := hA e1 (by rw [h3, h4.1]; simp)
      rw [h1] at this; simp at this
  · cases c with
    | nil =>
      simp only [List.nil_append, List.cons.injEq] at h4
      exact ⟨by simpa using h3, h4.1.symm, h4.2.symm⟩
    | cons x c =>
      simp only [List.cons_append, List.cons.injEq] at h4
      have := hX e2 (by rw [h3, h4.1]; simp)
      rw [h2] at this; simp at this

theorem notification_not_read {e : Event} (h : e.notification = true) : e.is_read = false := by
  cases e <;> simp_all [Event.notification, Event.is_read]

/-- The log of an RX pass whose sync succeeded, up to the re-snapshot. -/
theorem rx_mid_shape (w : World) (s : Worker) :
    ∃ N, (rx_mid w s).log = Event.read_kring_csb (rx_mid w s).g_head (rx_mid w s).g_cur
        (rx_mid w s).g_flags :: (N ++ Event.write_kring_csb
          (call_sync w (install_heads s)).2.kring.nr_hwcur (rx_mid w s).kring.nr_hwtail ::
        Event.nm_sync (install_heads s).kring.rhead (install_heads s).kring.rcur
          (install_heads s).g_flags (call_sync w (install_heads s)).1 :: s.log) ∧
      ∀ e ∈ N, e.is_read = false := by
  obtain ⟨b2, h2, q2⟩ := inner_notify_guest w (rx_publish (call_sync w (install_heads s)).2)
  have hq2 : ∀ e ∈ b2, e.is_read = false := fun e he => notification_not_read (q2 e he)
  rw [rx_mid_hwtail]
  unfold rx_mid
  rw [host_read_log, h2]
  rcases rx_publish_cases (call_sync w (install_heads s)).2 with ⟨_, h1⟩ | ⟨_, h1⟩
  · refine ⟨b2, ?_, hq2⟩
    rw [h1, call_sync_log, install_heads_log]
  · refine ⟨b2 ++ [Event.rtail_update (call_sync w (install_heads s)).2.kring.nr_hwtail], ?_, ?_⟩
    · rw [h1, call_sync_log, install_heads_log]
      simp
    · intro e he
      rcases List.mem_append.mp he with he | he
      · exact hq2 e he
      · rw [List.mem_singleton.mp he]; rfl

theorem for_ever_first_pass (w : World) (body : Worker → Next × Worker) (hb : PassSpec w body)
    (n : Nat) (s : Worker) :
    ∃ W, (for_ever body (n + 1) s).2.log = W ++ (body s).2.log := by
  obtain ⟨ext, hext, _, _⟩ := for_ever_stop w body hb n (body s).2
  cases hit : body s with
  | mk nx s1 =>
    rw [hit] at hext
    cases nx with
    | leave_kr_put => exact ⟨[], by simp [for_ever, hit]⟩
    | again => exact ⟨ext, by simpa [for_ever, hit] using hext⟩

/-- What a run logs after the state in which it enters the loop: nothing, when the budget
of passes is used up, and otherwise a sync first. -/
theorem run_loop_continue (w : World) (body : Worker → Next × Worker) (hb : PassSpec w body)
    (n : Nat) (s : Worker) :
    ∃ cont, (run_loop w body n s).trace = s.log.reverse ++ cont ∧
      ((cont = [] ∧ (run_loop w body n s).returned = false) ∨
        ∃ a b c ret rest, cont = Event.nm_sync a b c ret :: rest) := by
  cases n with
  | zero =>
    exact ⟨[], by simp [run_loop, for_ever, out_of_fuel], Or.inl ⟨rfl, by
      simp [run_loop, for_ever, out_of_fuel]⟩⟩
  | succ n =>
    obtain ⟨W, hW⟩ := for_ever_first_pass w body hb n s
    obtain ⟨ev, blk, hev, hlog, _, _⟩ := hb s
    have hsync : ∃ a b c ret, ev = Event.nm_sync a b c ret := by
      cases ev <;> simp [Event.is_sync] at hev
      exact ⟨_, _, _, _, rfl⟩
    obtain ⟨a, b, c, ret, rfl⟩ := hsync
    rcases run_loop_trace w body (n + 1) s with ⟨_, _, h⟩ | ⟨_, _, epi, h, _⟩
    · refine ⟨Event.nm_sync a b c ret :: (blk.reverse ++ W.reverse), ?_, Or.inr ⟨_, _, _, _, _, rfl⟩⟩
      rw [h, hW, hlog]; simp
    · refine ⟨Event.nm_sync a b c ret :: (blk.reverse ++ W.reverse ++ Event.nm_kr_put :: epi), ?_,
        Or.inr ⟨_, _, _, _, _, rfl⟩⟩
      rw [h, hW, hlog]; simp

theorem run_loop_congr (w : World) (body : Worker → Next × Worker) {n m : Nat} {s t : Worker}
    (h : for_ever body n s = for_ever body m t) : run_loop w body n s = run_loop w body m t := by
  unfold run_loop
  rw [h]

theorem match_mid (w : World) (sk : Worker) {tr pre notif post Z : List Event}
    {a b c hc ht g c1 f1 : Nat} (hsk : sk.log = pre.reverse)
    (h1 : tr = (rx_mid w sk).log.reverse ++ Z)
    (h2 : tr = pre ++ Event.nm_sync a b c 0 :: Event.write_kring_csb hc ht ::
        (notif ++ Event.read_kring_csb g c1 f1 :: post))
    (hnotif : ∀ e ∈ notif, e.is_read = false) :
    (rx_mid w sk).kring.nr_hwtail = ht ∧ (rx_mid w sk).g_head = g ∧ post = Z := by
  obtain ⟨N, hN, hNr⟩ := rx_mid_shape w sk
  rw [h1, hN, hsk] at h2
  simp only [List.reverse_cons, List.reverse_append, List.reverse_reverse, List.append_assoc,
    List.singleton_append, List.cons_append, List.nil_append] at h2
  have h3 := List.append_cancel_left h2
  simp only [List.cons.injEq, Event.write_kring_csb.injEq] at h3
  obtain ⟨_, ⟨_, hht⟩, h4⟩ := h3
  have h5 := first_read_split h4 rfl rfl (fun e he => hNr e (by simpa using he)) hnotif
  simp only [Event.read_kring_csb.injEq] at h5
  exact ⟨hht, h5.2.1.1, h5.2.2.symm⟩

theorem rx_handshake_of_loop (w : World) (kring : netmap_kring) (fuel : Nat) :
    rx_full_handshake kring (run_loop w (rx_iter w) fuel (loop_entry w kring)) := by
  intro pre a b c hc ht notif g c1 f1 post htr hnotif hfull
  obtain ⟨sk, n, blk, hPk, hsk, hlog, hblk, hfor, _⟩ :=
    run_locate w (rx_iter w) (passSpec_rx w)
      (fun s => s.kring.nkr_num_slots = kring.nkr_num_slots)
      (fun s h _ => (rx_iter_slots w s).trans h) fuel (loop_entry w kring)
      (prologue_quiet w kring) rfl pre _ _ htr rfl
  rw [run_loop_congr w (rx_iter w) hfor] at htr ⊢
  have hfullk : ∀ x, (rx_mid w sk).kring.nr_hwtail = ht → ptnetmap_kr_rxfull (rx_mid w sk).kring x
      = ptnetmap_kr_rxfull { kring with nr_hwtail := ht } x := by
    intro x hx
    exact rxfull_congr x hx (by rw [rx_mid_slots]; exact hPk)
  rcases rx_iter_cases w sk with h | h | h | h | h | h
  · -- the sync of this pass failed: it is not the sync of the hypothesis
    exfalso
    rw [h.2, emit_log, call_sync_log, install_heads_log] at hlog
    have hlog1 : [Event.set_hostkick 1] ++ Event.nm_sync (install_heads sk).kring.rhead
        (install_heads sk).kring.rcur (install_heads sk).g_flags
        (call_sync w (install_heads sk)).1 :: sk.log = blk ++ Event.nm_sync a b c 0 :: sk.log :=
      hlog
    have := (sync_split hlog1 (le_refl _) rfl
      (by intro e he; rw [List.mem_singleton.mp he]; simp [Event.quiet, Event.is_sync])).2.1
    simp only [Event.nm_sync.injEq] at this
    exact h.1 this.2.2.2.symm
  · -- full at the re-snapshot, not full at the doublecheck
    have hF : for_ever (rx_iter w) (n + 1) sk
        = for_ever (rx_iter w) n (emit (Event.set_hostkick 0) (doublecheck w (rx_mid w sk))) := by
      simp [for_ever, h.2.2.2]
    rw [run_loop_congr w (rx_iter w) hF] at htr ⊢
    obtain ⟨cont, hcont, hcases⟩ := run_loop_continue w (rx_iter w) (passSpec_rx w) n
      (emit (Event.set_hostkick 0) (doublecheck w (rx_mid w sk)))
    have h1 : (run_loop w (rx_iter w) n
        (emit (Event.set_hostkick 0) (doublecheck w (rx_mid w sk)))).trace
        = (rx_mid w sk).log.reverse ++ (Event.usleep_range :: Event.set_hostkick 1 ::
          Event.read_kring_csb (doublecheck w (rx_mid w sk)).g_head
            (doublecheck w (rx_mid w sk)).g_cur (doublecheck w (rx_mid w sk)).g_flags ::
          Event.set_hostkick 0 :: cont) := by
      rw [hcont, emit_log, doublecheck_log]; simp
    obtain ⟨hht, _, hpost⟩ := match_mid w sk hsk h1 htr hnotif
    refine ⟨_, _, _, _, hpost, ?_, ?_⟩
    · intro hf
      rw [← hfullk _ hht, h.2.2.1] at hf
      simp at hf
    · intro _
      exact ⟨cont, rfl, hcases⟩
  · -- full at the re-snapshot and at the doublecheck
    have hF : for_ever (rx_iter w) (n + 1) sk = (true, doublecheck w (rx_mid w sk)) := by
      simp [for_ever, h.2.2.2]
    rcases run_loop_trace w (rx_iter w) (n + 1) sk with ⟨hf, _, _⟩ | ⟨_, hret, epi, htr1, hepi⟩
    · rw [hF] at hf; simp at hf
    rw [hF] at htr1
    have h1 : (run_loop w (rx_iter w) (n + 1) sk).trace
        = (rx_mid w sk).log.reverse ++ (Event.usleep_range :: Event.set_hostkick 1 ::
          Event.read_kring_csb (doublecheck w (rx_mid w sk)).g_head
            (doublecheck w (rx_mid w sk)).g_cur (doublecheck w (rx_mid w sk)).g_flags ::
          Event.nm_kr_put :: epi) := by
      rw [htr1]
      simp only []
      rw [doublecheck_log]; simp
    obtain ⟨hht, _, hpost⟩ := match_mid w sk hsk h1 htr hnotif
    refine ⟨_, _, _, _, hpost, ?_, ?_⟩
    · intro _
      exact ⟨hret, epi, rfl, hepi⟩
    · intro hf
      rw [← hfullk _ hht, h.2.2.1] at hf
      simp at hf
  all_goals
    -- not full at the re-snapshot: the hypothesis does not apply
    exfalso
    obtain ⟨W, hW⟩ := for_ever_first_pass w (rx_iter w) (passSpec_rx w) n sk
    have hbody : (rx_iter w sk).2 = rx_mid w sk := by
      first
        | rw [h.2.2.2]
        | rw [h.2.2.2.2]
    rw [hbody] at hW
    have h1 : ∃ Z, (run_loop w (rx_iter w) (n + 1) sk).trace = (rx_mid w sk).log.reverse ++ Z := by
      rcases run_loop_trace w (rx_iter w) (n + 1) sk with ⟨_, _, h⟩ | ⟨_, _, epi, h, _⟩
      · exact ⟨W.reverse, by rw [h, hW]; simp⟩
      · exact ⟨W.reverse ++ Event.nm_kr_put :: epi, by rw [h, hW]; simp⟩
    obtain ⟨Z, h1⟩ := h1
    obtain ⟨hht, hg, _⟩ := match_mid w sk hsk h1 htr hnotif
    rw [← hfullk _ hht, ← hg, h.2.1] at hfull
    simp at hfull

theorem no_sync_handshake_vacuous (kring : netmap_kring) (r : Run)
    (h : ∀ e ∈ r.trace, e.is_sync = false) : rx_full_handshake kring r := by
  intro pre a b c hc ht notif g c1 f1 post htr _ _
  have := h (Event.nm_sync a b c 0) (by rw [htr]; simp)
  simp [Event.is_sync] at this

theorem rxfull_iff (kring : netmap_kring) (g : Nat) (h0 : 0 < kring.nkr_num_slots)
    (h1 : kring.nkr_num_slots < U32) :
    ptnetmap_kr_rxfull kring g = true ↔
      kring.nr_hwtail = if g = 0 then kring.nkr_num_slots - 1 else g - 1 := by
  have hl : (kring.nkr_num_slots + U32 - 1) % U32 = kring.nkr_num_slots - 1 := by
    unfold U32 at h1 ⊢
    omega
  unfold ptnetmap_kr_rxfull nm_prev
  rw [hl]
  simp

/-- C17: on a ring of `0 < num_slots < 2^32` slots, `ptnetmap_kr_rxfull(kring, g_head)` is
true exactly when `nr_hwtail == (g_head == 0 ? num_slots - 1 : g_head - 1)`; and in every
execution of `ptnetmap_rx_handler`, when the ring is full at the re-snapshot after a
successful sync, the handler sleeps, writes `host_need_rxkick = 1` and reads the guest
indices again: if the ring is still full it releases the kring and returns without
writing the host kick again, and if it is not it writes `host_need_rxkick = 0` and its
next action is another `nm_sync` call. -/
theorem C17_rx_full_handshake (w : World) (kring : netmap_kring) (fuel : Nat) :
    (∀ g, 0 < kring.nkr_num_slots → kring.nkr_num_slots < U32 →
      (ptnetmap_kr_rxfull kring g = true ↔
        kring.nr_hwtail = if g = 0 then kring.nkr_num_slots - 1 else g - 1)) ∧
    rx_full_handshake kring (ptnetmap_rx_handler w kring fuel) := by
  refine ⟨fun g h0 h1 => rxfull_iff kring g h0 h1, ?_⟩
  rcases rx_handler_cases w kring fuel with ⟨_, h⟩ | h
  · rw [h]
    exact rx_handshake_of_loop w kring fuel
  · exact no_sync_handshake_vacuous kring _ h

theorem C17_rx_full_handshake_witness :
    (ptnetmap_kr_rxfull ex_kring 0 = true ↔
      ex_kring.nr_hwtail = if (0 : Nat) = 0 then ex_kring.nkr_num_slots - 1 else 0 - 1) ∧
    ((ptnetmap_rx_handler ex_world_idle ex_kring 1).trace =
      [Event.nm_kr_tryget 0, Event.set_hostkick 0, Event.read_kring_csb 0 0 0] ++
        Event.nm_sync 0 0 0 0 :: Event.write_kring_csb 0 7 :: ([] ++
          Event.read_kring_csb 0 0 0 :: [Event.usleep_range, Event.set_hostkick 1,
            Event.read_kring_csb 0 0 0, Event.nm_kr_put]) ∧
      ∃ g2 c2 f2 rest, [Event.usleep_range, Event.set_hostkick 1,
          Event.read_kring_csb 0 0 0, Event.nm_kr_put] = Event.usleep_range ::
          Event.set_hostkick 1 :: Event.read_kring_csb g2 c2 f2 :: rest ∧
      (ptnetmap_kr_rxfull { ex_kring with nr_hwtail := 7 } g2 = true →
        (ptnetmap_rx_handler ex_world_idle ex_kring 1).returned = true ∧
          ∃ epi, rest = Event.nm_kr_put :: epi ∧ ∀ e ∈ epi, e.notification = true) ∧
      (ptnetmap_kr_rxfull { ex_kring with nr_hwtail := 7 } g2 = false →
        ∃ rest2, rest = Event.set_hostkick 0 :: rest2 ∧
          ((rest2 = [] ∧ (ptnetmap_rx_handler ex_world_idle ex_kring 1).returned = false) ∨
            ∃ a3 b3 c3 ret3 rest3, rest2 = Event.nm_sync a3 b3 c3 ret3 :: rest3))) ∧
    ((ptnetmap_rx_handler ex_world_guest_frees ex_kring 2).trace =
      [Event.nm_kr_tryget 0, Event.set_hostkick 0, Event.read_kring_csb 0 0 0] ++
        Event.nm_sync 0 0 0 0 :: Event.write_kring_csb 0 7 :: ([] ++
          Event.read_kring_csb 0 0 0 :: [Event.usleep_range, Event.set_hostkick 1,
            Event.read_kring_csb 1 1 0, Event.set_hostkick 0, Event.nm_sync 1 1 0 0,
            Event.write_kring_csb 0 7, Event.read_kring_csb 1 1 0]) ∧
      ∃ g2 c2 f2 rest, [Event.usleep_range, Event.set_hostkick 1,
          Event.read_kring_csb 1 1 0, Event.set_hostkick 0, Event.nm_sync 1 1 0 0,
          Event.write_kring_csb 0 7, Event.read_kring_csb 1 1 0] = Event.usleep_range ::
          Event.set_hostkick 1 :: Event.read_kring_csb g2 c2 f2 :: rest ∧
      (ptnetmap_kr_rxfull { ex_kring with nr_hwtail := 7 } g2 = true →
        (ptnetmap_rx_handler ex_world_guest_frees ex_kring 2).returned = true ∧
          ∃ epi, rest = Event.nm_kr_put :: epi ∧ ∀ e ∈ epi, e.notification = true) ∧
      (ptnetmap_kr_rxfull { ex_kring with nr_hwtail := 7 } g2 = false →
        ∃ rest2, rest = Event.set_hostkick 0 :: rest2 ∧
          ((rest2 = [] ∧
              (ptnetmap_rx_handler ex_world_guest_frees ex_kring 2).returned = false) ∨
            ∃ a3 b3 c3 ret3 rest3, rest2 = Event.nm_sync a3 b3 c3 ret3 :: rest3))) :=
  ⟨(C17_rx_full_handshake ex_world_idle ex_kring 1).1 0 (by decide) (by decide),
    ⟨by decide, (C17_rx_full_handshake ex_world_idle ex_kring 1).2
      [Event.nm_kr_tryget 0, Event.set_hostkick 0, Event.read_kring_csb 0 0 0] 0 0 0 0 7 [] 0 0 0
      [Event.usleep_range, Event.set_hostkick 1, Event.read_kring_csb 0 0 0, Event.nm_kr_put]
      (by decide) (by simp) (by decide)⟩,
    ⟨by decide, (C17_rx_full_handshake ex_world_guest_frees ex_kring 2).2
      [Event.nm_kr_tryget 0, Event.set_hostkick 0, Event.read_kring_csb 0 0 0] 0 0 0 0 7 [] 0 0 0
      [Event.usleep_range, Event.set_hostkick 1, Event.read_kring_csb 1 1 0,
        Event.set_hostkick 0, Event.nm_sync 1 1 0 0, Event.write_kring_csb 0 7,
        Event.read_kring_csb 1 1 0]
      (by decide) (by simp) (by decide)⟩⟩

/-! ## C13: a burst beyond the cap -/

theorem sync_rheads_append (a b : List Event) :
    sync_rheads (a ++ b) = sync_rheads a ++ sync_rheads b := by
  induction a with
  | nil => rfl
  | cons e a ih => cases e <;> simp [sync_rheads, ih]

theorem sync_rheads_quiet (a : List Event) (h : ∀ e ∈ a, e.is_sync = false) :
    sync_rheads a = [] := by
  induction a with
  | nil => rfl
  | cons e a ih =>
    have he := h e (by simp)
    have ha := ih (fun x hx => h x (by simp [hx]))
    cases e <;> simp_all [sync_rheads, Event.is_sync]

theorem ring_dist_eq (g h n : Nat) (hg : g < n) (hh : h < n) :
    (g + n - h) % n = if h ≤ g then g - h else g + n - h := by
  split_ifs with hle
  · have : g + n - h = (g - h) + n := by omega
    rw [this, Nat.add_mod_right, Nat.mod_eq_of_lt (by omega)]
  · exact Nat.mod_eq_of_lt (by omega)

theorem ring_add_eq (h k n : Nat) (hh : h < n) (hk : k < n) :
    (h + k) % n = if h + k < n then h + k else h + k - n := by
  split_ifs with hlt
  · exact Nat.mod_eq_of_lt hlt
  · rw [Nat.mod_eq_sub_mod (by omega), Nat.mod_eq_of_lt (by omega)]

/-- One TX pass of the burst scenario, from a worker that holds the guest head `g` and a
kring with `hwcur = c`: the sync is handed the head `r` of the batching step; the pass goes
round again when `r` is not yet `g`, and leaves the loop through the doublecheck when it
is. -/
theorem tx_pass_burst (w : World) (g : Nat) (hw : burst_backend w g) (s : Worker) :
    (tx_mid w s).g_head = g ∧
    (tx_mid w s).kring.nr_hwcur
      = tx_batch_head s.g_head s.kring.nr_hwcur s.kring.nkr_num_slots % U32 ∧
    sync_rheads (tx_mid w s).log.reverse = sync_rheads s.log.reverse ++
      [tx_batch_head s.g_head s.kring.nr_hwcur s.kring.nkr_num_slots] ∧
    (tx_batch_head s.g_head s.kring.nr_hwcur s.kring.nkr_num_slots < U32 →
      tx_batch_head s.g_head s.kring.nr_hwcur s.kring.nkr_num_slots ≠ g →
      tx_iter w s = (Next.again, tx_mid w s)) ∧
    (tx_batch_head s.g_head s.kring.nr_hwcur s.kring.nkr_num_slots = g →
      tx_iter w s = (Next.leave_kr_put, doublecheck w (tx_mid w s))) := by
  obtain ⟨_, _, hst, hcf, _, hread, hsync⟩ := hw
  have hret : (call_sync w (tx_pre w s)).1 = 0 := by
    rw [call_sync_ret]; exact (hsync _ _ _).1
  have hmg : (tx_mid w s).g_head = g := by
    unfold tx_mid; rw [host_read_g_head]; exact hread _
  have hdg : (doublecheck w (tx_mid w s)).g_head = g := by
    unfold doublecheck; rw [host_read_g_head]; exact hread _
  have hcur : (tx_mid w s).kring.nr_hwcur
      = tx_batch_head s.g_head s.kring.nr_hwcur s.kring.nkr_num_slots % U32 := by
    rw [tx_mid_hwcur, call_sync_hwcur, (hsync _ _ _).2.1, tx_pre_rhead]
  have htail : (tx_mid w s).kring.nr_hwtail
      ≠ tx_batch_head s.g_head s.kring.nr_hwcur s.kring.nkr_num_slots % U32 := by
    rw [tx_mid_hwtail, call_sync_hwtail, ← tx_pre_rhead w s]
    exact (hsync _ _ _).2.2
  refine ⟨hmg, hcur, ?_, ?_, ?_⟩
  · obtain ⟨blk, hblk, hq⟩ := tx_mid_log w s
    rw [hblk, List.reverse_append, List.reverse_cons, sync_rheads_append, sync_rheads_append,
      tx_pre_rhead]
    rw [sync_rheads_quiet blk.reverse (fun e he => (inner_quiet (hq e (by simpa using he))).1)]
    simp [sync_rheads]
  · intro hlt hne
    rw [Nat.mod_eq_of_lt hlt] at htail
    rw [tx_iter_eq, if_neg (by simp [hret]), if_neg (by rw [hmg, tx_mid_rhead]; exact Ne.symm hne),
      if_neg (by rw [tx_mid_rhead]; exact htail), if_neg (by simp [hst, hcf])]
  · intro heq
    rw [tx_iter_eq, if_neg (by simp [hret]), if_pos (by rw [hmg, tx_mid_rhead, heq]),
      if_neg (by rw [hdg, tx_mid_rhead, heq]; simp)]

theorem sync_rheads_run (w : World) (body : Worker → Next × Worker) (fuel : Nat) (s0 : Worker)
    (h : (for_ever body fuel s0).1 = true) :
    (run_loop w body fuel s0).returned = true ∧
    sync_rheads (run_loop w body fuel s0).trace
      = sync_rheads (for_ever body fuel s0).2.log.reverse := by
  rcases run_loop_trace w body fuel s0 with ⟨hf, _, _⟩ | ⟨_, hret, epi, htr, hepi⟩
  · rw [h] at hf; simp at hf
  · refine ⟨hret, ?_⟩
    rw [htr, sync_rheads_append, sync_rheads_quiet (Event.nm_kr_put :: epi), List.append_nil]
    intro e he
    rcases List.mem_cons.mp he with he | he
    · rw [he]; rfl
    · exact (inner_quiet (notification_inner (hepi e he))).1

theorem sync_rheads_doublecheck (w : World) (s : Worker) :
    sync_rheads (doublecheck w s).log.reverse = sync_rheads s.log.reverse := by
  rw [doublecheck_log]
  simp [sync_rheads_append, sync_rheads]

theorem sync_rheads_loop_entry (w : World) (kring : netmap_kring) :
    sync_rheads (loop_entry w kring).log.reverse = [] := by
  rw [loop_entry_log]
  simp [sync_rheads]

/-- The heads handed to the backend in the burst scenario: the clamp value and then the
guest head when the guest is more than half a ring ahead, the guest head alone
otherwise; and the handler returns. -/
theorem burst_rheads (w : World) (kring : netmap_kring) (n h g fuel : Nat)
    (hn : n ≤ 2147483648) (hh : h < n) (hg : g < n)
    (hslots : kring.nkr_num_slots = n) (hcur : kring.nr_hwcur = h) (hw : burst_backend w g)
    (hfuel : 2 ≤ fuel) :
    (ptnetmap_tx_handler w kring fuel).returned = true ∧
    sync_rheads (ptnetmap_tx_handler w kring fuel).trace =
      if n / 2 < (if h ≤ g then g - h else g + n - h) then
        [if h + n / 2 < n then h + n / 2 else h + n / 2 - n, g]
      else [g] := by
  have hw1 := hw
  obtain ⟨hpts, hna, hst, hcf, htry, hread, _⟩ := hw1
  rw [tx_handler_run w kring fuel hpts hna (hst 0) (hcf 0) htry]
  obtain ⟨m, rfl⟩ : ∃ m, fuel = m + 2 := ⟨fuel - 2, by omega⟩
  have hg0 : (loop_entry w kring).g_head = g := by
    rw [loop_entry_g_head]; exact hread 2
  obtain ⟨hmg, hmc, hml, hagain, hleave⟩ := tx_pass_burst w g hw (loop_entry w kring)
  rw [hg0, loop_entry_kring, hslots, hcur] at hmc hml hagain hleave
  have hr1 := tx_batch_head_eq n h g hn hh hg
  by_cases hd : n / 2 < (if h ≤ g then g - h else g + n - h)
  · -- two passes
    rw [if_pos hd] at hr1 ⊢
    have hr1lt : tx_batch_head g h n < n := by rw [hr1]; split_ifs <;> omega
    have hr1ne : tx_batch_head g h n ≠ g := by
      rw [hr1]; split_ifs at hd ⊢ <;> omega
    have hit1 := hagain (by unfold U32; omega) hr1ne
    rw [Nat.mod_eq_of_lt (by unfold U32; omega)] at hmc
    obtain ⟨_, _, hml2, _, hleave2⟩ := tx_pass_burst w g hw (tx_mid w (loop_entry w kring))
    rw [hmg, hmc, tx_mid_slots, loop_entry_kring, hslots] at hml2 hleave2
    have hr2 : tx_batch_head g (tx_batch_head g h n) n = g := by
      rw [tx_batch_head_eq n _ g hn hr1lt hg, hr1]
      split_ifs at hd ⊢ <;> omega
    have hit2 := hleave2 hr2
    have hF : for_ever (tx_iter w) (m + 2) (loop_entry w kring)
        = (true, doublecheck w (tx_mid w (tx_mid w (loop_entry w kring)))) := by
      simp [for_ever, hit1, hit2]
    obtain ⟨hret, hsr⟩ := sync_rheads_run w (tx_iter w) (m + 2) (loop_entry w kring)
      (by rw [hF])
    refine ⟨hret, ?_⟩
    rw [hsr, hF]
    simp only []
    rw [sync_rheads_doublecheck, hml2, hml, sync_rheads_loop_entry, hr2, hr1]
    rfl
  · -- one pass
    rw [if_neg hd] at hr1 ⊢
    have hit1 := hleave hr1
    have hF : for_ever (tx_iter w) (m + 2) (loop_entry w kring)
        = (true, doublecheck w (tx_mid w (loop_entry w kring))) := by
      simp [for_ever, hit1]
    obtain ⟨hret, hsr⟩ := sync_rheads_run w (tx_iter w) (m + 2) (loop_entry w kring)
      (by rw [hF])
    refine ⟨hret, ?_⟩
    rw [hsr, hF]
    simp only []
    rw [sync_rheads_doublecheck, hml, sync_rheads_loop_entry, hr1]
    rfl

theorem prev_ne_self (x lim : Nat) (h0 : 0 < lim) (h1 : lim < U32) :
    nm_prev (x % U32) lim % U32 ≠ x % U32 := by
  have hy : x % U32 < U32 := Nat.mod_lt _ (by decide)
  generalize x % U32 = y at hy ⊢
  unfold nm_prev
  split_ifs with h0
  · subst h0
    rw [Nat.mod_eq_of_lt h1]
    omega
  · rw [Nat.mod_eq_of_lt (by omega)]
    omega

theorem ex_world_burst_backend : burst_backend ex_world_burst 202 := by
  refine ⟨rfl, rfl, fun _ => rfl, fun _ => rfl, rfl, fun _ => ?_, fun t k f => ⟨rfl, rfl, ?_⟩⟩
  · show 202 % U32 = 202
    decide
  exact prev_ne_self k.rhead 255 (by decide) (by decide)

theorem ex_world_huge_backend : burst_backend ex_world_huge 2147483648 := by
  refine ⟨rfl, rfl, fun _ => rfl, fun _ => rfl, rfl, fun _ => ?_, fun t k f => ⟨rfl, rfl, ?_⟩⟩
  · show 2147483648 % U32 = 2147483648
    decide
  exact prev_ne_self k.rhead 4294967294 (by decide) (by decide)

/-- C13, as stated, fails on a ring of `2^32 - 1` slots: with `hwcur = 0` and the in-range
guest head `2^31`, the batching step leaves the head (the `int` difference is negative and
the correction brings it to the cap), and the one sync of the run is handed `2^31` slots,
more than `num_slots / 2 = 2^31 - 1`. -/
theorem C13_counterexample :
    burst_backend ex_world_huge 2147483648 ∧
    ex_kring_huge.nkr_num_slots = 4294967295 ∧ ex_kring_huge.nr_hwcur = 0 ∧
    2147483648 < 4294967295 ∧
    sync_rheads (ptnetmap_tx_handler ex_world_huge ex_kring_huge 2).trace = [2147483648] ∧
    batches 4294967295 0 (sync_rheads (ptnetmap_tx_handler ex_world_huge ex_kring_huge 2).trace)
      = [2147483648] ∧
    ¬ burst_split_claim 4294967295 0 2147483648
        (ptnetmap_tx_handler ex_world_huge ex_kring_huge 2) := by
  have htr : sync_rheads (ptnetmap_tx_handler ex_world_huge ex_kring_huge 2).trace
      = [2147483648] := by decide
  refine ⟨ex_world_huge_backend, rfl, rfl, by decide, htr, by rw [htr]; decide, ?_⟩
  intro h
  have := h.2 2147483648 (by rw [htr]; decide)
  omega

/-- C13, amended: on a TX ring of `n ≤ 2^31` slots with `hwcur = h < n`, a guest head fixed
at `g < n`, and a backend whose `nm_sync` always succeeds, sets `hwcur` to `rhead` and
leaves the ring not full, `ptnetmap_tx_handler` returns after calling `nm_sync` with
`rhead = (h + n/2) mod n` and then with `rhead = g` when the guest is more than `n/2`
slots ahead, and once with `rhead = g` otherwise; the batches sum to the guest's produced
count `(g - h) mod n` and each is at most `n/2`. For `n = 256` and `g = (h + 192) mod 256`
the heads are `(h + 128) mod 256` and `(h + 192) mod 256`, so the batches are 128 and 64. -/
theorem C13_burst_split (w : World) (kring : netmap_kring) (n h g fuel : Nat)
    (hn : n ≤ 2147483648) (hh : h < n) (hg : g < n)
    (hslots : kring.nkr_num_slots = n) (hcur : kring.nr_hwcur = h) (hw : burst_backend w g)
    (hfuel : 2 ≤ fuel) :
    (ptnetmap_tx_handler w kring fuel).returned = true ∧
    sync_rheads (ptnetmap_tx_handler w kring fuel).trace =
      (if n / 2 < (g + n - h) % n then [(h + n / 2) % n, g] else [g]) ∧
    burst_split_claim n h g (ptnetmap_tx_handler w kring fuel) ∧
    (n = 256 → g = (h + 192) % 256 →
      sync_rheads (ptnetmap_tx_handler w kring fuel).trace = [(h + 128) % 256, (h + 192) % 256] ∧
      batches 256 h (sync_rheads (ptnetmap_tx_handler w kring fuel).trace) = [128, 64]) := by
  obtain ⟨hret, hsr⟩ := burst_rheads w kring n h g fuel hn hh hg hslots hcur hw hfuel
  have hhalf : n / 2 < n := by omega
  have hdist := ring_dist_eq g h n hg hh
  have hadd := ring_add_eq h (n / 2) n hh hhalf
  have hsr2 : sync_rheads (ptnetmap_tx_handler w kring fuel).trace =
      (if n / 2 < (g + n - h) % n then [(h + n / 2) % n, g] else [g]) := by
    rw [hsr, hdist, hadd]
  refine ⟨hret, hsr2, ?_, ?_⟩
  · unfold burst_split_claim
    rw [hsr2]
    by_cases hd : n / 2 < (g + n - h) % n
    · have hclamp : (h + n / 2) % n < n := Nat.mod_lt _ (by omega)
      have h1 := ring_dist_eq ((h + n / 2) % n) h n hclamp hh
      have h2 := ring_dist_eq g ((h + n / 2) % n) n hg hclamp
      rw [if_pos hd]
      simp only [batches, List.sum_cons, List.sum_nil, List.mem_cons, List.mem_singleton,
        List.not_mem_nil, or_false, forall_eq_or_imp, forall_eq, add_zero]
      rw [h1, h2, hdist]
      rw [hdist] at hd
      rw [hadd]
      split_ifs at hd ⊢ <;> omega
    · rw [if_neg hd]
      simp only [batches, List.sum_cons, List.sum_nil, List.mem_singleton, forall_eq, add_zero,
        true_and]
      omega
  · intro h256 hg192
    subst h256
    subst hg192
    rw [hsr2]
    have hd : 256 / 2 < ((h + 192) % 256 + 256 - h) % 256 := by omega
    rw [if_pos hd]
    simp only [batches]
    refine ⟨by simp, ?_⟩
    have e1 : ((h + 256 / 2) % 256 + 256 - h) % 256 = 128 := by omega
    have e2 : ((h + 192) % 256 + 256 - (h + 256 / 2) % 256) % 256 = 64 := by omega
    rw [e1, e2]

theorem C13_burst_split_witness :
    burst_backend ex_world_burst 202 ∧
    (ptnetmap_tx_handler ex_world_burst ex_kring_burst 2).returned = true ∧
    sync_rheads (ptnetmap_tx_handler ex_world_burst ex_kring_burst 2).trace = [138, 202] ∧
    batches 256 10 (sync_rheads (ptnetmap_tx_handler ex_world_burst ex_kring_burst 2).trace)
      = [128, 64] ∧
    burst_split_claim 256 10 202 (ptnetmap_tx_handler ex_world_burst ex_kring_burst 2) :=
  ⟨ex_world_burst_backend,
    (C13_burst_split ex_world_burst ex_kring_burst 256 10 202 2 (by decide) (by decide)
      (by decide) rfl rfl ex_world_burst_backend (by decide)).1,
    ((C13_burst_split ex_world_burst ex_kring_burst 256 10 202 2 (by decide) (by decide)
      (by decide) rfl rfl ex_world_burst_backend (by decide)).2.2.2 rfl (by decide)).1,
    ((C13_burst_split ex_world_burst ex_kring_burst 256 10 202 2 (by decide) (by decide)
      (by decide) rfl rfl ex_world_burst_backend (by decide)).2.2.2 rfl (by decide)).2,
    (C13_burst_split ex_world_burst ex_kring_burst 256 10 202 2 (by decide) (by decide)
      (by decide) rfl rfl ex_world_burst_backend (by decide)).2.2.1⟩

/-! ## C14: the RX quiescent exit -/

/-- An RX pass whose sync succeeds and finds `nr_hwtail` where it was published logs the
sync, the publication and the re-snapshot, leaves `work` as it was and counts one more
pass without progress. -/
theorem rx_mid_quiet (w : World) (s : Worker) (hw : s.work = false)
    (ht : (call_sync w (install_heads s)).2.kring.nr_hwtail = s.kring.rtail) :
    (rx_mid w s).work = false ∧ (rx_mid w s).cicle_nowork = s.cicle_nowork + 1 ∧
    (rx_mid w s).kring.rtail = s.kring.rtail ∧
    (rx_mid w s).log = [Event.read_kring_csb (rx_mid w s).g_head (rx_mid w s).g_cur
        (rx_mid w s).g_flags,
      Event.write_kring_csb (call_sync w (install_heads s)).2.kring.nr_hwcur s.kring.rtail,
      Event.nm_sync (install_heads s).kring.rhead (install_heads s).kring.rcur
        (install_heads s).g_flags (call_sync w (install_heads s)).1] ++ s.log := by
  have hrt : (call_sync w (install_heads s)).2.kring.rtail = s.kring.rtail := rfl
  have hp : rx_publish (call_sync w (install_heads s)).2 =
      { emit (Event.write_kring_csb (call_sync w (install_heads s)).2.kring.nr_hwcur
          s.kring.rtail) (call_sync w (install_heads s)).2 with
        cicle_nowork := s.cicle_nowork + 1 } := by
    unfold rx_publish
    simp only [emit_kring, hrt, ht, ne_eq, not_true_eq_false, if_false]
    rfl
  have hn : notify_guest w (rx_publish (call_sync w (install_heads s)).2) =
      rx_publish (call_sync w (install_heads s)).2 := by
    apply notify_guest_idle
    rw [hp]
    exact hw
  unfold rx_mid
  rw [hn, hp]
  refine ⟨hw, rfl, rfl, rfl⟩

theorem quiet_log_pass {c : Nat} {l : List Event} (h : quiet_log c l) (g cu f hc ht a b fl : Nat)
    (ret : Int) :
    quiet_log (c + 1) ([Event.read_kring_csb g cu f, Event.write_kring_csb hc ht,
      Event.nm_sync a b fl ret] ++ l) := by
  obtain ⟨h1, h2, h3, h4, h5⟩ := h
  refine ⟨?_, ?_, ?_, ?_, ?_⟩
  · simp [List.filter, Event.is_sync, h1]
  · simp [h2]
  · intro v hv
    simp only [List.cons_append, List.nil_append, List.mem_cons] at hv
    rcases hv with hv | hv | hv | hv
    · simp at hv
    · simp at hv
    · simp at hv
    · exact h3 v hv
  · simp [h4]
  · simp [h5]

/-- One pass of the quiescent scenario: the worker is as before with one more pass
counted; the loop goes on while fewer than `PTN_RX_NOWORK_CYCLE` passes are counted and is
left when the count reaches it. -/
theorem rx_pass_quiescent (w : World) (kring : netmap_kring) (hq : rx_quiescent w kring)
    (c : Nat) (s : Worker) (hs : quiet_worker kring c s) :
    quiet_worker kring (c + 1) (rx_mid w s) ∧
    (c + 1 < PTN_RX_NOWORK_CYCLE → rx_iter w s = (Next.again, rx_mid w s)) ∧
    (PTN_RX_NOWORK_CYCLE ≤ c + 1 → rx_iter w s = (Next.leave_kr_put, rx_mid w s)) := by
  obtain ⟨⟨_, _, hst, hcf, _, hread, ⟨hlt, hsync⟩, hnf, hne⟩, _⟩ := hq
  obtain ⟨hslots, hht, hrt, hg, hwk, hc, hlog⟩ := hs
  have hret : (call_sync w (install_heads s)).1 = 0 := by
    rw [call_sync_ret]; exact (hsync _ _ _).1
  have htail : (call_sync w (install_heads s)).2.kring.nr_hwtail = kring.nr_hwtail := by
    rw [call_sync_hwtail, (hsync _ _ _).2]
    show s.kring.nr_hwtail % U32 = kring.nr_hwtail
    rw [hht, Nat.mod_eq_of_lt hlt]
  obtain ⟨hmw, hmc, hmrt, hml⟩ := rx_mid_quiet w s hwk (by rw [htail, hrt])
  have hmg : (rx_mid w s).g_head = kring.rhead := by
    unfold rx_mid; rw [host_read_g_head]; exact hread _
  have hmt : (rx_mid w s).kring.nr_hwtail = kring.nr_hwtail := by
    rw [rx_mid_hwtail, htail]
  have hms : (rx_mid w s).kring.nkr_num_slots = kring.nkr_num_slots := by
    rw [rx_mid_slots, hslots]
  have hfull : ptnetmap_kr_rxfull (rx_mid w s).kring (rx_mid w s).g_head = false := by
    rw [hmg, rxfull_congr kring.rhead hmt hms]; exact hnf
  have hempty : (rx_mid w s).kring.nr_hwtail ≠ (rx_mid w s).kring.rhead := by
    rw [hmt, rx_mid_rhead, hg]; exact hne
  refine ⟨⟨hms, hmt, by rw [hmrt, hrt], hmg, hmw, by rw [hmc, hc], ?_⟩, ?_, ?_⟩
  · rw [hml]
    exact quiet_log_pass hlog _ _ _ _ _ _ _ _ _
  · intro hlt10
    rw [rx_iter_eq, if_neg (by simp [hret]), if_neg (by simp [hfull]),
      if_neg (by rw [hmc, hc]; simp only [not_or, not_le]; exact ⟨hempty, hlt10⟩),
      if_neg (by simp [hst, hcf])]
  · intro hge
    rw [rx_iter_eq, if_neg (by simp [hret]), if_neg (by simp [hfull]),
      if_pos (by rw [hmc, hc]; exact Or.inr hge)]

theorem rx_loop_quiescent (w : World) (kring : netmap_kring) (hq : rx_quiescent w kring) :
    ∀ k c s, c + k = PTN_RX_NOWORK_CYCLE → 0 < k → quiet_worker kring c s →
      ∀ fuel, k ≤ fuel → ∃ s1, for_ever (rx_iter w) fuel s = (true, s1) ∧
        quiet_worker kring PTN_RX_NOWORK_CYCLE s1 := by
  intro k
  induction k with
  | zero => intro c s _ h; omega
  | succ k ih =>
    intro c s hck _ hs fuel hfuel
    obtain ⟨m, rfl⟩ : ∃ m, fuel = m + 1 := ⟨fuel - 1, by omega⟩
    obtain ⟨hs1, hagain, hleave⟩ := rx_pass_quiescent w kring hq c s hs
    by_cases hk : k = 0
    · subst hk
      have hit := hleave (by omega)
      refine ⟨rx_mid w s, by simp [for_ever, hit], ?_⟩
      have : c + 1 = PTN_RX_NOWORK_CYCLE := by omega
      rw [← this]; exact hs1
    · have hit := hagain (by omega)
      obtain ⟨s1, h1, h2⟩ := ih (c + 1) (rx_mid w s) (by omega) (by omega) hs1 m (by omega)
      exact ⟨s1, by simp [for_ever, hit, h1], h2⟩

theorem quiet_worker_entry (w : World) (kring : netmap_kring) (hq : rx_quiescent w kring) :
    quiet_worker kring 0 (loop_entry w kring) := by
  obtain ⟨⟨_, _, _, _, htry, hread, _, _, _⟩, hrt⟩ := hq
  refine ⟨rfl, rfl, hrt, ?_, rfl, rfl, ?_⟩
  · rw [loop_entry_g_head]; exact hread 2
  · rw [loop_entry_log]
    refine ⟨by simp [List.filter, Event.is_sync], by simp, ?_, by simp, by simp⟩
    intro v hv
    simp only [List.mem_cons, List.mem_singleton, List.not_mem_nil, or_false] at hv
    rcases hv with hv | hv | hv
    · simp at hv
    · simp only [Event.set_hostkick.injEq] at hv; exact hv
    · simp at hv

/-- C14, as stated, fails: the ring is neither full nor empty, the guest indices do not
change and no sync advances `hwtail`, but `hwtail = 3` is ahead of the recorded
`rtail = 0`: the first pass records the progress and injects an interrupt, the count of
passes without progress starts after it, and the handler calls `nm_sync` eleven times. -/
theorem C14_counterexample :
    rx_quiescent_stated ex_world_idle ex_kring_rx_unpublished ∧
    (ptnetmap_rx_handler ex_world_idle ex_kring_rx_unpublished 12).returned = true ∧
    ((ptnetmap_rx_handler ex_world_idle ex_kring_rx_unpublished 12).trace.filter
      Event.is_sync).length = 11 ∧
    Event.send_irq ∈ (ptnetmap_rx_handler ex_world_idle ex_kring_rx_unpublished 12).trace ∧
    ¬ quiescent_exit (ptnetmap_rx_handler ex_world_idle ex_kring_rx_unpublished 12).trace := by
  have hirq : Event.send_irq ∈
      (ptnetmap_rx_handler ex_world_idle ex_kring_rx_unpublished 12).trace := by decide
  refine ⟨⟨rfl, rfl, fun _ => rfl, fun _ => rfl, rfl, fun _ => rfl,
    ⟨by decide, fun _ _ _ => ⟨rfl, rfl⟩⟩, by decide, by decide⟩, by decide, by decide, hirq, ?_⟩
  intro h
  exact h.2.2.2.1 hirq

/-- C14, amended: for every RX ring state that is neither full (`hwtail != prev(g_head)`)
nor empty (`hwtail != rhead`) and has nothing left to publish (`rtail == nr_hwtail`), with
the session running and the kring acquired, the guest head unchanged at `kring->rhead`,
and a backend whose `nm_sync` always succeeds without advancing `hwtail`,
`ptnetmap_rx_handler` returns after exactly `PTN_RX_NOWORK_CYCLE = 10` calls of
`nm_sync`; it wrote `host_need_rxkick = 0` and never another value, injected no
interrupt, and released the kring as its last action. -/
theorem C14_rx_quiescent_exit (w : World) (kring : netmap_kring) (fuel : Nat)
    (hq : rx_quiescent w kring) (hfuel : PTN_RX_NOWORK_CYCLE ≤ fuel) :
    (ptnetmap_rx_handler w kring fuel).returned = true ∧
    quiescent_exit (ptnetmap_rx_handler w kring fuel).trace := by
  have hq1 := hq
  obtain ⟨⟨hpts, hna, hst, hcf, htry, _⟩, _⟩ := hq1
  rw [rx_handler_run w kring fuel hpts hna (hst 0) (hcf 0) htry]
  obtain ⟨s1, hF, hs1⟩ := rx_loop_quiescent w kring hq PTN_RX_NOWORK_CYCLE 0 (loop_entry w kring)
    (by simp) (by decide) (quiet_worker_entry w kring hq) fuel hfuel
  obtain ⟨_, _, _, _, hwk, _, h1, h2, h3, h4, h5⟩ := hs1
  have hrun : run_loop w (rx_iter w) fuel (loop_entry w kring) = leave_kr_put w s1 := by
    unfold run_loop; rw [hF]; rfl
  have htr : (leave_kr_put w s1).trace = s1.log.reverse ++ [Event.nm_kr_put] := by
    unfold leave_kr_put
    simp only []
    rw [notify_guest_idle w _ (by simpa using hwk)]
    simp
  rw [hrun]
  refine ⟨rfl, ?_⟩
  rw [htr]
  refine ⟨?_, ?_, ?_, ?_, ⟨s1.log.reverse, rfl, by simpa using h5⟩⟩
  · rw [List.filter_append, List.filter_reverse, List.length_append, List.length_reverse, h1]
    simp [List.filter, Event.is_sync]
  · simp [h2]
  · intro v hv
    rcases List.mem_append.mp hv with hv | hv
    · exact h3 v (by simpa using hv)
    · simp at hv
  · simp [h4]

theorem C14_rx_quiescent_exit_witness :
    rx_quiescent ex_world_idle ex_kring_rx ∧
    (ptnetmap_rx_handler ex_world_idle ex_kring_rx 12).returned = true ∧
    quiescent_exit (ptnetmap_rx_handler ex_world_idle ex_kring_rx 12).trace :=
  ⟨⟨⟨rfl, rfl, fun _ => rfl, fun _ => rfl, rfl, fun _ => rfl,
      ⟨by decide, fun _ _ _ => ⟨rfl, rfl⟩⟩, by decide, by decide⟩, rfl⟩,
    C14_rx_quiescent_exit ex_world_idle ex_kring_rx 12
      ⟨⟨rfl, rfl, fun _ => rfl, fun _ => rfl, rfl, fun _ => rfl,
        ⟨by decide, fun _ _ _ => ⟨rfl, rfl⟩⟩, by decide, by decide⟩, rfl⟩ (by decide)⟩

/-! ## C18: acquire and release -/

/-- After a failed `nm_kr_tryget` the TX handler still calls `nm_kr_put` (the `goto
leave_kr_put` of line 211), whatever the world; the RX handler does not (the `goto leave`
of line 417). -/
theorem failed_tryget_traces (w : World) (kring : netmap_kring) (fuel : Nat)
    (hpts : w.pts = true) (hna : w.pth_na = true) (hst : w.stopped 0 = false)
    (hcf : w.configured 0 = true) (htry : w.nm_kr_tryget ≠ 0) :
    (ptnetmap_tx_handler w kring fuel).trace
      = [Event.nm_kr_tryget w.nm_kr_tryget, Event.nm_kr_put] ∧
    (ptnetmap_rx_handler w kring fuel).trace = [Event.nm_kr_tryget w.nm_kr_tryget] := by
  unfold ptnetmap_tx_handler ptnetmap_rx_handler leave_kr_put
  simp [hpts, hna, hst, hcf, htry, notify_guest, emit, Worker.init]

/-- A handler that acquired the kring and returns has released it exactly once. -/
theorem put_once_of_loop (w : World) (body : Worker → Next × Worker) (hb : PassSpec w body)
    (fuel : Nat) (s0 : Worker) (hs0 : ∀ e ∈ s0.log, e.quiet)
    (hret : (run_loop w body fuel s0).returned = true) :
    (run_loop w body fuel s0).trace.count Event.nm_kr_put = 1 := by
  obtain ⟨ext, hext, hextput, _⟩ := for_ever_stop w body hb fuel s0
  have hput_F : Event.nm_kr_put ∉ (for_ever body fuel s0).2.log := by
    rw [hext]
    intro h
    rcases List.mem_append.mp h with h | h
    · exact hextput _ h rfl
    · exact (hs0 _ h).2 rfl
  rcases run_loop_trace w body fuel s0 with ⟨_, h, _⟩ | ⟨_, _, epi, h, hepi⟩
  · rw [h] at hret; simp at hret
  · rw [h, List.count_append, List.count_cons_self,
      List.count_eq_zero_of_not_mem (by simpa using hput_F),
      List.count_eq_zero_of_not_mem
        (fun hm => (inner_quiet (notification_inner (hepi _ hm))).2 rfl)]

theorem put_once_when_acquired (w : World) (kring : netmap_kring) (fuel : Nat)
    (hpts : w.pts = true) (hna : w.pth_na = true) (hst : w.stopped 0 = false)
    (hcf : w.configured 0 = true) (htry : w.nm_kr_tryget = 0) :
    ((ptnetmap_tx_handler w kring fuel).returned = true →
      (ptnetmap_tx_handler w kring fuel).trace.count Event.nm_kr_put = 1) ∧
    ((ptnetmap_rx_handler w kring fuel).returned = true →
      (ptnetmap_rx_handler w kring fuel).trace.count Event.nm_kr_put = 1) := by
  rw [tx_handler_run w kring fuel hpts hna hst hcf htry,
    rx_handler_run w kring fuel hpts hna hst hcf htry]
  exact ⟨put_once_of_loop w _ (passSpec_tx w) fuel _ (prologue_quiet w kring),
    put_once_of_loop w _ (passSpec_rx w) fuel _ (prologue_quiet w kring)⟩

/-- C18, failing input: another context holds the TX kring, so `nm_kr_tryget` returns
non-zero. `ptnetmap_tx_handler` jumps to `leave_kr_put` (line 211) and calls `nm_kr_put` on
the kring it did not acquire; `ptnetmap_rx_handler` jumps to `leave` (line 417) and does
not. With a successful `nm_kr_tryget` both handlers release the kring exactly once. -/
theorem C18_tx_put_after_failed_tryget :
    (ptnetmap_tx_handler ex_world_busy ex_kring 1).trace
      = [Event.nm_kr_tryget 1, Event.nm_kr_put] ∧
    (ptnetmap_rx_handler ex_world_busy ex_kring 1).trace = [Event.nm_kr_tryget 1] ∧
    (ptnetmap_tx_handler ex_world ex_kring 1).trace.count Event.nm_kr_put = 1 ∧
    (ptnetmap_rx_handler ex_world ex_kring 1).trace.count Event.nm_kr_put = 1 := by
  decide

end Ptnetmap
